import Mathlib

/-!
# belvedere: configuration loading, key-binding resolution, reload and dispatch

A shallow embedding of `src/config.c` (with the declarations of
`include/config.h`) and of the functions of `belvedere.c`, `hid_manager.c`,
`device_utils.c` and `ipc.c` that start the daemon, reload it, dispatch key
events and answer the control channel, and theorems about them.

Conventions of the embedding.

* A C string is the list of the bytes that precede its terminator, written as
  a `List Char`; a buffer that may hold a zero byte is cut with `cstr`.
* The arrays of `config_t` together with their counters are lists: the list
  holds the entries `0 .. count - 1`, and the counter is the length.
* `int` is 32 bits and `long` is 64 bits (LP64), conversions to a narrower
  integer type wrap; the C locale is in force for `isspace` and `tolower`.
* A file is the list of its bytes. What the loader treats as a line is a
  buffer filled by one call of `fgets` on `char line[256]`: at most 255 bytes,
  so a longer line of the file reaches the loop in several pieces.
* The macro `MAX_CONFIG_DEVICES` is not defined in the sources; the functions
  take the device ceiling as the parameter `maxDev`.
* The process environment, the file system and the library hidapi are
  structures holding the answers of their functions; a function that calls
  `system` returns the list of the commands it passes to it, in order.
-/

namespace Belvedere

/-! ## Constants of `include/config.h` -/

/-- The macro `MAX_BINDINGS` of config.h. -/
def MAX_BINDINGS : Nat := 5

/-- The macro `MAX_DEVICES` of config.h. -/
def MAX_DEVICES : Nat := 5

/-- The macro `MAX_MONITORED_KEYCODES` of config.h. -/
def MAX_MONITORED_KEYCODES : Nat := 5

/-- The macro `MAX_PATH` of config.h. -/
def MAX_PATH : Nat := 256

/-- The macro `DEFAULT_SETLEDS_PATH` of config.h. -/
def DEFAULT_SETLEDS_PATH : List Char := "/usr/local/bin/setleds".toList

/-- Modelled from the spec: the macro `MAX_CONFIG_DEVICES`, which `load_config`
compares `device_count` with, is not defined in any file of the sources. The
spec gives the device ceiling as 10 ("Device-set size ≤ configured ceiling
(10)", "devices: bounded-sequence<DeviceProfile, max 10>"), which is also the
declared size of the array `devices[10]` in `config_t`. -/
def MAX_CONFIG_DEVICES : Nat := 10

/-! ## Data model (`include/config.h`) -/

/-- The struct `key_binding_t`: `keycode` is a `uint16_t`, `led` the string
held in `char led[16]`, `mode` one `char`. The field `has_mode_override` is
never read or written by the sources and is left out. -/
structure key_binding_t where
  keycode : Nat
  led : List Char
  mode : Char
deriving DecidableEq, Repr

/-- The struct `device_config_t`: `bindings` holds the entries
`bindings[0 .. binding_count - 1]`. The field `default_mode` is never read or
written by the sources and is left out. -/
structure device_config_t where
  vendor : Nat
  product : Nat
  target : List Char
  bindings : List key_binding_t
deriving DecidableEq, Repr

/-- The struct `config_t`: `devices` holds `devices[0 .. device_count - 1]`
and `monitored_keycodes` holds the first `monitored_keycodes_count` entries. -/
structure config_t where
  setleds_path : List Char
  devices : List device_config_t
  monitored_keycodes : List Nat
deriving DecidableEq, Repr

/-- The field `device_count`. -/
def config_t.device_count (c : config_t) : Nat := c.devices.length

/-- The field `monitored_keycodes_count`. -/
def config_t.monitored_keycodes_count (c : config_t) : Nat := c.monitored_keycodes.length

/-- The field `binding_count`. -/
def device_config_t.binding_count (d : device_config_t) : Nat := d.bindings.length

/-! ## The C library functions that `config.c` calls -/

/-- The zero byte that terminates a C string. -/
def NUL : Char := Char.ofNat 0

/-- The C string held in a buffer: the bytes before the first zero byte. -/
def cstr (buf : List Char) : List Char := buf.takeWhile (fun c => c != NUL)

/-- The function `isspace` in the C locale: space, and the bytes 9 to 13
(tab, newline, vertical tab, form feed, carriage return). -/
def isspace (c : Char) : Bool := c.toNat == 32 || (9 ≤ c.toNat && c.toNat ≤ 13)

/-- The call `strcasecmp(a, b) == 0`: equality after `tolower` of every byte. -/
def strcasecmp_eq (a b : List Char) : Bool := a.map Char.toLower == b.map Char.toLower

/-- The value of a byte as a digit of the given base (10 or 16). -/
def digit_value (base : Nat) (c : Char) : Option Nat :=
  let n := c.toNat
  let v : Option Nat :=
    if 48 ≤ n && n ≤ 57 then some (n - 48)
    else if 97 ≤ n && n ≤ 102 then some (n - 87)
    else if 65 ≤ n && n ≤ 70 then some (n - 55)
    else none
  match v with
  | some d => if d < base then some d else none
  | none => none

/-- Reads the longest run of digits of the given base, accumulating their
value; returns the value and the unread rest. -/
def scan_digits (base : Nat) : List Char → Nat → Nat × List Char
  | [], acc => (acc, [])
  | c :: cs, acc =>
    match digit_value base c with
    | some d => scan_digits base cs (acc * base + d)
    | none => (acc, c :: cs)

/-- Whether a string starts with `0x` or `0X`. -/
def has_hex_marker (s : List Char) : Bool :=
  match s with
  | a :: b :: _ => a == '0' && (b == 'x' || b == 'X')
  | _ => false

/-- Splits an optional sign off the front of a string: `true` for a minus. -/
def scan_sign (s : List Char) : Bool × List Char :=
  match s with
  | c :: t => if c == '-' then (true, t) else if c == '+' then (false, t) else (false, s)
  | [] => (false, [])

/-- The call `strtol(s, NULL, base)` for base 10 or 16, as a `long` of 64
bits: leading white space, an optional sign, for base 16 an optional `0x`,
then digits; no digits give 0; a value out of range gives `LONG_MAX` or
`LONG_MIN`. -/
def strtol (base : Nat) (s : List Char) : Int :=
  let s1 := s.dropWhile isspace
  let sg := scan_sign s1
  let s2 := if base == 16 && has_hex_marker sg.2 then sg.2.drop 2 else sg.2
  let v := (scan_digits base s2 0).1
  if sg.1 then (if v > 2 ^ 63 then -(2 ^ 63 : Int) else -(v : Int))
  else (if v ≥ 2 ^ 63 then (2 ^ 63 : Int) - 1 else (v : Int))

/-- Conversion of a `long` to `int`: the value wraps modulo 2^32 into
[-2^31, 2^31). -/
def long_to_int (x : Int) : Int := (x + 2 ^ 31) % 2 ^ 32 - 2 ^ 31

/-- The call `atoi(s)`, which is `(int) strtol(s, NULL, 10)`. -/
def atoi (s : List Char) : Int := long_to_int (strtol 10 s)

/-- One `%x` conversion of `sscanf` into an `unsigned int`: leading white
space is skipped, then an optional sign, an optional `0x`, and at least one
hexadecimal digit are read. The digits are converted as by `strtoul` (a value
of 2^64 or more gives `ULONG_MAX`, a minus sign negates modulo 2^64) and
stored modulo 2^32. Returns the stored value and the unread rest, or `none`
when the conversion fails: `0x` with no digit after it is a matching failure,
as ISO C has it. -/
def scan_hex (s : List Char) : Option (Nat × List Char) :=
  let s1 := s.dropWhile isspace
  let sg := scan_sign s1
  let s2 := if has_hex_marker sg.2 then sg.2.drop 2 else sg.2
  match s2 with
  | [] => none
  | c :: _ =>
    if (digit_value 16 c).isSome then
      let r := scan_digits 16 s2 0
      let ul := if r.1 ≥ 2 ^ 64 then 2 ^ 64 - 1 else if sg.1 then (2 ^ 64 - r.1) % 2 ^ 64 else r.1
      some (ul % 2 ^ 32, r.2)
    else none

/-- The call `sscanf(s, "[%x/%x]", &vid, &pid)`: `some (vid, pid)` exactly when
it returns 2. The closing bracket of the format comes after the last
conversion and has no influence on the result. -/
def sscanf_section (s : List Char) : Option (Nat × Nat) :=
  match s with
  | [] => none
  | c :: t =>
    if c == '[' then
      match scan_hex t with
      | none => none
      | some (vid, t1) =>
        match t1 with
        | [] => none
        | c1 :: t2 =>
          if c1 == '/' then
            match scan_hex t2 with
            | none => none
            | some (pid, _) => some (vid, pid)
          else none
    else none

/-- The successive results of `strtok(s, d)`, `strtok(NULL, d)`, ... for a
single delimiter byte: the maximal non-empty runs of bytes other than `d`.
The second argument accumulates the current token in reverse. -/
def strtok_all (d : Char) : List Char → List Char → List (List Char)
  | [], acc => if acc.isEmpty then [] else [acc.reverse]
  | c :: cs, acc =>
    if c == d then
      (if acc.isEmpty then strtok_all d cs [] else acc.reverse :: strtok_all d cs [])
    else strtok_all d cs (c :: acc)

/-- The successive buffers that `fgets(line, cap + 1, file)` fills until it
returns `NULL`: each holds at most `cap` bytes and ends after a newline, when
`cap` bytes were read, or at the end of the file. The third argument
accumulates the current buffer in reverse. -/
def fgets_all (cap : Nat) : List Char → List Char → List (List Char)
  | [], acc => if acc.isEmpty then [] else [acc.reverse]
  | c :: cs, acc =>
    if c == '\n' || acc.length + 1 ≥ cap then (c :: acc).reverse :: fgets_all cap cs []
    else fgets_all cap cs (c :: acc)

/-! ## `config.c` -/

/-- The function `trim`: skips leading white space, and unless nothing is
left, cuts the trailing white space, never going back past the first byte. -/
def trim (str : List Char) : List Char :=
  match str.dropWhile isspace with
  | [] => []
  | c :: rest => c :: (rest.reverse.dropWhile isspace).reverse

/-- The call `strchr(s, '=')` followed by `*eq = 0`: the bytes before the
first `=` and the bytes after it, or `none` when there is no `=`. -/
def split_eq : List Char → Option (List Char × List Char)
  | [] => none
  | c :: cs =>
    if c == '=' then some ([], cs)
    else
      match split_eq cs with
      | some (k, v) => some (c :: k, v)
      | none => none

/-- The keycode of a token (lines 146-155 and 197-206): hexadecimal through
`strtol(token + 2, NULL, 16)` when the token starts with `0x` or `0X`,
otherwise `atoi(token)`; the result is an `int`. -/
def parse_keycode (token : List Char) : Int :=
  if has_hex_marker token then long_to_int (strtol 16 (token.drop 2)) else atoi token

/-- The loop of lines 142-171 over the tokens of a `monitored_keycodes`
value, given the keycodes stored so far. -/
def monitored_loop : List (List Char) → List Nat → List Nat
  | [], ks => ks
  | token :: rest, ks =>
    if ks.length < MAX_MONITORED_KEYCODES then
      let keycode := parse_keycode token
      if 0 ≤ keycode && keycode ≤ 0xFFFF then monitored_loop rest (ks ++ [keycode.toNat])
      else monitored_loop rest ks
    else ks

/-- The branch `else if (in_general_section)` (lines 126-173) for one trimmed
line. -/
def general_line (config : config_t) (trimmed : List Char) : config_t :=
  match split_eq trimmed with
  | none => config
  | some (k, v) =>
    let key := trim k
    let val := trim v
    if strcasecmp_eq key "setleds".toList then
      { config with setleds_path := val.take (MAX_PATH - 1) }
    else if strcasecmp_eq key "monitored_keycodes".toList then
      { config with
        monitored_keycodes := monitored_loop (strtok_all ',' val []) config.monitored_keycodes }
    else config

/-- The branch `else if (current)` (lines 174-212) for one trimmed line,
as a change of the profile that `current` points to. -/
def device_line (current : device_config_t) (trimmed : List Char) : device_config_t :=
  match split_eq trimmed with
  | none => current
  | some (k, v) =>
    let key := trim k
    let val := trim v
    if strcasecmp_eq key "target".toList then
      { current with target := val.take 127 }
    else if current.bindings.length ≥ MAX_BINDINGS then current
    else if val.length < 2 then current
    else
      { current with
        bindings := current.bindings ++
          [{ keycode := (parse_keycode key % 65536).toNat,
             led := (val.drop 1).take 15,
             mode := val.headD NUL }] }

/-- Applies `f` to the entry at index `i` of a list, if there is one. -/
def update_at {α : Type} (f : α → α) : List α → Nat → List α
  | [], _ => []
  | a :: l, 0 => f a :: l
  | a :: l, i + 1 => a :: update_at f l i

/-- The local variables of `load_config` that live across iterations of the
reading loop, with the configuration being filled. `current` is `NULL`
(`none`) or points to an entry of `config.devices`, given by its index. -/
structure load_state where
  config : config_t
  current : Option Nat
  in_general_section : Bool
deriving DecidableEq, Repr

/-- The body of the `while (fgets(...))` loop (lines 94-212) for one buffer
read by `fgets`; `maxDev` stands for `MAX_CONFIG_DEVICES`. -/
def process_line (maxDev : Nat) (st : load_state) (line : List Char) : load_state :=
  let trimmed := trim (cstr line)
  match trimmed with
  | [] => st
  | c :: _ =>
    if c == '#' then st
    else if c == '[' then
      if strcasecmp_eq trimmed "[general]".toList then
        { st with in_general_section := true, current := none }
      else if st.config.devices.length ≥ maxDev then
        { st with in_general_section := false }
      else
        match sscanf_section trimmed with
        | some (vid, pid) =>
          { config := { st.config with
              devices := st.config.devices ++
                [{ vendor := vid % 65536, product := pid % 65536, target := [], bindings := [] }] },
            current := some st.config.devices.length,
            in_general_section := false }
        | none => { st with in_general_section := false, current := none }
    else if st.in_general_section then
      { st with config := general_line st.config trimmed }
    else
      match st.current with
      | some i =>
        { st with config := { st.config with
            devices := update_at (fun d => device_line d trimmed) st.config.devices i } }
      | none => st

/-- The state in which the reading loop starts (lines 84-90). -/
def initial_state (config : config_t) : load_state :=
  { config := { config with devices := [], setleds_path := [], monitored_keycodes := [] },
    current := none,
    in_general_section := false }

/-- The buffers the loop of `load_config` reads from a file: `char line[256]`
makes `fgets` return at most 255 bytes at a time. -/
def read_lines (file : List Char) : List (List Char) := fgets_all 255 file []

/-- The reading loop of `load_config` over the buffers of a file. -/
def load_loop (maxDev : Nat) (lines : List (List Char)) (st : load_state) : load_state :=
  lines.foldl (process_line maxDev) st

/-- Lines 217-221: the default path when none was set. -/
def apply_default_path (config : config_t) : config_t :=
  if config.setleds_path.isEmpty then
    { config with setleds_path := DEFAULT_SETLEDS_PATH.take (MAX_PATH - 1) }
  else config

/-- The function `load_config`. `file` is the outcome of lines 67-79: `none`
when no configuration path is found or `fopen` fails, otherwise the bytes of
the opened file. `maxDev` stands for `MAX_CONFIG_DEVICES`. Returns the `bool`
result and the contents of `*config` after the call. -/
def load_config (maxDev : Nat) (file : Option (List Char)) (config : config_t) :
    Bool × config_t :=
  match file with
  | none => (false, config)
  | some bytes =>
    (true, apply_default_path (load_loop maxDev (read_lines bytes) (initial_state config)).config)

/-- The call `snprintf(cmd_buffer, 256, "%s %c%s", path, mode, led)` read
back as a C string: at most 255 bytes are stored, and a zero `mode` byte ends
the string. -/
def format_command (path : List Char) (mode : Char) (led : List Char) : List Char :=
  cstr ((path ++ ' ' :: mode :: led).take 255)

/-- The inner loop of `get_command_for_key` (lines 253-263) over the bindings
of the matching profile. -/
def find_binding_command (path : List Char) (keycode : Nat) :
    List key_binding_t → Option (List Char)
  | [] => none
  | binding :: rest =>
    if binding.keycode = keycode then some (format_command path binding.mode binding.led)
    else find_binding_command path keycode rest

/-- The outer loop of `get_command_for_key` (lines 247-266) over the
profiles: the first profile with the queried identifiers ends the search. -/
def find_device_command (path : List Char) (vendor product keycode : Nat) :
    List device_config_t → Option (List Char)
  | [] => none
  | dev :: rest =>
    if dev.vendor = vendor ∧ dev.product = product then
      find_binding_command path keycode dev.bindings
    else find_device_command path vendor product keycode rest

/-- The function `get_command_for_key`: `none` stands for `NULL`. -/
def get_command_for_key (config : config_t) (vendor product keycode : Nat) :
    Option (List Char) :=
  find_device_command config.setleds_path vendor product keycode config.devices


/-! ## Concrete configurations and sources used below -/

/-- A configuration with every field empty, as `config_t c = {0}`. -/
def empty_config : config_t := { setleds_path := [], devices := [], monitored_keycodes := [] }

/-- The profile that `test_get_command_for_key` builds. -/
def test_device : device_config_t :=
  { vendor := 0x5043, product := 0x54a3, target := [],
    bindings := [{ keycode := 111, led := "caps".toList, mode := '+' },
                 { keycode := 112, led := "num".toList, mode := '-' },
                 { keycode := 113, led := "scroll".toList, mode := '^' }] }

/-- The configuration that `test_get_command_for_key` builds. -/
def test_config : config_t :=
  { setleds_path := "/usr/local/bin/setleds".toList,
    devices := [test_device],
    monitored_keycodes := [] }

/-- A source whose `setleds` line is 248 bytes long and whose only binding
has an LED name of 15 bytes: the command of that binding would be 257 bytes. -/
def long_path_source : List Char :=
  "[general]\nsetleds=".toList ++ List.replicate 240 'a' ++ "\n[1/2]\n3=+0123456789abcde\n".toList

/-- A configuration in which two profiles have the same identifiers. -/
def duplicate_config : config_t :=
  { setleds_path := "/usr/local/bin/setleds".toList,
    devices := [{ vendor := 9, product := 9, target := [], bindings := [] },
                { vendor := 1, product := 2, target := [],
                  bindings := [{ keycode := 4, led := "caps".toList, mode := '+' }] },
                { vendor := 1, product := 2, target := [],
                  bindings := [{ keycode := 4, led := "num".toList, mode := '-' },
                               { keycode := 5, led := "scroll".toList, mode := '^' }] }],
    monitored_keycodes := [] }

/-- The source that `test_load_config_basic` writes. -/
def basic_source : List Char := "[0x5043/0x54a3]\ntarget = *\n111 = +caps\n".toList

/-- Whether the body of the reading loop takes a buffer for a section header:
its trimmed text starts with `[` (line 98). -/
def is_section_line (line : List Char) : Bool :=
  match trim (cstr line) with
  | c :: _ => c == '['
  | [] => false

/-- The source that `test_load_config_limits` writes: `MAX_DEVICES + 2` = 7
sections, each with a target and `MAX_BINDINGS + 2` = 7 bindings. -/
def limits_source : List Char :=
  ("[0x0000/0x0000]\ntarget = device0\n0 = +caps\n1 = +caps\n2 = +caps\n3 = +caps\n4 = +caps\n5 = +caps\n6 = +caps\n\n" ++
   "[0x0001/0x0001]\ntarget = device1\n0 = +caps\n1 = +caps\n2 = +caps\n3 = +caps\n4 = +caps\n5 = +caps\n6 = +caps\n\n" ++
   "[0x0002/0x0002]\ntarget = device2\n0 = +caps\n1 = +caps\n2 = +caps\n3 = +caps\n4 = +caps\n5 = +caps\n6 = +caps\n\n" ++
   "[0x0003/0x0003]\ntarget = device3\n0 = +caps\n1 = +caps\n2 = +caps\n3 = +caps\n4 = +caps\n5 = +caps\n6 = +caps\n\n" ++
   "[0x0004/0x0004]\ntarget = device4\n0 = +caps\n1 = +caps\n2 = +caps\n3 = +caps\n4 = +caps\n5 = +caps\n6 = +caps\n\n" ++
   "[0x0005/0x0005]\ntarget = device5\n0 = +caps\n1 = +caps\n2 = +caps\n3 = +caps\n4 = +caps\n5 = +caps\n6 = +caps\n\n" ++
   "[0x0006/0x0006]\ntarget = device6\n0 = +caps\n1 = +caps\n2 = +caps\n3 = +caps\n4 = +caps\n5 = +caps\n6 = +caps\n\n").toList

/-- A source with one `monitored_keycodes` entry of value 2^32. -/
def wide_keycode_source : List Char := "[general]\nmonitored_keycodes = 0x100000000\n".toList

/-- A source with ten header-only device sections, 1/1 to a/a. -/
def ten_sections_source : List Char := "[1/1]\n[2/2]\n[3/3]\n[4/4]\n[5/5]\n[6/6]\n[7/7]\n[8/8]\n[9/9]\n[a/a]\n".toList

/-- The source `ten_sections_source` followed by an eleventh section that
sets a target and a binding. -/
def eleven_sections_source : List Char :=
  ten_sections_source ++ "[b/b]\ntarget = x\n1 = +caps\n".toList

/-- A source with five header-only device sections, 1/1 to 5/5. -/
def five_sections_source : List Char := "[1/1]\n[2/2]\n[3/3]\n[4/4]\n[5/5]\n".toList

/-- The source `five_sections_source` followed by a sixth section that sets a
target and a binding. -/
def six_sections_source : List Char :=
  five_sections_source ++ "[6/6]\ntarget = x\n1 = +caps\n".toList

/-- The device section that a buffer opens when the device ceiling is not
reached (lines 98-119): the identifiers stored in the new profile, or `none`
when the buffer is not a section header, is the `[general]` header, or does
not scan as `[%x/%x]`. -/
def device_header (line : List Char) : Option (Nat × Nat) :=
  if is_section_line line && !strcasecmp_eq (trim (cstr line)) "[general]".toList then
    match sscanf_section (trim (cstr line)) with
    | some (vid, pid) => some (vid % 65536, pid % 65536)
    | none => none
  else none

/-- The device sections that a source declares, in source order. -/
def declared_sections (file : List Char) : List (Nat × Nat) :=
  (read_lines file).filterMap device_header

/-- The identifiers of a profile. -/
def device_config_t.ids (d : device_config_t) : Nat × Nat := (d.vendor, d.product)

/-- A profile with no target and no binding, as a section header creates it. -/
def new_profile (vid pid : Nat) : device_config_t :=
  { vendor := vid, product := pid, target := [], bindings := [] }

/-- A decimal keycode as a configuration file writes it: one or more decimal
digits. -/
def is_decimal_literal (e : List Char) : Bool :=
  !e.isEmpty && e.all (fun c => (digit_value 10 c).isSome)

/-- A hexadecimal keycode as a configuration file writes it: `0x` or `0X`
followed by one or more hexadecimal digits. -/
def is_hex_literal (e : List Char) : Bool :=
  has_hex_marker e && !(e.drop 2).isEmpty && (e.drop 2).all (fun c => (digit_value 16 c).isSome)

/-- A keycode written as a decimal or `0x`-marked hexadecimal integer. -/
def is_keycode_literal (e : List Char) : Bool := is_decimal_literal e || is_hex_literal e

/-- The positional value of a string of digits in the given base. -/
def digits_value (base : Nat) (ds : List Char) : Nat :=
  ds.foldl (fun acc c => acc * base + (digit_value base c).getD 0) 0

/-- The integer that a keycode literal denotes. -/
def keycode_literal_value (e : List Char) : Nat :=
  if has_hex_marker e then digits_value 16 (e.drop 2) else digits_value 10 e

/-- The entries of a list written one after the other with a comma between
neighbours and nothing else. -/
def join_commas : List (List Char) → List Char
  | [] => []
  | [e] => e
  | e :: e' :: es => e ++ ',' :: join_commas (e' :: es)

/-- Whether a buffer is a `key = value` line whose key reads
`monitored_keycodes` (line 139), in any letter case. -/
def is_monitored_line (line : List Char) : Bool :=
  match split_eq (trim (cstr line)) with
  | some (k, _) => strcasecmp_eq (trim k) "monitored_keycodes".toList
  | none => false

/-- The source that `test_load_config_sections` writes. -/
def sections_source : List Char :=
  ("[general]\nsetleds = /custom/path/setleds\nmonitored_keycodes = 0x1234,5678,0xABCD\n\n" ++
   "[0x5043/0x54a3]\ntarget = *\n0x6F = +caps\n\n" ++
   "[0x0483/0x5740]\ntarget = device2\n111 = -num\n").toList

/-- The text of a line `monitored_keycodes = e1,...,en` followed by `eol`
(a newline, or nothing at the end of the file). -/
def monitored_line (es : List (List Char)) (eol : List Char) : List Char :=
  "monitored_keycodes = ".toList ++ join_commas es ++ eol

/-- The cut of trailing white space that `trim` performs (lines 57-60). -/
def rstrip (s : List Char) : List Char := (s.reverse.dropWhile isspace).reverse

/-- Lines 134-172 once the key and the value of a line of the general section
have been cut at `=` and trimmed. -/
def general_key_value (config : config_t) (key val : List Char) : config_t :=
  if strcasecmp_eq key "setleds".toList then
    { config with setleds_path := val.take (MAX_PATH - 1) }
  else if strcasecmp_eq key "monitored_keycodes".toList then
    { config with
      monitored_keycodes := monitored_loop (strtok_all ',' val []) config.monitored_keycodes }
  else config

/-- Lines 183-211 once the key and the value of a line of a device section
have been cut at `=` and trimmed. -/
def device_key_value (current : device_config_t) (key val : List Char) : device_config_t :=
  if strcasecmp_eq key "target".toList then
    { current with target := val.take 127 }
  else if current.bindings.length ≥ MAX_BINDINGS then current
  else if val.length < 2 then current
  else
    { current with
      bindings := current.bindings ++
        [{ keycode := (parse_keycode key % 65536).toNat,
           led := (val.drop 1).take 15,
           mode := val.headD NUL }] }

/-- The body of the reading loop for a line that holds a `=` and is not a
section header, in terms of its trimmed key and value: a comment is skipped,
otherwise the line goes to the general section or to the current profile. -/
def process_key_value (st : load_state) (key val : List Char) : load_state :=
  if key.head? = some '#' then st
  else if st.in_general_section then
    { st with config := general_key_value st.config key val }
  else
    match st.current with
    | some i =>
      { st with config := { st.config with
          devices := update_at (fun d => device_key_value d key val) st.config.devices i } }
    | none => st

/-- A source whose binding line has a value of 19 bytes: the mode `+` and an
LED name of 18 bytes. -/
def long_led_source : List Char := "[1/1]\n2 = +0123456789abcdefgh\n".toList

/-- A source whose binding line has the key 65537. -/
def wide_key_source : List Char := "[1/1]\n65537 = +caps\n".toList

/-- A source with one device section and one binding line with spaces
around the key and the value. -/
def padded_binding_source : List Char := "[1/1]\n  0x6F \t=  +caps  \n".toList

/-- A line that is empty, holds only white space, or whose first byte that is
not white space is `#`. -/
def is_blank_or_comment (l : List Char) : Bool :=
  match l.dropWhile isspace with
  | [] => true
  | c :: _ => c == '#'

/-- The text of a line `key = value` with the white space `ws0` before the
key, `ws1` between the key and `=`, `ws2` between `=` and the value, and
`ws3` after the value. -/
def key_value_text (ws0 key ws1 ws2 value ws3 : List Char) : List Char :=
  ws0 ++ key ++ ws1 ++ '=' :: (ws2 ++ value ++ ws3)

/-- A comment line of 271 bytes: `#`, 254 times `x`, and `setleds = /tmp/x`. -/
def long_comment_line : List Char :=
  '#' :: List.replicate 254 'x' ++ "setleds = /tmp/x".toList

/-- The source `[general]` followed by the line `setleds = /x`. -/
def setleds_source : List Char := "[general]\nsetleds = /x\n".toList

/-- The source `setleds_source` with 300 spaces added between the key
`setleds` and the `=`. -/
def setleds_spaced_source : List Char :=
  "[general]\nsetleds".toList ++ List.replicate 300 ' ' ++ " = /x\n".toList

/-- Whether a buffer is the header `[general]`, in any letter case (line 100). -/
def is_general_header (line : List Char) : Bool :=
  strcasecmp_eq (trim (cstr line)) "[general]".toList

/-- The trimmed value of a `setleds` line: `none` for a blank line, a
comment, a section header, a line without `=`, and a line with another key. -/
def setleds_value (line : List Char) : Option (List Char) :=
  match trim (cstr line) with
  | [] => none
  | c :: t =>
    if c == '#' || c == '[' then none
    else
      match split_eq (c :: t) with
      | some (k, v) => if strcasecmp_eq (trim k) "setleds".toList then some (trim v) else none
      | none => none

/-- The trimmed values of the `setleds` lines that stand in a general
section, in source order; the flag tells whether the lines start inside a
general section. A section header of any kind ends a general section, the
header `[general]` starts one. -/
def general_setleds_values : List (List Char) → Bool → List (List Char)
  | [], _ => []
  | l :: ls, g =>
    if is_section_line l then general_setleds_values ls (is_general_header l)
    else if g then (setleds_value l).toList ++ general_setleds_values ls g
    else general_setleds_values ls g

/-- A source whose general section sets the path `/a` and then holds a
`setleds` line with an empty value. -/
def emptied_setleds_source : List Char := "[general]\nsetleds = /a\nsetleds =\n".toList

/-- A vendor or product number as a section header writes it: one or more
hexadecimal digits in any letter case, with or without `0x` or `0X` before
them. -/
def is_section_number (v : List Char) : Bool :=
  is_hex_literal v || (!v.isEmpty && v.all (fun c => (digit_value 16 c).isSome))

/-- The integer that a section number denotes. -/
def section_number_value (v : List Char) : Nat :=
  if has_hex_marker v then digits_value 16 (v.drop 2) else digits_value 16 v

/-- The text `[V/P]` of a device header. -/
def device_header_text (V P : List Char) : List Char := '[' :: (V ++ '/' :: (P ++ [']']))

/-- A source whose header `[1/2` lacks the closing bracket. -/
def open_bracket_source : List Char := "[1/2\n3 = +caps\n".toList

/-! ## The source of the configuration and the reload (`config.c`, `hid_manager.c`, `belvedere.c`) -/

/-- What `load_config` sees of the process and the file system: the values
of `getenv("XDG_CONFIG_HOME")` and `getenv("HOME")` (`none` for `NULL`),
whether `access(path, F_OK)` returns 0, what `fopen(path, "r")` gives (`none`
for `NULL`, otherwise the bytes of the file), and the constant `PATH_MAX` of
the platform. -/
structure environment where
  xdg_config_home : Option (List Char)
  home : Option (List Char)
  access : List Char → Bool
  fopen : List Char → Option (List Char)
  path_max : Nat

/-- One candidate of `get_config_path`: the variable is set and not empty,
and the path built by `snprintf` into `config_path[PATH_MAX]` exists. -/
def candidate_path (env : environment) (dir : Option (List Char)) (tail : List Char) :
    Option (List Char) :=
  match dir with
  | none => none
  | some d =>
    if d.isEmpty then none
    else if env.access ((d ++ tail).take (env.path_max - 1)) then
      some ((d ++ tail).take (env.path_max - 1))
    else none

/-- The function `get_config_path`: the first existing file among
`$XDG_CONFIG_HOME/belvedere/config`, `$HOME/.config/belvedere/config` and
`/etc/belvedere/config`, or `none` for `NULL`. -/
def get_config_path (env : environment) : Option (List Char) :=
  match candidate_path env env.xdg_config_home "/belvedere/config".toList with
  | some p => some p
  | none =>
    match candidate_path env env.home "/.config/belvedere/config".toList with
    | some p => some p
    | none =>
      if env.access ("/etc/belvedere/config".toList.take (env.path_max - 1)) then
        some ("/etc/belvedere/config".toList.take (env.path_max - 1))
      else none

/-- Line 67 of `load_config`: the given file name, or the result of
`get_config_path` when the file name is `NULL`. -/
def resolve_config_path (env : environment) (filename : Option (List Char)) :
    Option (List Char) :=
  match filename with
  | some f => some f
  | none => get_config_path env

/-- Lines 67-79 of `load_config`: the bytes of the opened file, or `none` when
no path is found or `fopen` fails. -/
def open_config (env : environment) (filename : Option (List Char)) : Option (List Char) :=
  match resolve_config_path env filename with
  | none => none
  | some p => env.fopen p

/-- The function `load_config` with its file name argument: lines 67-79 find
and open the source, the rest is `load_config` on its bytes. -/
def load_config_env (maxDev : Nat) (env : environment) (filename : Option (List Char))
    (config : config_t) : Bool × config_t :=
  load_config maxDev (open_config env filename) config

/-- The fields of `struct hid_device_info` that the sources read. -/
structure hid_device_info where
  vendor_id : Nat
  product_id : Nat
  path : List Char

/-- The library hidapi during one call of `hid_manager_reload`: the list that
`hid_enumerate(0, 0)` returns and the handle (`none` for `NULL`) that
`hid_open_path` returns for a path. -/
structure hid_api where
  enumerate : List hid_device_info
  open_path : List Char → Option Nat

/-- The macro `MAX_ACTIVE_DEVICES` of hid_manager.c. -/
def MAX_ACTIVE_DEVICES : Nat := 16

/-- The function `match_device` of hid_manager.c. -/
def match_device (dev_info : hid_device_info) (config : device_config_t) : Bool :=
  dev_info.vendor_id == config.vendor && dev_info.product_id == config.product

/-- The body of the second loop of `hid_manager_reload` (lines 133-149) for
one profile: the first enumerated device that matches is opened, and its
handle is stored when the opening succeeds. -/
def open_configured (hid : hid_api) (profile : device_config_t) (devices : List Nat) :
    List Nat :=
  match hid.enumerate.find? (fun info => match_device info profile) with
  | some info =>
    match hid.open_path info.path with
    | some handle => devices ++ [handle]
    | none => devices
  | none => devices

/-- The function `hid_manager_reload`: the handles held before are closed and
the count is reset, then the first `MAX_ACTIVE_DEVICES` profiles are gone
through. Returns the `bool` result and the handles `devices[0 .. device_count - 1]`
held afterwards. -/
def hid_manager_reload (hid : hid_api) (config : config_t) (_devices : List Nat) :
    Bool × List Nat :=
  (true, (config.devices.take MAX_ACTIVE_DEVICES).foldl
    (fun acc profile => open_configured hid profile acc) [])

/-- The state that a reload works on: the global `config` of belvedere.c and
the handles `hid_manager.devices[0 .. device_count - 1]`. -/
structure daemon_state where
  config : config_t
  devices : List Nat
deriving DecidableEq

/-- The function `reload_configuration` of belvedere.c; `config_path` is the
content of the static buffer of that name. Returns the `bool` result and the
state after the call. -/
def reload_configuration (maxDev : Nat) (env : environment) (config_path : List Char)
    (hid : hid_api) (s : daemon_state) : Bool × daemon_state :=
  let loaded := load_config_env maxDev env (some config_path) s.config
  if !loaded.1 then (false, { s with config := loaded.2 })
  else if loaded.2.monitored_keycodes_count < 1 then (false, { s with config := loaded.2 })
  else if loaded.2.device_count < 1 then (false, { s with config := loaded.2 })
  else
    let reloaded := hid_manager_reload hid loaded.2 s.devices
    if !reloaded.1 then (false, { config := loaded.2, devices := reloaded.2 })
    else (true, { config := loaded.2, devices := reloaded.2 })

/-- An environment in which only the file `config` exists, at the path
`/home/u/.config/belvedere/config`, with the bytes of `basic_source`. -/
def home_env : environment :=
  { xdg_config_home := none,
    home := some "/home/u".toList,
    access := fun p => p == "/home/u/.config/belvedere/config".toList,
    fopen := fun p =>
      if p == "/home/u/.config/belvedere/config".toList then some basic_source else none,
    path_max := 1024 }

/-- An environment whose configuration file holds only the header `[general]`. -/
def bare_env : environment :=
  { xdg_config_home := none,
    home := some "/home/u".toList,
    access := fun p => p == "/home/u/.config/belvedere/config".toList,
    fopen := fun p =>
      if p == "/home/u/.config/belvedere/config".toList then some "[general]\n".toList
      else none,
    path_max := 1024 }

/-- A library hidapi with no device attached. -/
def no_devices : hid_api := { enumerate := [], open_path := fun _ => none }

/-- A running daemon: the configuration of `test_get_command_for_key` with one
monitored keycode, and one open handle. -/
def running_state : daemon_state :=
  { config := { test_config with monitored_keycodes := [111] }, devices := [7] }

/-! ## Startup, event dispatch, file watch and control channel (`belvedere.c`, `device_utils.c`, `hid_manager.c`, `ipc.c`) -/

/-- The conversion of a `bool` to `int`, as in `return false;` inside
`int main`. -/
def bool_int (b : Bool) : Int := if b then 1 else 0

/-- The content of `static char config_path[512]` after
`snprintf(config_path, sizeof(config_path), "%s/.config/belvedere/config", home)`. -/
def home_config_path (home : List Char) : List Char :=
  (home ++ "/.config/belvedere/config".toList).take 511

/-- How `main` of belvedere.c ends its startup: it returns a status, or it
reaches `uv_run` with the configuration it loaded. -/
inductive startup where
  | returned (status : Int)
  | event_loop (config : config_t)
deriving DecidableEq

/-- The loop of `main` over `argv[1 .. argc - 1]` (lines 110-131): `some status`
when the loop returns from `main`, which the argument `--reload` makes it do.
The globals `config` and `hid_manager` are still zero at that point. -/
def main_arguments (maxDev : Nat) (env : environment) (hid : hid_api) :
    List (List Char) → Option Int
  | [] => none
  | arg :: rest =>
    if arg = "-v".toList then main_arguments maxDev env hid rest
    else if arg = "--reload".toList then
      match env.home with
      | none => some 1
      | some home =>
        if (reload_configuration maxDev env (home_config_path home) hid
            { config := empty_config, devices := [] }).1 then some 0
        else some 1
    else main_arguments maxDev env hid rest

/-- The function `main` of belvedere.c up to the call of `uv_run`. `argv`
holds `argv[0 .. argc - 1]`, `hid_init` is the result of `hid_manager_init()`,
and `maxDev` stands for `MAX_CONFIG_DEVICES`. -/
def main (maxDev : Nat) (env : environment) (hid : hid_api) (hid_init : Bool)
    (argv : List (List Char)) : startup :=
  match main_arguments maxDev env hid (argv.drop 1) with
  | some status => .returned status
  | none =>
    match env.home with
    | none => .returned 1
    | some home =>
      let loaded := load_config_env maxDev env (some (home_config_path home)) empty_config
      if !loaded.1 then .returned 1
      else if loaded.2.monitored_keycodes_count < 1 then .returned (bool_int false)
      else if loaded.2.device_count < 1 then .returned (bool_int false)
      else if !hid_init then .returned 1
      else .event_loop loaded.2

/-- The constant `kHIDPage_KeyboardOrKeypad` of IOKit. -/
def kHIDPage_KeyboardOrKeypad : Nat := 7

/-- Line 50 of device_utils.c, `uint16_t qmk_keycode = 0x7700 + usage;` for a
`uint32_t usage`: the sum is taken in 32 bits and narrowed to 16 bits. -/
def qmk_keycode (usage : Nat) : Nat := (0x7700 + usage) % 2 ^ 32 % 2 ^ 16

/-- Line 53 of device_utils.c. -/
def is_qmk_custom_keycode (usage : Nat) : Bool :=
  qmk_keycode usage ≥ 0x7700 && qmk_keycode usage < 0x7800

/-- The loop of lines 61-67 of device_utils.c over
`monitored_keycodes[0 .. monitored_keycodes_count - 1]`. -/
def in_monitored_list (usage : Nat) : List Nat → Bool
  | [] => false
  | k :: rest => if usage = k then true else in_monitored_list usage rest

/-- The value of `keycode_monitored` at line 70 of device_utils.c. -/
def keycode_monitored (config : config_t) (usage : Nat) : Bool :=
  if is_qmk_custom_keycode usage then true
  else in_monitored_list usage config.monitored_keycodes

/-- The function `HIDInputCallback` of device_utils.c, as the list of the
commands it passes to `system`, in order. `usagePage` and `usage` are the
`uint32_t` values read from the element; `vendor` and `product` are the
numbers of the device properties (`none` when the property is missing), of
which the little-endian stores through `uint16_t *` keep the low 16 bits. -/
def HIDInputCallback (config : config_t) (usagePage usage : Nat)
    (vendor product : Option Nat) : List (List Char) :=
  if usagePage = kHIDPage_KeyboardOrKeypad then
    match vendor with
    | none => []
    | some v =>
      match product with
      | none => []
      | some p =>
        if !keycode_monitored config usage then []
        else
          let first :=
            if is_qmk_custom_keycode usage then
              get_command_for_key config (v % 65536) (p % 65536) (qmk_keycode usage)
            else none
          let command :=
            match first with
            | some c => some c
            | none => get_command_for_key config (v % 65536) (p % 65536) (usage % 256)
          match command with
          | some c => [c]
          | none => []
  else []

/-- The function `handle_key_event` of belvedere.c, as the list of the
commands it passes to `system`. -/
def handle_key_event (config : config_t) (vendor_id product_id keycode : Nat) :
    List (List Char) :=
  match get_command_for_key config vendor_id product_id keycode with
  | some command => [command]
  | none => []

/-- What one iteration of the loop of `poll_devices` gets from hidapi for an
open device: the result of `hid_read_timeout`, the byte `buf[0]` of the
`unsigned char` buffer, and the result of `hid_get_device_info` (`none` for
`NULL`). -/
structure hid_read where
  res : Int
  buf0 : Nat
  info : Option hid_device_info

/-- The keycode that `poll_devices` passes to the callback: the
`unsigned char` in `buf[0]`. -/
def hid_read.keycode (r : hid_read) : Nat := r.buf0 % 256

/-- The function `poll_devices` of hid_manager.c over the reads of the open
devices, as the list of the commands passed to `system`; `key_callback` is
the registered callback (`none` for `NULL`) with the commands it runs. -/
def poll_devices (key_callback : Option (Nat → Nat → Nat → List (List Char))) :
    List hid_read → List (List Char)
  | [] => []
  | r :: rest =>
    match key_callback with
    | some callback =>
      if r.res > 0 then
        match r.info with
        | some info =>
          callback (info.vendor_id % 65536) (info.product_id % 65536) r.keycode
            ++ poll_devices key_callback rest
        | none => poll_devices key_callback rest
      else poll_devices key_callback rest
    | none => poll_devices key_callback rest

/-- The first loop of `hid_manager_reload` (lines 120-127): the handles passed
to `hid_close`, in order. The entries below `device_count` are results of
`hid_open_path` that were not `NULL`, so every one of them is closed. -/
def closed_handles : List Nat → List Nat
  | [] => []
  | handle :: rest => handle :: closed_handles rest

/-- The state of the file watch: the static `last_config_mtime` of
belvedere.c together with the state a reload works on. -/
structure watch_state where
  last_config_mtime : Int
  daemon : daemon_state
deriving DecidableEq

/-- The function `on_config_change` of belvedere.c for the status and the
modification time `curr->st_mtim.tv_sec` of one observation. Returns whether
`reload_configuration` was called, and the state after the call. -/
def on_config_change (maxDev : Nat) (env : environment) (config_path : List Char)
    (hid : hid_api) (status : Int) (curr_mtime : Int) (w : watch_state) :
    Bool × watch_state :=
  if status < 0 then (false, w)
  else if curr_mtime > w.last_config_mtime then
    (true, { last_config_mtime := curr_mtime,
             daemon := (reload_configuration maxDev env config_path hid w.daemon).2 })
  else (false, w)

/-- The function `ipc_process_command` of ipc.c for a response buffer that is
not `NULL`: `command` is `none` for `NULL`. Returns the `int` result and the
string left in `response` (`none` when the buffer is not written). -/
def ipc_process_command (command : Option (List Char)) (response_size : Nat) :
    Int × Option (List Char) :=
  match command with
  | none => (-1, none)
  | some _ =>
    if response_size = 0 then (-1, none)
    else (0, some ("OK".toList.take (response_size - 1)))

/-- The function `on_read` of ipc.c for `nread` bytes in `buf->base`, with
`nread` below the 256 bytes of `cmd`: the message written to the client, or
`none` when nothing is written. -/
def on_read (nread : Int) (base : List Char) : Option (List Char) :=
  if nread < 0 then none
  else if nread = 0 then none
  else
    let cmd := cstr (base.take nread.toNat)
    let processed := ipc_process_command (some cmd) 512
    let status := if processed.1 = 0 then "OK".toList else "ERROR".toList
    some (cstr ((status ++ '\n' :: (processed.2.getD [] ++ ['\n'])).take 511))

/-- An environment whose configuration file has a monitored keycode and no
device section. -/
def keycodes_only_env : environment :=
  { xdg_config_home := none,
    home := some "/home/u".toList,
    access := fun p => p == "/home/u/.config/belvedere/config".toList,
    fopen := fun p =>
      if p == "/home/u/.config/belvedere/config".toList then
        some "[general]\nmonitored_keycodes = 1\n".toList
      else none,
    path_max := 1024 }

/-- A configuration with the monitored keycode 0x1234 and a profile that
binds 0x34 and 0x1234. -/
def wide_binding_config : config_t :=
  { setleds_path := "/s".toList,
    devices := [{ vendor := 1, product := 2, target := [],
                  bindings := [{ keycode := 0x34, led := "caps".toList, mode := '+' },
                               { keycode := 0x1234, led := "num".toList, mode := '-' }] }],
    monitored_keycodes := [0x1234] }

/-- A configuration whose profile binds the remapped keycode 0x7705 and the
raw keycode 5. -/
def remapped_config : config_t :=
  { setleds_path := "/s".toList,
    devices := [{ vendor := 1, product := 2, target := [],
                  bindings := [{ keycode := 5, led := "caps".toList, mode := '+' },
                               { keycode := 0x7705, led := "num".toList, mode := '-' }] }],
    monitored_keycodes := [] }

/-- Three attached devices: two with the identifiers 1/2, and one with 3/4. -/
def three_attached : hid_api :=
  { enumerate := [{ vendor_id := 1, product_id := 2, path := "a".toList },
                  { vendor_id := 1, product_id := 2, path := "b".toList },
                  { vendor_id := 3, product_id := 4, path := "c".toList }],
    open_path := fun p => if p == "a".toList then none
                          else if p == "b".toList then some 11 else some 12 }

/-- A configuration with the profiles 1/2, 5/6 and 3/4. -/
def three_profiles : config_t :=
  { setleds_path := "/s".toList,
    devices := [new_profile 1 2, new_profile 5 6, new_profile 3 4],
    monitored_keycodes := [1] }

/-- The source of the example `monitored_keycodes = 0x1234, 0xABCD`. -/
def spaced_keycodes_source : List Char :=
  "[general]\nmonitored_keycodes = 0x1234, 0xABCD\n".toList

/-- A source whose monitored keycode entry is the word `abc`. -/
def word_keycode_source : List Char := "[general]\nmonitored_keycodes = abc\n".toList

set_option maxRecDepth 100000

/-! ## Resolution of a key to a command: `get_command_for_key` -/

theorem find_binding_command_eq (path : List Char) (k : Nat) (bs : List key_binding_t) :
    find_binding_command path k bs =
      (bs.find? (fun b => decide (b.keycode = k))).map
        (fun b => format_command path b.mode b.led) := by
  induction bs with
  | nil => rfl
  | cons b rest ih =>
    by_cases h : b.keycode = k
    · simp [find_binding_command, List.find?, h]
    · simp [find_binding_command, List.find?, h, ih]

theorem find_device_command_eq (path : List Char) (v p k : Nat) (devs : List device_config_t) :
    find_device_command path v p k devs =
      (devs.find? (fun d => decide (d.vendor = v ∧ d.product = p))).bind
        (fun d => find_binding_command path k d.bindings) := by
  induction devs with
  | nil => rfl
  | cons d rest ih =>
    by_cases h : d.vendor = v ∧ d.product = p
    · simp [find_device_command, List.find?, h]
    · simp only [find_device_command, List.find?, h, ih, if_false, decide_False]

theorem cstr_eq_self (l : List Char) (h : NUL ∉ l) : cstr l = l := by
  unfold cstr
  rw [List.takeWhile_eq_self_iff]
  intro x hx
  simp only [bne_iff_ne, ne_eq]
  intro hxe
  exact h (hxe ▸ hx)

theorem format_command_fits (path led : List Char) (mode : Char)
    (hlen : path.length + led.length + 2 ≤ 255)
    (hpath : NUL ∉ path) (hmode : mode ≠ NUL) (hled : NUL ∉ led) :
    format_command path mode led = path ++ ' ' :: mode :: led := by
  unfold format_command
  rw [List.take_of_length_le (by simp; omega)]
  apply cstr_eq_self
  simp only [List.mem_append, List.mem_cons, not_or]
  refine ⟨hpath, by decide, fun h => hmode h.symm, hled⟩

/-- C1 (as amended): when the first profile with the queried identifiers has a
binding for the keycode, `get_command_for_key` returns the path, one space,
the mode byte and the LED name of the first such binding, cut to the 255 bytes
that the command buffer holds (and ended by a zero mode byte); when the whole
command is at most 255 bytes long and has no zero byte, it is returned exactly. -/
theorem get_command_for_key_first_binding (cfg : config_t) (v p k : Nat)
    (dev : device_config_t) (b : key_binding_t)
    (hdev : cfg.devices.find? (fun d => decide (d.vendor = v ∧ d.product = p)) = some dev)
    (hb : dev.bindings.find? (fun b => decide (b.keycode = k)) = some b) :
    get_command_for_key cfg v p k
        = some (cstr ((cfg.setleds_path ++ ' ' :: b.mode :: b.led).take 255)) ∧
    (cfg.setleds_path.length + b.led.length + 2 ≤ 255 →
      NUL ∉ cfg.setleds_path → b.mode ≠ NUL → NUL ∉ b.led →
      get_command_for_key cfg v p k = some (cfg.setleds_path ++ ' ' :: b.mode :: b.led)) := by
  have h : get_command_for_key cfg v p k
      = some (format_command cfg.setleds_path b.mode b.led) := by
    rw [get_command_for_key, find_device_command_eq, hdev]
    simp [find_binding_command_eq, hb]
  refine ⟨h, fun hlen hpath hmode hled => ?_⟩
  rw [h, format_command_fits _ _ _ hlen hpath hmode hled]

/-- Witness for C1: the second binding of the configuration of
`test_get_command_for_key`. -/
theorem get_command_for_key_first_binding_witness :
    get_command_for_key test_config 0x5043 0x54a3 112
        = some (cstr (("/usr/local/bin/setleds".toList ++ ' ' :: '-' :: "num".toList).take 255)) ∧
    get_command_for_key test_config 0x5043 0x54a3 112 = some "/usr/local/bin/setleds -num".toList :=
  ⟨(get_command_for_key_first_binding test_config 0x5043 0x54a3 112
      test_device { keycode := 112, led := "num".toList, mode := '-' } (by decide) (by decide)).1,
   (get_command_for_key_first_binding test_config 0x5043 0x54a3 112
      test_device { keycode := 112, led := "num".toList, mode := '-' } (by decide) (by decide)).2
      (by decide) (by decide) (by decide) (by decide)⟩

/-- C1 (counterexample): the configuration loaded from a source with a long
`setleds` path has a binding whose command is not returned in full: the
claim that the command is returned exactly for every configuration fails. -/
theorem get_command_for_key_exact_fails :
    ¬ (∀ (cfg : config_t) (v p k : Nat) (dev : device_config_t) (b : key_binding_t),
        cfg.devices.find? (fun d => decide (d.vendor = v ∧ d.product = p)) = some dev →
        dev.bindings.find? (fun b => decide (b.keycode = k)) = some b →
        get_command_for_key cfg v p k = some (cfg.setleds_path ++ ' ' :: b.mode :: b.led)) := by
  intro h
  have h1 := h (load_config MAX_CONFIG_DEVICES (some long_path_source) empty_config).2 1 2 3
    { vendor := 1, product := 2, target := [],
      bindings := [{ keycode := 3, led := "0123456789abcde".toList, mode := '+' }] }
    { keycode := 3, led := "0123456789abcde".toList, mode := '+' } (by decide) (by decide)
  revert h1
  decide

/-- C2: `get_command_for_key` returns no command when no profile has the
queried identifiers, and when the first profile that has them holds no binding
for the keycode, whatever the other profiles hold. -/
theorem get_command_for_key_none (cfg : config_t) (v p k : Nat)
    (h : (∀ d ∈ cfg.devices, ¬ (d.vendor = v ∧ d.product = p)) ∨
         (∃ dev, cfg.devices.find? (fun d => decide (d.vendor = v ∧ d.product = p)) = some dev ∧
                 ∀ b ∈ dev.bindings, b.keycode ≠ k)) :
    get_command_for_key cfg v p k = none := by
  rw [get_command_for_key, find_device_command_eq]
  rcases h with h | ⟨dev, hdev, hb⟩
  · have : cfg.devices.find? (fun d => decide (d.vendor = v ∧ d.product = p)) = none := by
      rw [List.find?_eq_none]
      intro d hd
      simpa using h d hd
    rw [this]; rfl
  · rw [hdev]
    simp only [Option.bind, find_binding_command_eq]
    have : dev.bindings.find? (fun b => decide (b.keycode = k)) = none := by
      rw [List.find?_eq_none]
      intro b hb'
      simpa using hb b hb'
    rw [this]; rfl

/-- Witness for C2: the two queries of `test_get_command_for_key` that expect
`NULL`, an unknown device and an unbound keycode. -/
theorem get_command_for_key_none_witness :
    get_command_for_key test_config 0x1234 0x5678 111 = none ∧
    get_command_for_key test_config 0x5043 0x54a3 999 = none :=
  ⟨get_command_for_key_none test_config 0x1234 0x5678 111 (Or.inl (by decide)),
   get_command_for_key_none test_config 0x5043 0x54a3 999
     (Or.inr ⟨test_device, by decide, by decide⟩)⟩

/-- C4: when several profiles have the queried identifiers, only the first of
them in configuration order is consulted: the result is the one that the
configuration reduced to that profile gives, so a keycode bound only in a
later duplicate yields no command and a keycode bound in both yields the
command of the binding of the first profile. -/
theorem get_command_for_key_first_duplicate_only (cfg : config_t) (v p k : Nat)
    (before after : List device_config_t) (d1 : device_config_t)
    (hcfg : cfg.devices = before ++ d1 :: after)
    (hbefore : ∀ d ∈ before, ¬ (d.vendor = v ∧ d.product = p))
    (h1 : d1.vendor = v ∧ d1.product = p) :
    get_command_for_key cfg v p k
        = get_command_for_key { cfg with devices := [d1] } v p k ∧
    ((∀ b ∈ d1.bindings, b.keycode ≠ k) → get_command_for_key cfg v p k = none) ∧
    (∀ b, d1.bindings.find? (fun b => decide (b.keycode = k)) = some b →
      get_command_for_key cfg v p k
        = some (cstr ((cfg.setleds_path ++ ' ' :: b.mode :: b.led).take 255))) := by
  have hfind : cfg.devices.find? (fun d => decide (d.vendor = v ∧ d.product = p)) = some d1 := by
    rw [hcfg, List.find?_append]
    have : before.find? (fun d => decide (d.vendor = v ∧ d.product = p)) = none := by
      rw [List.find?_eq_none]
      intro d hd
      simpa using hbefore d hd
    rw [this]
    simp [List.find?, h1]
  have hget : get_command_for_key cfg v p k
      = find_binding_command cfg.setleds_path k d1.bindings := by
    rw [get_command_for_key, find_device_command_eq, hfind]; rfl
  refine ⟨?_, ?_, ?_⟩
  · rw [hget]
    simp [get_command_for_key, find_device_command, h1]
  · intro hb
    rw [hget, find_binding_command_eq]
    have : d1.bindings.find? (fun b => decide (b.keycode = k)) = none := by
      rw [List.find?_eq_none]
      intro b hb'
      simpa using hb b hb'
    rw [this]; rfl
  · intro b hb
    rw [hget, find_binding_command_eq, hb]; rfl

/-- Witness for C4: in `duplicate_config` the profiles at positions 1 and 2
are both 1/2; keycode 5 is bound only in the later one and yields no command,
keycode 4 is bound in both and yields the command of the earlier one. -/
theorem get_command_for_key_first_duplicate_only_witness :
    get_command_for_key duplicate_config 1 2 5 = none ∧
    get_command_for_key duplicate_config 1 2 4
      = some (cstr (("/usr/local/bin/setleds".toList ++ ' ' :: '+' :: "caps".toList).take 255)) :=
  ⟨(get_command_for_key_first_duplicate_only duplicate_config 1 2 5
      [{ vendor := 9, product := 9, target := [], bindings := [] }]
      [{ vendor := 1, product := 2, target := [],
         bindings := [{ keycode := 4, led := "num".toList, mode := '-' },
                      { keycode := 5, led := "scroll".toList, mode := '^' }] }]
      { vendor := 1, product := 2, target := [],
        bindings := [{ keycode := 4, led := "caps".toList, mode := '+' }] }
      rfl (by decide) (by decide)).2.1 (by decide),
   (get_command_for_key_first_duplicate_only duplicate_config 1 2 4
      [{ vendor := 9, product := 9, target := [], bindings := [] }]
      [{ vendor := 1, product := 2, target := [],
         bindings := [{ keycode := 4, led := "num".toList, mode := '-' },
                      { keycode := 5, led := "scroll".toList, mode := '^' }] }]
      { vendor := 1, product := 2, target := [],
        bindings := [{ keycode := 4, led := "caps".toList, mode := '+' }] }
      rfl (by decide) (by decide)).2.2
      { keycode := 4, led := "caps".toList, mode := '+' } (by decide)⟩

/-! ## The reading loop of `load_config` -/

theorem process_line_ceiling (M M' : Nat) (st : load_state) (line : List Char)
    (h : st.config.devices.length ≥ M ↔ st.config.devices.length ≥ M') :
    process_line M st line = process_line M' st line := by
  simp only [process_line, h]

theorem process_line_not_section (M M' : Nat) (st : load_state) (line : List Char)
    (h : is_section_line line = false) :
    process_line M st line = process_line M' st line := by
  unfold is_section_line at h
  unfold process_line
  cases ht : trim (cstr line) with
  | nil => rfl
  | cons c t =>
    rw [ht] at h
    simp only at h
    simp only [h]
    simp

/-- C3: the source of `test_load_config_basic` loads, for every device ceiling
of at least 1 and whatever `*config` held before, into one profile 5043/54a3
with target `*` and the single binding 111, `+`, `caps`, no monitored keycode
and the default path; the key 111 of that device then resolves to
`/usr/local/bin/setleds +caps`. -/
theorem load_config_basic_source (maxDev : Nat) (c0 : config_t) (hmax : 1 ≤ maxDev) :
    load_config maxDev (some "[0x5043/0x54a3]\ntarget = *\n111 = +caps\n".toList) c0
      = (true, { setleds_path := "/usr/local/bin/setleds".toList,
                 devices := [{ vendor := 0x5043, product := 0x54a3, target := "*".toList,
                               bindings := [{ keycode := 111, led := "caps".toList,
                                              mode := '+' }] }],
                 monitored_keycodes := [] }) ∧
    get_command_for_key
        (load_config maxDev (some "[0x5043/0x54a3]\ntarget = *\n111 = +caps\n".toList) c0).2
        0x5043 0x54a3 111
      = some "/usr/local/bin/setleds +caps".toList := by
  have hlines : read_lines "[0x5043/0x54a3]\ntarget = *\n111 = +caps\n".toList
      = ["[0x5043/0x54a3]\n".toList, "target = *\n".toList, "111 = +caps\n".toList] := by
    decide
  have hinit : initial_state c0 = initial_state empty_config := rfl
  have hloop : load_loop maxDev (read_lines "[0x5043/0x54a3]\ntarget = *\n111 = +caps\n".toList)
        (initial_state c0)
      = load_loop 1 (read_lines "[0x5043/0x54a3]\ntarget = *\n111 = +caps\n".toList)
        (initial_state empty_config) := by
    rw [hlines, hinit]
    simp only [load_loop, List.foldl]
    rw [process_line_ceiling maxDev 1 (initial_state empty_config) _
          (by simp [initial_state, empty_config]; omega),
        process_line_not_section maxDev 1 _ "target = *\n".toList (by decide),
        process_line_not_section maxDev 1 _ "111 = +caps\n".toList (by decide)]
  have hload : load_config maxDev (some "[0x5043/0x54a3]\ntarget = *\n111 = +caps\n".toList) c0
      = load_config 1 (some "[0x5043/0x54a3]\ntarget = *\n111 = +caps\n".toList) empty_config := by
    simp only [load_config, hloop]
  rw [hload]
  decide

/-- Witness for C3: the ceiling of the data model. -/
theorem load_config_basic_source_witness :
    load_config MAX_CONFIG_DEVICES (some basic_source) empty_config
      = (true, { setleds_path := DEFAULT_SETLEDS_PATH,
                 devices := [{ vendor := 0x5043, product := 0x54a3, target := "*".toList,
                               bindings := [{ keycode := 111, led := "caps".toList,
                                              mode := '+' }] }],
                 monitored_keycodes := [] }) ∧
    get_command_for_key (load_config MAX_CONFIG_DEVICES (some basic_source) empty_config).2
        0x5043 0x54a3 111
      = some "/usr/local/bin/setleds +caps".toList :=
  load_config_basic_source MAX_CONFIG_DEVICES empty_config (by decide)

/-- C6 (the code at the failing input): an entry of value 2^32 is not dropped
but stored as keycode 0, and an entry of value 2^32 + 5 as keycode 5, because
the `long` that `strtol` returns is narrowed to `int` before the range check;
the entries `0x10000` and `-5` are dropped as the claim says. -/
theorem monitored_keycode_wraps_to_int :
    (load_config MAX_CONFIG_DEVICES (some wide_keycode_source) empty_config).2.monitored_keycodes
      = [0] ∧
    (load_config MAX_CONFIG_DEVICES
      (some "[general]\nmonitored_keycodes = 1,0x100000005,2\n".toList)
      empty_config).2.monitored_keycodes = [1, 5, 2] ∧
    (load_config MAX_CONFIG_DEVICES
      (some "[general]\nmonitored_keycodes = 1,0x10000,-5,2\n".toList)
      empty_config).2.monitored_keycodes = [1, 2] := by
  decide

/-- With the device ceiling of the data model, it is not so that every source
with more than `MAX_DEVICES` sections loads into `MAX_DEVICES` profiles: the
seven sections of `test_load_config_limits` load into seven. -/
theorem load_config_limits_source_count :
    ¬ (∀ (src : List Char) (c0 : config_t),
        MAX_DEVICES < (declared_sections src).length →
        (load_config MAX_CONFIG_DEVICES (some src) c0).1 = true ∧
        (load_config MAX_CONFIG_DEVICES (some src) c0).2.device_count = MAX_DEVICES) := by
  intro h
  have h1 := (h limits_source empty_config (by decide)).2
  revert h1
  decide

/-- C10 (the code at the failing input): the target and the binding of a
section beyond the device ceiling are written into the last retained profile,
so the loaded configuration differs from that of the source without the excess
section. This happens with the ceiling 10 of the data model and eleven
sections, and equally with a ceiling of `MAX_DEVICES` and six sections. -/
theorem excess_section_lines_reach_last_profile :
    (load_config MAX_CONFIG_DEVICES (some eleven_sections_source) empty_config).2.devices.get? 9
      = some { vendor := 10, product := 10, target := "x".toList,
               bindings := [{ keycode := 1, led := "caps".toList, mode := '+' }] } ∧
    (load_config MAX_CONFIG_DEVICES (some ten_sections_source) empty_config).2.devices.get? 9
      = some { vendor := 10, product := 10, target := [], bindings := [] } ∧
    (load_config MAX_CONFIG_DEVICES (some eleven_sections_source) empty_config).2
      ≠ (load_config MAX_CONFIG_DEVICES (some ten_sections_source) empty_config).2 ∧
    (load_config MAX_DEVICES (some six_sections_source) empty_config).2
      ≠ (load_config MAX_DEVICES (some five_sections_source) empty_config).2 := by
  decide

theorem update_at_map_ids (f : device_config_t → device_config_t)
    (hf : ∀ d, (f d).ids = d.ids) (l : List device_config_t) (i : Nat) :
    (update_at f l i).map device_config_t.ids = l.map device_config_t.ids := by
  induction l generalizing i with
  | nil => rfl
  | cons a l ih =>
    cases i with
    | zero => simp [update_at, hf]
    | succ i => simp [update_at, ih]

theorem device_line_ids (d : device_config_t) (t : List Char) :
    (device_line d t).ids = d.ids := by
  unfold device_line
  cases split_eq t with
  | none => rfl
  | some kv =>
    obtain ⟨k, v⟩ := kv
    dsimp only
    split_ifs <;> rfl

theorem general_line_devices (c : config_t) (t : List Char) :
    (general_line c t).devices = c.devices := by
  unfold general_line
  cases split_eq t with
  | none => rfl
  | some kv =>
    obtain ⟨k, v⟩ := kv
    dsimp only
    split_ifs <;> rfl

/-- One buffer changes the identifiers of the loaded profiles only by
appending those of a device header, and only below the device ceiling. -/
theorem process_line_ids (M : Nat) (st : load_state) (line : List Char) :
    (process_line M st line).config.devices.map device_config_t.ids
      = st.config.devices.map device_config_t.ids ++
          (if st.config.devices.length < M then (device_header line).toList else []) := by
  unfold process_line device_header is_section_line
  cases ht : trim (cstr line) with
  | nil => simp
  | cons c t =>
    dsimp only
    by_cases hc : c = '#'
    · subst hc
      simp
    · by_cases hb : c = '['
      · subst hb
        simp only [beq_self_eq_true, Bool.true_and, if_true]
        split_ifs with h1 h2 h3 h4 h5 h6 h7 <;>
          first
          | (exfalso; omega)
          | (simp_all; done)
          | (cases hs : sscanf_section ('[' :: t) with
             | none => simp_all
             | some ids => simp_all [device_config_t.ids])
      · have hc' : (c == '#') = false := by simpa using hc
        have hb' : (c == '[') = false := by simpa using hb
        simp only [hc', hb', Bool.false_and, if_false, Bool.false_eq_true]
        split_ifs <;> cases st.current <;>
          simp [general_line_devices, update_at_map_ids _ (fun d => device_line_ids d (c :: t))]

theorem load_loop_ids (M : Nat) (lines : List (List Char)) (st : load_state)
    (hst : st.config.devices.length ≤ M) :
    (load_loop M lines st).config.devices.map device_config_t.ids
      = (st.config.devices.map device_config_t.ids ++ lines.filterMap device_header).take M := by
  induction lines generalizing st with
  | nil =>
    simp only [load_loop, List.foldl, List.filterMap_nil, List.append_nil]
    rw [List.take_of_length_le (by simpa using hst)]
  | cons l ls ih =>
    have hstep := process_line_ids M st l
    have hlen : (process_line M st l).config.devices.length ≤ M := by
      have := congrArg List.length hstep
      simp only [List.length_map, List.length_append] at this
      rw [this]
      split_ifs with h
      · cases device_header l <;> simp <;> omega
      · simpa using hst
    have := ih (process_line M st l) hlen
    simp only [load_loop, List.foldl] at this ⊢
    rw [this, hstep]
    by_cases h : st.config.devices.length < M
    · simp only [h, if_true, List.append_assoc]
      cases hd : device_header l with
      | none => simp [List.filterMap_cons, hd]
      | some x => simp [List.filterMap_cons, hd]
    · have heq : (st.config.devices.map device_config_t.ids).length = M := by
        simp only [List.length_map]; omega
      simp only [h, if_false, List.append_nil]
      rw [List.take_append_of_le_length (by omega), List.take_append_of_le_length (by omega)]

theorem apply_default_path_devices (c : config_t) :
    (apply_default_path c).devices = c.devices := by
  unfold apply_default_path
  split_ifs <;> rfl

/-- The identifiers of the loaded profiles are those of the first `maxDev`
declared sections. -/
theorem load_config_ids (M : Nat) (src : List Char) (c0 : config_t) :
    (load_config M (some src) c0).2.devices.map device_config_t.ids
      = (declared_sections src).take M := by
  simp only [load_config, apply_default_path_devices, declared_sections]
  rw [load_loop_ids M _ _ (by simp [initial_state])]
  simp [initial_state]

/-- A source that declares more than ten device sections loads successfully
into exactly ten profiles, and their identifiers are those of the first ten
declared sections, in source order. Nothing is said here of the targets and
the bindings of these profiles. -/
theorem load_config_keeps_first_ten_sections (src : List Char) (c0 : config_t)
    (h : 10 < (declared_sections src).length) :
    (load_config MAX_CONFIG_DEVICES (some src) c0).1 = true ∧
    (load_config MAX_CONFIG_DEVICES (some src) c0).2.device_count = 10 ∧
    (load_config MAX_CONFIG_DEVICES (some src) c0).2.devices.map device_config_t.ids
      = (declared_sections src).take 10 := by
  have hids := load_config_ids MAX_CONFIG_DEVICES src c0
  refine ⟨rfl, ?_, hids⟩
  have := congrArg List.length hids
  simp only [List.length_map, List.length_take, MAX_CONFIG_DEVICES] at this
  simp only [config_t.device_count, MAX_CONFIG_DEVICES]
  omega

/-- The count and the identifiers loaded from eleven sections, 1/1 to b/b. -/
theorem load_config_keeps_first_ten_sections_witness :
    (load_config MAX_CONFIG_DEVICES (some eleven_sections_source) empty_config).1 = true ∧
    (load_config MAX_CONFIG_DEVICES (some eleven_sections_source) empty_config).2.device_count
      = 10 ∧
    (load_config MAX_CONFIG_DEVICES (some eleven_sections_source) empty_config).2.devices.map
        device_config_t.ids
      = (declared_sections eleven_sections_source).take 10 :=
  load_config_keeps_first_ten_sections eleven_sections_source empty_config (by decide)

/-- Whatever value the device ceiling `MAX_CONFIG_DEVICES` has, a source that
declares more device sections than the ceiling loads successfully and
`device_count` equals the ceiling. -/
theorem load_config_device_count_is_ceiling (maxDev : Nat) (src : List Char) (c0 : config_t)
    (h : maxDev < (declared_sections src).length) :
    (load_config maxDev (some src) c0).1 = true ∧
    (load_config maxDev (some src) c0).2.device_count = maxDev := by
  refine ⟨rfl, ?_⟩
  have := congrArg List.length (load_config_ids maxDev src c0)
  simp only [List.length_map, List.length_take] at this
  simp only [config_t.device_count]
  omega

/-- Were the ceiling `MAX_DEVICES`, the seven sections of
`test_load_config_limits` would load into `MAX_DEVICES` profiles. -/
theorem load_config_device_count_is_ceiling_witness :
    (load_config MAX_DEVICES (some limits_source) empty_config).1 = true ∧
    (load_config MAX_DEVICES (some limits_source) empty_config).2.device_count = MAX_DEVICES :=
  load_config_device_count_is_ceiling MAX_DEVICES limits_source empty_config (by decide)

/-! ## The binding ceiling -/

theorem update_at_getElem? {α : Type} (f : α → α) (l : List α) (i n : Nat) :
    (update_at f l i)[n]? = if i = n then (l[n]?).map f else l[n]? := by
  induction l generalizing i n with
  | nil => cases i <;> simp [update_at]
  | cons a l ih =>
    cases i with
    | zero =>
      cases n with
      | zero => simp [update_at]
      | succ n => simp [update_at]
    | succ i =>
      cases n with
      | zero => simp [update_at]
      | succ n => simp [update_at, ih]

theorem device_line_bindings (d : device_config_t) (t : List Char) :
    (device_line d t).bindings
      = if d.bindings.length < MAX_BINDINGS then
          d.bindings ++ ((device_line (new_profile 0 0) t).bindings.head?).toList
        else d.bindings := by
  unfold device_line new_profile
  cases split_eq t with
  | none => simp
  | some kv =>
    obtain ⟨k, v⟩ := kv
    dsimp only
    split_ifs <;> simp_all [MAX_BINDINGS]
    omega

/-- The effect of a device header read below the device ceiling. -/
theorem process_line_open (M : Nat) (st : load_state) (line : List Char) (v p : Nat)
    (h : device_header line = some (v, p)) (hroom : st.config.devices.length < M) :
    process_line M st line
      = { config := { st.config with devices := st.config.devices ++ [new_profile v p] },
          current := some st.config.devices.length,
          in_general_section := false } := by
  unfold device_header is_section_line at h
  unfold process_line new_profile
  cases ht : trim (cstr line) with
  | nil => simp [ht] at h
  | cons c t =>
    rw [ht] at h
    dsimp only at h ⊢
    by_cases hb : c = '['
    · subst hb
      have hnc : ¬ st.config.devices.length ≥ M := by omega
      simp only [beq_self_eq_true, Bool.true_and, if_true] at h ⊢
      split_ifs at h ⊢ with h1 h2 h3 <;>
        first
        | (simp_all; done)
        | (cases hs : sscanf_section ('[' :: t) with
           | none => simp_all
           | some ids => simp_all)
    · have hb' : (c == '[') = false := by simpa using hb
      simp [hb'] at h

/-- C5 (counterexample): the integer 5 written with 250 leading zeros is a
decimal integer in range, yet its line is longer than one read of the line
buffer and the keycode stored is 0. -/
theorem long_monitored_line_breaks :
    ¬ (∀ es : List (List Char), es.length ≤ 5 →
        (∀ e ∈ es, is_keycode_literal e = true) →
        (∀ e ∈ es, keycode_literal_value e ≤ 0xFFFF) →
        (load_config MAX_CONFIG_DEVICES
          (some ("[general]\nmonitored_keycodes = ".toList ++ join_commas es ++ "\n".toList))
          empty_config).2.monitored_keycodes = es.map keycode_literal_value) := by
  intro h
  have h1 := h [List.replicate 250 '0' ++ ['5']] (by decide) (by decide) (by decide)
  revert h1
  decide

/-! ## The line `monitored_keycodes` -/

theorem digit_value_range (base : Nat) (c : Char) (h : (digit_value base c).isSome = true) :
    (48 ≤ c.toNat ∧ c.toNat ≤ 57) ∨ (97 ≤ c.toNat ∧ c.toNat ≤ 102) ∨
      (65 ≤ c.toNat ∧ c.toNat ≤ 70) := by
  unfold digit_value at h
  by_contra hn
  have h1 : ¬ (48 ≤ c.toNat ∧ c.toNat ≤ 57) := fun x => hn (Or.inl x)
  have h2 : ¬ (97 ≤ c.toNat ∧ c.toNat ≤ 102) := fun x => hn (Or.inr (Or.inl x))
  have h3 : ¬ (65 ≤ c.toNat ∧ c.toNat ≤ 70) := fun x => hn (Or.inr (Or.inr x))
  simp [h1, h2, h3] at h

theorem digit_not_space (base : Nat) (c : Char) (h : (digit_value base c).isSome = true) :
    isspace c = false := by
  have := digit_value_range base c h
  unfold isspace
  simp only [Bool.or_eq_false_iff, beq_eq_false_iff_ne, ne_eq, Bool.and_eq_false_iff,
    decide_eq_false_iff_not]
  omega

theorem digit_ne (base : Nat) (c x : Char) (h : (digit_value base c).isSome = true)
    (hx : x.toNat < 48 ∨ (57 < x.toNat ∧ x.toNat < 65) ∨ (70 < x.toNat ∧ x.toNat < 97) ∨
      102 < x.toNat) : c ≠ x := by
  have := digit_value_range base c h
  intro hc
  subst hc
  omega

theorem scan_digits_all (base : Nat) (ds : List Char) (acc : Nat)
    (h : ∀ c ∈ ds, (digit_value base c).isSome = true) :
    scan_digits base ds acc
      = (ds.foldl (fun a c => a * base + (digit_value base c).getD 0) acc, []) := by
  induction ds generalizing acc with
  | nil => rfl
  | cons c cs ih =>
    have hc := h c (List.mem_cons_self _ _)
    obtain ⟨d, hd⟩ := Option.isSome_iff_exists.mp hc
    simp only [scan_digits, hd, List.foldl_cons, Option.getD_some]
    exact ih _ (fun x hx => h x (List.mem_cons_of_mem _ hx))

theorem has_hex_marker_digits (base : Nat) (ds : List Char)
    (h : ∀ c ∈ ds, (digit_value base c).isSome = true) : has_hex_marker ds = false := by
  match ds, h with
  | [], _ => rfl
  | [_], _ => rfl
  | a :: b :: t, h =>
    have hb := h b (by simp)
    have h1 : b ≠ 'x' := digit_ne base b 'x' hb (by decide)
    have h2 : b ≠ 'X' := digit_ne base b 'X' hb (by decide)
    simp [has_hex_marker, h1, h2]

theorem strtol_digits (base : Nat) (ds : List Char) (hne : ds ≠ [])
    (h : ∀ c ∈ ds, (digit_value base c).isSome = true)
    (hv : digits_value base ds < 2 ^ 63) :
    strtol base ds = (digits_value base ds : Int) := by
  obtain ⟨c, t, rfl⟩ := List.exists_cons_of_ne_nil hne
  have hc := h c (List.mem_cons_self _ _)
  have hsp : isspace c = false := digit_not_space base c hc
  have h1 : c ≠ '-' := digit_ne base c '-' hc (by decide)
  have h2 : c ≠ '+' := digit_ne base c '+' hc (by decide)
  have hdrop : (c :: t).dropWhile isspace = c :: t := by
    simp [List.dropWhile, hsp]
  have hsign : scan_sign (c :: t) = (false, c :: t) := by
    simp [scan_sign, h1, h2]
  have hmark : has_hex_marker (c :: t) = false := has_hex_marker_digits base _ h
  have hscan := scan_digits_all base (c :: t) 0 h
  unfold strtol
  simp only [hdrop, hsign, hmark, Bool.and_false, Bool.false_eq_true, if_false, hscan]
  have hv' : ¬ (List.foldl (fun a c => a * base + (digit_value base c).getD 0) 0 (c :: t)
      ≥ 2 ^ 63) := by
    unfold digits_value at hv
    omega
  simp only [hv', if_false]
  rfl

theorem long_to_int_small (v : Nat) (h : v ≤ 0xFFFF) : long_to_int (v : Int) = (v : Int) := by
  unfold long_to_int
  norm_num
  omega

theorem digit_value_ten_sixteen (c : Char) (h : (digit_value 10 c).isSome = true) :
    (digit_value 16 c).isSome = true := by
  unfold digit_value at h ⊢
  dsimp only at h ⊢
  split_ifs at h ⊢ <;> simp_all <;> omega

/-- The keycode that lines 146-155 read from a literal in range is its value. -/
theorem parse_keycode_literal (e : List Char) (hlit : is_keycode_literal e = true)
    (hr : keycode_literal_value e ≤ 0xFFFF) :
    parse_keycode e = (keycode_literal_value e : Int) := by
  unfold keycode_literal_value at hr ⊢
  unfold parse_keycode
  by_cases hm : has_hex_marker e = true
  · simp only [hm, if_true] at hr ⊢
    have hhex : is_hex_literal e = true := by
      unfold is_keycode_literal at hlit
      rcases Bool.or_eq_true _ _ |>.mp hlit with hd | hh
      · exfalso
        unfold is_decimal_literal at hd
        simp only [Bool.and_eq_true, List.all_eq_true] at hd
        have := has_hex_marker_digits 10 e hd.2
        rw [this] at hm
        cases hm
      · exact hh
    unfold is_hex_literal at hhex
    simp only [Bool.and_eq_true, List.all_eq_true, Bool.not_eq_true', List.isEmpty_eq_false] at hhex
    have hne : e.drop 2 ≠ [] := by
      intro h0
      have := hhex.1.2
      rw [h0] at this
      simp at this
    rw [strtol_digits 16 (e.drop 2) hne hhex.2 (by omega)]
    exact long_to_int_small _ hr
  · simp only [hm, if_false, Bool.false_eq_true] at hr ⊢
    have hdec : is_decimal_literal e = true := by
      unfold is_keycode_literal at hlit
      rcases Bool.or_eq_true _ _ |>.mp hlit with hd | hh
      · exact hd
      · exfalso
        unfold is_hex_literal at hh
        simp only [Bool.and_eq_true] at hh
        exact hm hh.1.1
    unfold is_decimal_literal at hdec
    simp only [Bool.and_eq_true, List.all_eq_true, Bool.not_eq_true', List.isEmpty_eq_false] at hdec
    have hne : e ≠ [] := by
      intro h0
      have := hdec.1
      rw [h0] at this
      simp at this
    unfold atoi
    rw [strtol_digits 10 e hne hdec.2 (by omega)]
    exact long_to_int_small _ hr

theorem monitored_loop_literals (es : List (List Char)) (ks : List Nat)
    (hn : ks.length + es.length ≤ MAX_MONITORED_KEYCODES)
    (hlit : ∀ e ∈ es, is_keycode_literal e = true)
    (hr : ∀ e ∈ es, keycode_literal_value e ≤ 0xFFFF) :
    monitored_loop es ks = ks ++ es.map keycode_literal_value := by
  induction es generalizing ks with
  | nil => simp [monitored_loop]
  | cons e es ih =>
    have he := parse_keycode_literal e (hlit e (List.mem_cons_self _ _))
      (hr e (List.mem_cons_self _ _))
    have hre := hr e (List.mem_cons_self _ _)
    simp only [List.length_cons] at hn
    have hlt : ks.length < MAX_MONITORED_KEYCODES := by omega
    unfold monitored_loop
    simp only [hlt, if_true, he]
    have hin : ((0 : Int) ≤ (keycode_literal_value e : Int)
        && decide ((keycode_literal_value e : Int) ≤ 0xFFFF)) = true := by
      simp only [Bool.and_eq_true, decide_eq_true_eq]
      constructor <;> omega
    simp only [hin, if_true, Int.toNat_ofNat]
    rw [ih (ks ++ [keycode_literal_value e]) (by simp; omega)
      (fun x hx => hlit x (List.mem_cons_of_mem _ hx))
      (fun x hx => hr x (List.mem_cons_of_mem _ hx))]
    simp

theorem literal_ne_nil (e : List Char) (hlit : is_keycode_literal e = true) : e ≠ [] := by
  intro h
  subst h
  revert hlit
  decide

theorem literal_char_props (e : List Char) (c : Char) (hlit : is_keycode_literal e = true)
    (hc : c ∈ e) : isspace c = false ∧ c ≠ ',' ∧ c ≠ NUL := by
  have hdigit : ∀ base (x : Char), (digit_value base x).isSome = true →
      isspace x = false ∧ x ≠ ',' ∧ x ≠ NUL := fun base x hx =>
    ⟨digit_not_space base x hx, digit_ne base x ',' hx (by decide),
      digit_ne base x NUL hx (by decide)⟩
  unfold is_keycode_literal at hlit
  rcases Bool.or_eq_true _ _ |>.mp hlit with hd | hh
  · unfold is_decimal_literal at hd
    simp only [Bool.and_eq_true, List.all_eq_true] at hd
    exact hdigit 10 c (hd.2 c hc)
  · unfold is_hex_literal at hh
    simp only [Bool.and_eq_true, List.all_eq_true] at hh
    obtain ⟨⟨hm, _⟩, hall⟩ := hh
    match e, hm, hall, hc with
    | a :: b :: t, hm, hall, hc =>
      simp only [has_hex_marker, Bool.and_eq_true, beq_iff_eq, Bool.or_eq_true] at hm
      simp only [List.drop_succ_cons, List.drop_zero] at hall
      simp only [List.mem_cons] at hc
      rcases hc with h | h | h
      · rw [h, hm.1]; decide
      · rcases hm.2 with h' | h' <;> (rw [h, h']; decide)
      · exact hdigit 16 c (hall c h)

theorem strtok_all_run (d : Char) (e rest acc : List Char) (h : ∀ c ∈ e, c ≠ d) :
    strtok_all d (e ++ rest) acc = strtok_all d rest (e.reverse ++ acc) := by
  induction e generalizing acc with
  | nil => rfl
  | cons c cs ih =>
    have hc : (c == d) = false := by
      simpa using h c (List.mem_cons_self _ _)
    simp only [List.cons_append, strtok_all, hc, Bool.false_eq_true, if_false, List.append_eq]
    rw [ih _ (fun x hx => h x (List.mem_cons_of_mem _ hx))]
    simp

theorem strtok_all_join (es : List (List Char))
    (hlit : ∀ e ∈ es, is_keycode_literal e = true) :
    strtok_all ',' (join_commas es) [] = es := by
  match es, hlit with
  | [], _ => rfl
  | [e], hlit =>
    have hne := literal_ne_nil e (hlit e (by simp))
    have := strtok_all_run ',' e [] []
      (fun c hc => (literal_char_props e c (hlit e (by simp)) hc).2.1)
    simp only [List.append_nil] at this
    simp only [join_commas, this, strtok_all]
    simp [hne]
  | e :: e' :: es, hlit =>
    have hne := literal_ne_nil e (hlit e (by simp))
    have := strtok_all_run ',' e (',' :: join_commas (e' :: es)) []
      (fun c hc => (literal_char_props e c (hlit e (by simp)) hc).2.1)
    simp only [List.append_nil] at this
    simp only [join_commas, this, strtok_all, beq_self_eq_true, if_true]
    have ih := strtok_all_join (e' :: es) (fun x hx => hlit x (List.mem_cons_of_mem _ hx))
    simp [hne, ih]

theorem join_commas_chars (es : List (List Char))
    (hlit : ∀ e ∈ es, is_keycode_literal e = true) :
    ∀ c ∈ join_commas es, isspace c = false ∧ c ≠ NUL := by
  match es, hlit with
  | [], _ => intro c hc; simp [join_commas] at hc
  | [e], hlit =>
    intro c hc
    simp only [join_commas] at hc
    have := literal_char_props e c (hlit e (by simp)) hc
    exact ⟨this.1, this.2.2⟩
  | e :: e' :: es, hlit =>
    intro c hc
    simp only [join_commas, List.mem_append, List.mem_cons] at hc
    rcases hc with h | h | h
    · have := literal_char_props e c (hlit e (by simp)) h
      exact ⟨this.1, this.2.2⟩
    · rw [h]; decide
    · exact join_commas_chars (e' :: es) (fun x hx => hlit x (List.mem_cons_of_mem _ hx)) c h

theorem dropWhile_isspace_none (s : List Char) (h : ∀ c ∈ s, isspace c = false) :
    s.dropWhile isspace = s := by
  cases s with
  | nil => rfl
  | cons a m => simp [List.dropWhile, h a (List.mem_cons_self _ _)]

theorem dropWhile_isspace_all (w : List Char) (h : ∀ c ∈ w, isspace c = true) :
    w.dropWhile isspace = [] := by
  induction w with
  | nil => rfl
  | cons a m ih =>
    simp [List.dropWhile, h a (List.mem_cons_self _ _),
      ih (fun x hx => h x (List.mem_cons_of_mem _ hx))]

/-- Cutting trailing white space after a byte that is not white space. -/
theorem rstrip_after (m : List Char) (z : Char) (w : List Char) (hz : isspace z = false)
    (hw : ∀ c ∈ w, isspace c = true) :
    ((m ++ z :: w).reverse.dropWhile isspace).reverse = m ++ [z] := by
  have hw' : ∀ c ∈ w.reverse, isspace c = true := fun c hc => hw c (List.mem_reverse.mp hc)
  rw [List.reverse_append, List.reverse_cons, List.append_assoc,
    List.dropWhile_append_of_pos hw']
  simp [List.dropWhile, hz]

theorem trim_core (a : Char) (m : List Char) (z : Char) (w : List Char)
    (ha : isspace a = false) (hz : isspace z = false) (hw : ∀ c ∈ w, isspace c = true) :
    trim (a :: (m ++ z :: w)) = a :: (m ++ [z]) := by
  unfold trim
  simp only [List.dropWhile, ha]
  rw [rstrip_after m z w hz hw]

theorem trim_no_space (w1 s w2 : List Char) (hw1 : ∀ c ∈ w1, isspace c = true)
    (hs : ∀ c ∈ s, isspace c = false) (hw2 : ∀ c ∈ w2, isspace c = true) :
    trim (w1 ++ (s ++ w2)) = s := by
  unfold trim
  rw [List.dropWhile_append_of_pos hw1]
  cases s with
  | nil => simp [dropWhile_isspace_all w2 hw2]
  | cons a m =>
    have ha := hs a (List.mem_cons_self _ _)
    have hw' : ∀ c ∈ w2.reverse, isspace c = true := fun c hc => hw2 c (List.mem_reverse.mp hc)
    have hm : ∀ c ∈ m.reverse, isspace c = false :=
      fun c hc => hs c (List.mem_cons_of_mem _ (List.mem_reverse.mp hc))
    simp only [List.cons_append, List.dropWhile, ha, List.append_eq]
    rw [List.reverse_append, List.dropWhile_append_of_pos hw', dropWhile_isspace_none _ hm]
    simp

theorem split_eq_append (p v : List Char) (hp : ∀ c ∈ p, c ≠ '=') :
    split_eq (p ++ '=' :: v) = some (p, v) := by
  induction p with
  | nil => simp [split_eq]
  | cons c cs ih =>
    have hc : (c == '=') = false := by simpa using hp c (List.mem_cons_self _ _)
    simp [split_eq, hc, ih (fun x hx => hp x (List.mem_cons_of_mem _ hx))]

theorem isspace_ne_NUL (c : Char) (h : isspace c = true) : c ≠ NUL := by
  intro hc
  subst hc
  revert h
  decide

/-- The trimmed text of a `monitored_keycodes` line: the key, `=`, and a value
whose trimmed form is the list of entries. -/
theorem monitored_line_trimmed (es : List (List Char)) (eol : List Char)
    (hlit : ∀ e ∈ es, is_keycode_literal e = true)
    (heol : ∀ c ∈ eol, isspace c = true) :
    ∃ X, trim (cstr (monitored_line es eol))
        = 'm' :: ("onitored_keycodes ".toList ++ '=' :: X) ∧
      trim X = join_commas es := by
  have hj := join_commas_chars es hlit
  have hnul : NUL ∉ monitored_line es eol := by
    unfold monitored_line
    simp only [List.mem_append, not_or]
    refine ⟨⟨by decide, fun h => (hj _ h).2 rfl⟩, fun h => isspace_ne_NUL _ (heol _ h) rfl⟩
  rw [cstr_eq_self _ hnul]
  rcases List.eq_nil_or_concat (join_commas es) with h0 | ⟨j, z, hjz⟩
  · refine ⟨[], ?_, by rw [h0]; rfl⟩
    have hline : monitored_line es eol
        = 'm' :: ("onitored_keycodes ".toList ++ '=' :: (' ' :: eol)) := by
      unfold monitored_line
      rw [h0]
      rfl
    rw [hline, trim_core 'm' _ '=' (' ' :: eol) (by decide) (by decide)
      (by
        intro c hc
        rcases List.mem_cons.mp hc with h | h
        · rw [h]; decide
        · exact heol c h)]
  · refine ⟨' ' :: join_commas es, ?_, ?_⟩
    · have hz : isspace z = false := (hj z (by rw [hjz]; simp)).1
      have hline : monitored_line es eol
          = 'm' :: (("onitored_keycodes = ".toList ++ j) ++ z :: eol) := by
        unfold monitored_line
        rw [hjz]
        simp
      rw [hline, trim_core 'm' _ z eol (by decide) hz heol, hjz]
      simp
    · have := trim_no_space [' '] (join_commas es) [] (by decide) (fun c hc => (hj c hc).1)
        (by simp)
      simpa using this

/-- The effect of a `monitored_keycodes` line read in the general section. -/
theorem process_line_monitored (M : Nat) (st : load_state) (es : List (List Char))
    (eol : List Char) (hgen : st.in_general_section = true)
    (hlit : ∀ e ∈ es, is_keycode_literal e = true)
    (heol : ∀ c ∈ eol, isspace c = true) :
    process_line M st (monitored_line es eol)
      = { st with config := { st.config with
            monitored_keycodes := monitored_loop es st.config.monitored_keycodes } } := by
  obtain ⟨X, htrim, hX⟩ := monitored_line_trimmed es eol hlit heol
  have hsplit : split_eq ('m' :: ("onitored_keycodes ".toList ++ '=' :: X))
      = some ("monitored_keycodes ".toList, X) :=
    split_eq_append "monitored_keycodes ".toList X (by decide)
  have hkey : trim "monitored_keycodes ".toList = "monitored_keycodes".toList := by decide
  have h1 : strcasecmp_eq "monitored_keycodes".toList "setleds".toList = false := by decide
  have h2 : strcasecmp_eq "monitored_keycodes".toList "monitored_keycodes".toList = true := by
    decide
  have hgl : general_line st.config ('m' :: ("onitored_keycodes ".toList ++ '=' :: X))
      = { st.config with
          monitored_keycodes := monitored_loop es st.config.monitored_keycodes } := by
    unfold general_line
    rw [hsplit]
    dsimp only
    rw [hkey, hX, h1, h2, strtok_all_join es hlit]
    rfl
  unfold process_line
  rw [htrim]
  dsimp only
  rw [if_neg (by decide), if_neg (by decide), if_pos hgen, hgl]

theorem general_line_other (c : config_t) (t : List Char)
    (h : (match split_eq t with
          | some (k, _) => strcasecmp_eq (trim k) "monitored_keycodes".toList
          | none => false) = false) :
    (general_line c t).monitored_keycodes = c.monitored_keycodes := by
  unfold general_line
  cases hs : split_eq t with
  | none => rfl
  | some kv =>
    obtain ⟨k, v⟩ := kv
    rw [hs] at h
    dsimp only at h ⊢
    split_ifs <;> first | rfl | simp_all

/-- A buffer that is not a `monitored_keycodes` line leaves the stored
keycodes as they are. -/
theorem process_line_other (M : Nat) (st : load_state) (line : List Char)
    (h : is_monitored_line line = false) :
    (process_line M st line).config.monitored_keycodes = st.config.monitored_keycodes := by
  unfold is_monitored_line at h
  unfold process_line
  cases ht : trim (cstr line) with
  | nil => rfl
  | cons c t =>
    rw [ht] at h
    dsimp only
    split_ifs
    · rfl
    · rfl
    · rfl
    · cases sscanf_section (c :: t) <;> rfl
    · exact general_line_other _ _ h
    · cases st.current <;> rfl

theorem load_loop_other (M : Nat) (lines : List (List Char)) (st : load_state)
    (h : ∀ l ∈ lines, is_monitored_line l = false) :
    (load_loop M lines st).config.monitored_keycodes = st.config.monitored_keycodes := by
  induction lines generalizing st with
  | nil => rfl
  | cons l ls ih =>
    have := ih (process_line M st l) (fun x hx => h x (List.mem_cons_of_mem _ hx))
    simp only [load_loop, List.foldl] at this ⊢
    rw [this, process_line_other M st l (h l (List.mem_cons_self _ _))]

theorem apply_default_path_monitored (c : config_t) :
    (apply_default_path c).monitored_keycodes = c.monitored_keycodes := by
  unfold apply_default_path
  split_ifs <;> rfl

/-- C5 (as amended): a line `monitored_keycodes = e1,...,en` that the loader
reads in one piece (one buffer of `read_lines`, at most 255 bytes) in the
general section of a source with no other `monitored_keycodes` line, with at
most five entries, each a decimal or `0x`-marked hexadecimal integer of value
at most 0xFFFF, makes `load_config` succeed and store exactly the values of
the entries, in source order, their number being the count. -/
theorem load_config_monitored_keycodes (maxDev : Nat) (c0 : config_t) (src : List Char)
    (before after : List (List Char)) (es : List (List Char)) (eol : List Char)
    (hsrc : read_lines src = before ++ monitored_line es eol :: after)
    (hgen : (load_loop maxDev before (initial_state c0)).in_general_section = true)
    (hother : ∀ l ∈ before ++ after, is_monitored_line l = false)
    (heol : ∀ c ∈ eol, isspace c = true)
    (hn : es.length ≤ 5)
    (hlit : ∀ e ∈ es, is_keycode_literal e = true)
    (hrange : ∀ e ∈ es, keycode_literal_value e ≤ 0xFFFF) :
    (load_config maxDev (some src) c0).1 = true ∧
    (load_config maxDev (some src) c0).2.monitored_keycodes = es.map keycode_literal_value ∧
    (load_config maxDev (some src) c0).2.monitored_keycodes_count = es.length := by
  have hmain : (load_config maxDev (some src) c0).2.monitored_keycodes
      = es.map keycode_literal_value := by
    simp only [load_config, apply_default_path_monitored, hsrc]
    have hsplit : load_loop maxDev (before ++ monitored_line es eol :: after) (initial_state c0)
        = load_loop maxDev after (process_line maxDev
            (load_loop maxDev before (initial_state c0)) (monitored_line es eol)) := by
      simp [load_loop, List.foldl_append]
    rw [hsplit, load_loop_other maxDev after _ (fun l hl => hother l (by simp [hl])),
      process_line_monitored maxDev _ es eol hgen hlit heol]
    dsimp only
    rw [load_loop_other maxDev before _ (fun l hl => hother l (by simp [hl]))]
    have h0 : (initial_state c0).config.monitored_keycodes = [] := rfl
    rw [h0, monitored_loop_literals es [] (by simp [MAX_MONITORED_KEYCODES]; omega) hlit hrange]
    simp
  refine ⟨rfl, hmain, ?_⟩
  simp only [config_t.monitored_keycodes_count, hmain, List.length_map]

/-- Witness for C5: the line `monitored_keycodes = 0x1234,5678,0xABCD` of the
source of `test_load_config_sections` stores 0x1234, 5678 and 0xABCD. -/
theorem load_config_monitored_keycodes_witness :
    (load_config MAX_CONFIG_DEVICES (some sections_source) empty_config).1 = true ∧
    (load_config MAX_CONFIG_DEVICES (some sections_source) empty_config).2.monitored_keycodes
      = [0x1234, 5678, 0xABCD] ∧
    (load_config MAX_CONFIG_DEVICES (some sections_source)
      empty_config).2.monitored_keycodes_count = 3 :=
  load_config_monitored_keycodes MAX_CONFIG_DEVICES empty_config sections_source
    ["[general]\n".toList, "setleds = /custom/path/setleds\n".toList]
    ["\n".toList, "[0x5043/0x54a3]\n".toList, "target = *\n".toList, "0x6F = +caps\n".toList,
     "\n".toList, "[0x0483/0x5740]\n".toList, "target = device2\n".toList,
     "111 = -num\n".toList]
    ["0x1234".toList, "5678".toList, "0xABCD".toList] "\n".toList
    (by decide) (by decide) (by decide) (by decide) (by decide) (by decide) (by decide)

/-! ## Lines `key = value` -/

theorem trim_eq (s : List Char) :
    trim s = match s.dropWhile isspace with
      | [] => []
      | c :: r => c :: rstrip r := rfl

theorem dropWhile_head_not (l : List Char) (c : Char) (r : List Char)
    (h : l.dropWhile isspace = c :: r) : isspace c = false := by
  induction l with
  | nil => simp at h
  | cons a l ih =>
    by_cases ha : isspace a = true
    · simp only [List.dropWhile, ha] at h
      exact ih h
    · simp only [List.dropWhile, ha] at h
      have := (List.cons.inj h).1
      rw [← this]
      simpa using ha

theorem rstrip_append_space (r w : List Char) (hw : ∀ c ∈ w, isspace c = true) :
    rstrip (r ++ w) = rstrip r := by
  unfold rstrip
  have hw' : ∀ c ∈ w.reverse, isspace c = true := fun c hc => hw c (List.mem_reverse.mp hc)
  rw [List.reverse_append, List.dropWhile_append_of_pos hw']

theorem rstrip_append_nonspace (p q : List Char) (z : Char) (hz : isspace z = false) :
    rstrip (p ++ z :: q) = p ++ z :: rstrip q := by
  unfold rstrip
  rw [List.reverse_append, List.reverse_cons, List.append_assoc, List.dropWhile_append]
  split_ifs with h
  · have h0 : List.dropWhile isspace q.reverse = [] := by simpa using h
    simp [List.dropWhile, hz, h0]
  · simp

theorem rstrip_all_space (w : List Char) (hw : ∀ c ∈ w, isspace c = true) : rstrip w = [] := by
  have := rstrip_append_space [] w hw
  simpa [rstrip] using this

theorem rstrip_idem (s : List Char) : rstrip (rstrip s) = rstrip s := by
  unfold rstrip
  rw [List.reverse_reverse]
  congr 1
  cases h : List.dropWhile isspace s.reverse with
  | nil => rfl
  | cons c r =>
    have hc := dropWhile_head_not _ c r h
    simp [List.dropWhile, hc]

theorem trim_append_left (w s : List Char) (hw : ∀ c ∈ w, isspace c = true) :
    trim (w ++ s) = trim s := by
  rw [trim_eq, trim_eq, List.dropWhile_append_of_pos hw]

theorem trim_all_space (w : List Char) (hw : ∀ c ∈ w, isspace c = true) : trim w = [] := by
  rw [trim_eq, dropWhile_isspace_all w hw]

theorem trim_append_right (s w : List Char) (hw : ∀ c ∈ w, isspace c = true) :
    trim (s ++ w) = trim s := by
  rw [trim_eq, trim_eq, List.dropWhile_append]
  cases h : List.dropWhile isspace s with
  | nil => simp [dropWhile_isspace_all w hw]
  | cons c r => simp [rstrip_append_space r w hw]

theorem takeWhile_all_space (x : List Char) : ∀ c ∈ x.takeWhile isspace, isspace c = true := by
  intro c hc
  exact (List.mem_takeWhile_imp hc)

theorem trim_rstrip (x : List Char) : trim (rstrip x) = trim x := by
  have hx := List.takeWhile_append_dropWhile isspace x
  have hw := takeWhile_all_space x
  cases h : List.dropWhile isspace x with
  | nil =>
    rw [h, List.append_nil] at hx
    rw [← hx, rstrip_all_space _ hw, trim_all_space _ hw]
    rfl
  | cons c r =>
    have hc := dropWhile_head_not x c r h
    rw [h] at hx
    have h1 : rstrip x = x.takeWhile isspace ++ c :: rstrip r := by
      conv_lhs => rw [← hx]
      exact rstrip_append_nonspace _ r c hc
    rw [h1, trim_append_left _ _ hw]
    conv_rhs => rw [← hx]
    rw [trim_append_left _ _ hw, trim_eq, trim_eq]
    simp [List.dropWhile, hc, rstrip_idem]

/-- A line with a `=`: the loop cuts it at the first `=` into two parts whose
trimmed forms are the trimmed text before and after that `=`. -/
theorem key_value_split (rawk rawv : List Char) (hk : ∀ c ∈ rawk, c ≠ '=') :
    ∃ k v, split_eq (trim (rawk ++ '=' :: rawv)) = some (k, v) ∧
      trim k = trim rawk ∧ trim v = trim rawv ∧
      (trim (rawk ++ '=' :: rawv)).head? = (trim rawk ++ ['=']).head? := by
  have hx := List.takeWhile_append_dropWhile isspace rawk
  have hw := takeWhile_all_space rawk
  have heq : isspace '=' = false := by decide
  cases h : List.dropWhile isspace rawk with
  | nil =>
    rw [h, List.append_nil] at hx
    have hall : ∀ c ∈ rawk, isspace c = true := by rw [← hx]; exact hw
    have ht : trim (rawk ++ '=' :: rawv) = '=' :: rstrip rawv := by
      rw [trim_append_left _ _ hall, trim_eq]
      simp [List.dropWhile, heq]
    refine ⟨[], rstrip rawv, ?_, ?_, trim_rstrip rawv, ?_⟩
    · rw [ht]; simp [split_eq]
    · rw [trim_all_space _ hall]; rfl
    · rw [ht, trim_all_space _ hall]; rfl
  | cons c r =>
    have hc := dropWhile_head_not rawk c r h
    rw [h] at hx
    have hmem : ∀ x ∈ c :: r, x ≠ '=' := by
      intro x hx'
      apply hk
      rw [← hx]
      exact List.mem_append_right _ hx'
    have ht : trim (rawk ++ '=' :: rawv) = (c :: r) ++ '=' :: rstrip rawv := by
      conv_lhs => rw [← hx]
      rw [List.append_assoc, trim_append_left _ _ hw, trim_eq]
      simp only [List.cons_append, List.dropWhile, hc, List.append_eq]
      rw [rstrip_append_nonspace r rawv '=' heq]
    have htk : trim rawk = c :: rstrip r := by
      rw [trim_eq, h]
    refine ⟨c :: r, rstrip rawv, ?_, ?_, trim_rstrip rawv, ?_⟩
    · rw [ht]; exact split_eq_append _ _ hmem
    · conv_rhs => rw [← hx]
      rw [trim_append_left _ _ hw]
    · rw [ht, htk]; rfl

theorem general_line_split (c : config_t) (t k v : List Char) (h : split_eq t = some (k, v)) :
    general_line c t = general_key_value c (trim k) (trim v) := by
  unfold general_line general_key_value
  rw [h]

theorem device_line_split (d : device_config_t) (t k v : List Char)
    (h : split_eq t = some (k, v)) :
    device_line d t = device_key_value d (trim k) (trim v) := by
  unfold device_line device_key_value
  rw [h]

/-- The body of the reading loop on a line that holds a `=` and is not a
section header depends only on the trimmed key and the trimmed value. -/
theorem process_line_key_value (M : Nat) (st : load_state) (rawk rawv : List Char)
    (hk : ∀ c ∈ rawk, c ≠ '=') (hnul : NUL ∉ rawk ++ '=' :: rawv)
    (hhdr : (trim rawk).head? ≠ some '[') :
    process_line M st (rawk ++ '=' :: rawv) = process_key_value st (trim rawk) (trim rawv) := by
  obtain ⟨k, v, hsplit, hkk, hvv, hhead⟩ := key_value_split rawk rawv hk
  unfold process_line process_key_value
  rw [cstr_eq_self _ hnul]
  cases ht : trim (rawk ++ '=' :: rawv) with
  | nil => rw [ht] at hsplit; simp [split_eq] at hsplit
  | cons c t =>
    rw [ht] at hsplit hhead
    dsimp only
    have hc1 : (c == '[') = false := by
      cases htk : trim rawk with
      | nil =>
        rw [htk] at hhead
        simp at hhead
        rw [hhead]; decide
      | cons a r =>
        rw [htk] at hhead hhdr
        simp at hhead hhdr
        rw [hhead]
        simpa using hhdr
    have hc2 : (c == '#') = decide ((trim rawk).head? = some '#') := by
      cases htk : trim rawk with
      | nil =>
        rw [htk] at hhead
        simp at hhead
        rw [hhead]; decide
      | cons a r =>
        rw [htk] at hhead
        simp at hhead
        rw [hhead]
        by_cases ha : a = '#' <;> simp [ha]
    rw [general_line_split _ _ k v hsplit, hkk, hvv]
    have hdl : (fun d => device_line d (c :: t))
        = (fun d => device_key_value d (trim rawk) (trim rawv)) := by
      funext d
      rw [device_line_split _ _ k v hsplit, hkk, hvv]
    rw [hdl]
    by_cases hh : (trim rawk).head? = some '#'
    · simp [hc2, hh]
    · simp [hc2, hh, hc1]

/-! ## Binding lines -/

theorem toLower_of_not_upper (c : Char) (h : ¬ (65 ≤ c.toNat ∧ c.toNat ≤ 90)) :
    c.toLower = c := by
  unfold Char.toLower
  simp only [ge_iff_le]
  rw [if_neg h]

theorem decimal_digit_range (c : Char) (h : (digit_value 10 c).isSome = true) :
    48 ≤ c.toNat ∧ c.toNat ≤ 57 := by
  rcases digit_value_range 10 c h with h1 | h1 | h1
  · exact h1
  · exfalso
    unfold digit_value at h
    have ha : ¬ (48 ≤ c.toNat ∧ c.toNat ≤ 57) := by omega
    have hb : ¬ (c.toNat - 87 < 10) := by omega
    simp [ha, h1, hb] at h
  · exfalso
    unfold digit_value at h
    have ha : ¬ (48 ≤ c.toNat ∧ c.toNat ≤ 57) := by omega
    have hb : ¬ (97 ≤ c.toNat ∧ c.toNat ≤ 102) := by omega
    have hc : ¬ (c.toNat - 55 < 10) := by omega
    simp [ha, hb, h1, hc] at h

theorem literal_head (e : List Char) (hlit : is_keycode_literal e = true) :
    ∃ c t, e = c :: t ∧ 48 ≤ c.toNat ∧ c.toNat ≤ 57 := by
  unfold is_keycode_literal at hlit
  rcases Bool.or_eq_true _ _ |>.mp hlit with hd | hh
  · unfold is_decimal_literal at hd
    simp only [Bool.and_eq_true, List.all_eq_true] at hd
    match e, hd with
    | [], hd => simp at hd
    | c :: t, hd =>
      refine ⟨c, t, rfl, ?_⟩
      have hc := hd.2 c (List.mem_cons_self _ _)
      exact decimal_digit_range c hc
  · unfold is_hex_literal at hh
    simp only [Bool.and_eq_true] at hh
    obtain ⟨⟨hm, _⟩, _⟩ := hh
    match e, hm with
    | a :: b :: t, hm =>
      simp only [has_hex_marker, Bool.and_eq_true, beq_iff_eq] at hm
      refine ⟨a, b :: t, rfl, ?_⟩
      rw [hm.1]; decide

theorem literal_not_target (e : List Char) (hlit : is_keycode_literal e = true) :
    strcasecmp_eq e "target".toList = false := by
  obtain ⟨c, t, rfl, h1, h2⟩ := literal_head e hlit
  have hc : c.toLower = c := toLower_of_not_upper c (by omega)
  have hne : c ≠ 't' := by
    intro h
    subst h
    revert h1 h2
    decide
  unfold strcasecmp_eq
  have : "target".toList.map Char.toLower = 't' :: "arget".toList := by decide
  rw [this]
  simp [hc, hne]

theorem literal_head_plain (e : List Char) (hlit : is_keycode_literal e = true) :
    e.head? ≠ some '[' ∧ e.head? ≠ some '#' := by
  obtain ⟨c, t, rfl, h1, h2⟩ := literal_head e hlit
  constructor <;>
  · simp only [List.head?_cons, ne_eq, Option.some.injEq]
    intro h
    subst h
    revert h1 h2
    decide

/-- The keycode stored for a literal key of value at most 0xFFFF. -/
theorem stored_keycode_literal (e : List Char) (hlit : is_keycode_literal e = true)
    (hr : keycode_literal_value e ≤ 0xFFFF) :
    (parse_keycode e % 65536).toNat = keycode_literal_value e := by
  rw [parse_keycode_literal e hlit hr]
  omega

theorem load_loop_snoc (M : Nat) (lines : List (List Char)) (l : List Char) (st : load_state) :
    load_loop M (lines ++ [l]) st = process_line M (load_loop M lines st) l := by
  simp [load_loop, List.foldl_append]

/-- C11 (as amended): in a device section whose profile has a free binding
slot, a line `key = value` whose key is a decimal or `0x`-marked hexadecimal
integer of value at most 0xFFFF and whose trimmed value is the byte `m`
followed by a non-empty `rest` appends one binding with that integer as
keycode, `m` as mode and the first 15 bytes of `rest` as LED name; a trimmed
value of fewer than two bytes leaves the profile as it was. The line is the
last buffer of the source; `n` is the index that `current` points to. -/
theorem load_config_binding_line (maxDev : Nat) (c0 : config_t) (src : List Char)
    (before : List (List Char)) (rawk rawv : List Char) (n : Nat) (d : device_config_t)
    (hsrc : read_lines src = before ++ [rawk ++ '=' :: rawv])
    (hk : ∀ c ∈ rawk, c ≠ '=') (hnul : NUL ∉ rawk ++ '=' :: rawv)
    (hsec : (load_loop maxDev before (initial_state c0)).in_general_section = false)
    (hcur : (load_loop maxDev before (initial_state c0)).current = some n)
    (hd : (load_loop maxDev before (initial_state c0)).config.devices[n]? = some d)
    (hroom : d.binding_count < MAX_BINDINGS)
    (hlit : is_keycode_literal (trim rawk) = true)
    (hrange : keycode_literal_value (trim rawk) ≤ 0xFFFF) :
    (load_config maxDev (some src) c0).1 = true ∧
    (∀ m rest, trim rawv = m :: rest → rest ≠ [] →
      (load_config maxDev (some src) c0).2.devices[n]?
        = some { d with bindings := d.bindings ++
            [{ keycode := keycode_literal_value (trim rawk), led := rest.take 15,
               mode := m }] }) ∧
    ((trim rawv).length < 2 → (load_config maxDev (some src) c0).2.devices[n]? = some d) := by
  have hplain := literal_head_plain _ hlit
  have hstep := process_line_key_value maxDev (load_loop maxDev before (initial_state c0))
    rawk rawv hk hnul hplain.1
  have hdev : (load_config maxDev (some src) c0).2.devices[n]?
      = some (device_key_value d (trim rawk) (trim rawv)) := by
    simp only [load_config, apply_default_path_devices, hsrc, load_loop_snoc, hstep]
    unfold process_key_value
    rw [if_neg hplain.2, hsec, hcur]
    simp [update_at_getElem?, hd]
  have hroom' : ¬ d.bindings.length ≥ MAX_BINDINGS := by
    unfold device_config_t.binding_count at hroom
    omega
  refine ⟨rfl, ?_, ?_⟩
  · intro m rest hv hrest
    rw [hdev, hv]
    unfold device_key_value
    rw [literal_not_target _ hlit]
    have hlen : ¬ (m :: rest).length < 2 := by
      cases rest with
      | nil => exact absurd rfl hrest
      | cons a r => simp
    simp only [Bool.false_eq_true, if_false, hroom', hlen, stored_keycode_literal _ hlit hrange]
    rfl
  · intro hshort
    rw [hdev]
    unfold device_key_value
    rw [literal_not_target _ hlit]
    simp only [Bool.false_eq_true, if_false, hroom', hshort, if_true]

/-- Witness for C11: the line `  0x6F <tab>=  +caps  ` in the section 1/1. -/
theorem load_config_binding_line_witness :
    (load_config MAX_CONFIG_DEVICES (some padded_binding_source) empty_config).1 = true ∧
    (∀ m rest, trim "  +caps  \n".toList = m :: rest → rest ≠ [] →
      (load_config MAX_CONFIG_DEVICES (some padded_binding_source) empty_config).2.devices[0]?
        = some { new_profile 1 1 with bindings := (new_profile 1 1).bindings ++
            [{ keycode := keycode_literal_value (trim "  0x6F \t".toList), led := rest.take 15,
               mode := m }] }) ∧
    ((trim "  +caps  \n".toList).length < 2 →
      (load_config MAX_CONFIG_DEVICES (some padded_binding_source) empty_config).2.devices[0]?
        = some (new_profile 1 1)) :=
  load_config_binding_line MAX_CONFIG_DEVICES empty_config padded_binding_source
    ["[1/1]\n".toList] "  0x6F \t".toList "  +caps  \n".toList 0 (new_profile 1 1)
    (by decide) (by decide) (by decide) (by decide) (by decide) (by decide) (by decide)
    (by decide) (by decide)

/-- C11 (counterexample): a value of 19 bytes gives an LED name of 15 bytes,
not the whole remainder of the value, and the key 65537 gives the keycode 1. -/
theorem binding_led_and_keycode_are_cut :
    (load_config MAX_CONFIG_DEVICES (some long_led_source) empty_config).2.devices
      = [{ vendor := 1, product := 1, target := [],
           bindings := [{ keycode := 2, led := "0123456789abcde".toList, mode := '+' }] }] ∧
    "0123456789abcde".toList ≠ "0123456789abcdefgh".toList ∧
    (load_config MAX_CONFIG_DEVICES (some wide_key_source) empty_config).2.devices
      = [{ vendor := 1, product := 1, target := [],
           bindings := [{ keycode := 1, led := "caps".toList, mode := '+' }] }] := by
  decide

theorem fgets_all_line (cap : Nat) (l rest acc : List Char) (hnl : '\n' ∉ l)
    (hlen : acc.length + l.length + 1 ≤ cap) :
    fgets_all cap (l ++ '\n' :: rest) acc
      = (acc.reverse ++ l ++ ['\n']) :: fgets_all cap rest [] := by
  induction l generalizing acc with
  | nil => simp [fgets_all]
  | cons c l ih =>
    have hc : (c == '\n') = false := by
      have : c ≠ '\n' := fun h => hnl (by simp [h])
      simpa using this
    have hcap : ¬ (acc.length + 1 ≥ cap) := by
      simp only [List.length_cons] at hlen
      omega
    simp only [List.cons_append, fgets_all, hc, Bool.false_or, decide_eq_true_eq, hcap, if_false,
      List.append_eq]
    rw [ih (c :: acc) (fun h => hnl (List.mem_cons_of_mem _ h))
      (by simp only [List.length_cons] at hlen ⊢; omega)]
    simp

theorem fgets_all_after_newline (cap : Nat) (a rest acc : List Char) :
    fgets_all cap (a ++ '\n' :: rest) acc
      = fgets_all cap (a ++ ['\n']) acc ++ fgets_all cap rest [] := by
  induction a generalizing acc with
  | nil => simp [fgets_all]
  | cons c a ih =>
    simp only [List.cons_append, fgets_all, List.append_eq]
    split_ifs
    · rw [ih]; simp
    · rw [ih]

/-- The buffers read from a file after a complete line are those of the rest
of the file. -/
theorem read_lines_append (a b : List Char) (ha : a = [] ∨ ∃ a', a = a' ++ ['\n']) :
    read_lines (a ++ b) = read_lines a ++ read_lines b := by
  unfold read_lines
  rcases ha with h | ⟨a', h⟩
  · subst h; simp [fgets_all]
  · subst h
    rw [List.append_assoc]
    exact fgets_all_after_newline 255 a' b []

/-- A line of at most 254 bytes and its newline are read as one buffer. -/
theorem read_lines_line (l rest : List Char) (hnl : '\n' ∉ l) (hlen : l.length ≤ 254) :
    read_lines (l ++ '\n' :: rest) = (l ++ ['\n']) :: read_lines rest := by
  unfold read_lines
  rw [fgets_all_line 255 l rest [] hnl (by simp; omega)]
  simp

theorem cstr_append_left (w x : List Char) (hw : NUL ∉ w) : cstr (w ++ x) = w ++ cstr x := by
  unfold cstr
  rw [List.takeWhile_append_of_pos]
  intro c hc
  simp only [bne_iff_ne, ne_eq]
  intro h
  exact hw (h ▸ hc)

/-- The reading loop skips a buffer whose trimmed text is empty or starts
with `#` (lines 94-96). -/
theorem process_line_skip (M : Nat) (st : load_state) (line : List Char)
    (h : (trim (cstr line)).head? = none ∨ (trim (cstr line)).head? = some '#') :
    process_line M st line = st := by
  unfold process_line
  cases ht : trim (cstr line) with
  | nil => rfl
  | cons c t =>
    rw [ht] at h
    simp only [List.head?_cons, Option.some.injEq, false_or] at h
    rcases h with h | h
    · cases h
    · subst h
      simp

theorem blank_or_comment_trimmed (l : List Char) (hl : is_blank_or_comment l = true) :
    (trim (cstr (l ++ ['\n']))).head? = none ∨ (trim (cstr (l ++ ['\n']))).head? = some '#' := by
  unfold is_blank_or_comment at hl
  have hx := List.takeWhile_append_dropWhile isspace l
  have hw := takeWhile_all_space l
  have hwn : NUL ∉ l.takeWhile isspace := fun h => isspace_ne_NUL _ (hw _ h) rfl
  cases h : List.dropWhile isspace l with
  | nil =>
    left
    rw [h, List.append_nil] at hx
    have hall : ∀ c ∈ l ++ ['\n'], isspace c = true := by
      intro c hc
      rcases List.mem_append.mp hc with h1 | h1
      · rw [← hx] at h1; exact hw c h1
      · simp only [List.mem_singleton] at h1
        rw [h1]; decide
    have hn : NUL ∉ l ++ ['\n'] := fun h => isspace_ne_NUL _ (hall _ h) rfl
    rw [cstr_eq_self _ hn, trim_all_space _ hall]
    rfl
  | cons c r =>
    right
    rw [h] at hl hx
    have hc : c = '#' := by simpa using hl
    subst hc
    have hline : l ++ ['\n'] = l.takeWhile isspace ++ ('#' :: (r ++ ['\n'])) := by
      conv_lhs => rw [← hx]
      simp
    rw [hline, cstr_append_left _ _ hwn, trim_append_left _ _ hw]
    have : cstr ('#' :: (r ++ ['\n'])) = '#' :: cstr (r ++ ['\n']) :=
      cstr_append_left ['#'] _ (by decide)
    rw [this, trim_eq]
    simp [List.dropWhile, show isspace '#' = false from by decide]

/-- C13 (as amended): inserting after a complete line of a source (or at its
start) a line of at most 254 bytes that is empty, holds only white space, or
whose first byte that is not white space is `#`, followed by its newline,
leaves the result of `load_config` as it was. -/
theorem load_config_ignores_blank_or_comment (maxDev : Nat) (c0 : config_t)
    (a b l : List Char)
    (ha : a = [] ∨ ∃ a', a = a' ++ ['\n'])
    (hl : is_blank_or_comment l = true) (hnl : '\n' ∉ l) (hlen : l.length ≤ 254) :
    load_config maxDev (some (a ++ (l ++ '\n' :: b))) c0
      = load_config maxDev (some (a ++ b)) c0 := by
  have h1 : read_lines (a ++ (l ++ '\n' :: b)) = read_lines a ++ (l ++ ['\n']) :: read_lines b := by
    rw [read_lines_append a _ ha, read_lines_line l b hnl hlen]
  have h2 : read_lines (a ++ b) = read_lines a ++ read_lines b := read_lines_append a b ha
  simp only [load_config, h1, h2, load_loop, List.foldl_append, List.foldl_cons,
    process_line_skip maxDev _ _ (blank_or_comment_trimmed l hl)]

/-- Witness for C13: a comment line inserted between the header and the first
line of the section of `basic_source`. -/
theorem load_config_ignores_blank_or_comment_witness :
    load_config MAX_CONFIG_DEVICES
        (some ("[0x5043/0x54a3]\n".toList ++
          ("  # a comment = 1".toList ++ '\n' :: "target = *\n111 = +caps\n".toList)))
        empty_config
      = load_config MAX_CONFIG_DEVICES
        (some ("[0x5043/0x54a3]\n".toList ++ "target = *\n111 = +caps\n".toList)) empty_config :=
  load_config_ignores_blank_or_comment MAX_CONFIG_DEVICES empty_config
    "[0x5043/0x54a3]\n".toList "target = *\n111 = +caps\n".toList "  # a comment = 1".toList
    (Or.inr ⟨"[0x5043/0x54a3]".toList, rfl⟩) (by decide) (by decide) (by decide)

/-- C13 (counterexample): appending to the source `[general]` a comment line
of 271 bytes, whose bytes after the first 255 read `setleds = /tmp/x`, changes
the loaded configuration: the path becomes `/tmp/x`. -/
theorem long_comment_line_not_ignored :
    is_blank_or_comment long_comment_line = true ∧
    load_config MAX_CONFIG_DEVICES
        (some ("[general]\n".toList ++ (long_comment_line ++ '\n' :: []))) empty_config
      ≠ load_config MAX_CONFIG_DEVICES (some ("[general]\n".toList ++ [])) empty_config ∧
    (load_config MAX_CONFIG_DEVICES
        (some ("[general]\n".toList ++ (long_comment_line ++ '\n' :: [])))
        empty_config).2.setleds_path = "/tmp/x".toList := by
  decide

/-! ## White space around keys and values -/

theorem blank_is_space (c : Char) (h : c = ' ' ∨ c = '\t') :
    isspace c = true ∧ c ≠ '=' ∧ c ≠ NUL ∧ c ≠ '\n' := by
  rcases h with h | h <;> (subst h; decide)

/-- The body of the reading loop on the text of a line `key = value` followed
by its newline: only the trimmed key and the trimmed value count. -/
theorem process_line_key_value_text (M : Nat) (st : load_state)
    (ws0 key ws1 ws2 value ws3 : List Char)
    (hws : ∀ w ∈ [ws0, ws1, ws2, ws3], ∀ c ∈ w, c = ' ' ∨ c = '\t')
    (hkey : ∀ c ∈ key, c ≠ '=' ∧ c ≠ NUL) (hvalue : ∀ c ∈ value, c ≠ NUL)
    (hhdr : (trim key).head? ≠ some '[') :
    process_line M st (key_value_text ws0 key ws1 ws2 value ws3 ++ ['\n'])
      = process_key_value st (trim key) (trim value) := by
  have h0 := fun c hc => blank_is_space c (hws ws0 (by simp) c hc)
  have h1 := fun c hc => blank_is_space c (hws ws1 (by simp) c hc)
  have h2 := fun c hc => blank_is_space c (hws ws2 (by simp) c hc)
  have h3 := fun c hc => blank_is_space c (hws ws3 (by simp) c hc)
  have hline : key_value_text ws0 key ws1 ws2 value ws3 ++ ['\n']
      = (ws0 ++ (key ++ ws1)) ++ '=' :: (ws2 ++ (value ++ (ws3 ++ ['\n']))) := by
    simp [key_value_text]
  have htk : trim (ws0 ++ (key ++ ws1)) = trim key := by
    rw [trim_append_left _ _ (fun c hc => (h0 c hc).1),
      trim_append_right _ _ (fun c hc => (h1 c hc).1)]
  have htv : trim (ws2 ++ (value ++ (ws3 ++ ['\n']))) = trim value := by
    rw [trim_append_left _ _ (fun c hc => (h2 c hc).1), trim_append_right]
    intro c hc
    rcases List.mem_append.mp hc with h | h
    · exact (h3 c h).1
    · simp only [List.mem_singleton] at h
      rw [h]; decide
  rw [hline, process_line_key_value M st _ _ ?_ ?_ (by rw [htk]; exact hhdr), htk, htv]
  · intro c hc
    simp only [List.mem_append] at hc
    rcases hc with h | h | h
    · exact (h0 c h).2.1
    · exact (hkey c h).1
    · exact (h1 c h).2.1
  · intro hn
    simp only [List.mem_append, List.mem_cons, List.mem_singleton, List.not_mem_nil,
      or_false] at hn
    rcases hn with (h | h | h) | h | h | h | h | h
    · exact (h0 _ h).2.2.1 rfl
    · exact (hkey _ h).2 rfl
    · exact (h1 _ h).2.2.1 rfl
    · revert h; decide
    · exact (h2 _ h).2.2.1 rfl
    · exact hvalue _ h rfl
    · exact (h3 _ h).2.2.1 rfl
    · revert h; decide

theorem key_value_text_no_newline (ws0 key ws1 ws2 value ws3 : List Char)
    (hws : ∀ w ∈ [ws0, ws1, ws2, ws3], ∀ c ∈ w, c = ' ' ∨ c = '\t')
    (hkey : ∀ c ∈ key, c ≠ '\n') (hvalue : ∀ c ∈ value, c ≠ '\n') :
    '\n' ∉ key_value_text ws0 key ws1 ws2 value ws3 := by
  intro hn
  simp only [key_value_text, List.mem_append, List.mem_cons] at hn
  rcases hn with ((h | h) | h) | h | (h | h) | h
  · exact (blank_is_space _ (hws ws0 (by simp) _ h)).2.2.2 rfl
  · exact hkey _ h rfl
  · exact (blank_is_space _ (hws ws1 (by simp) _ h)).2.2.2 rfl
  · revert h; decide
  · exact (blank_is_space _ (hws ws2 (by simp) _ h)).2.2.2 rfl
  · exact hvalue _ h rfl
  · exact (blank_is_space _ (hws ws3 (by simp) _ h)).2.2.2 rfl

/-- C14 (as amended): for a line `key = value` that is not a section header,
in any section, the spaces and tabs before the key, between the key and `=`,
between `=` and the value and after the value can be replaced by any others
without changing the result of `load_config`, as long as both forms of the
line are at most 254 bytes long. The line follows a complete line of the
source (or starts it) and ends with its newline. -/
theorem load_config_spacing_insignificant (maxDev : Nat) (c0 : config_t)
    (a b key value ws0 ws1 ws2 ws3 ws0' ws1' ws2' ws3' : List Char)
    (ha : a = [] ∨ ∃ a', a = a' ++ ['\n'])
    (hws : ∀ w ∈ [ws0, ws1, ws2, ws3], ∀ c ∈ w, c = ' ' ∨ c = '\t')
    (hws' : ∀ w ∈ [ws0', ws1', ws2', ws3'], ∀ c ∈ w, c = ' ' ∨ c = '\t')
    (hkey : ∀ c ∈ key, c ≠ '=' ∧ c ≠ NUL ∧ c ≠ '\n')
    (hvalue : ∀ c ∈ value, c ≠ NUL ∧ c ≠ '\n')
    (hhdr : (trim key).head? ≠ some '[')
    (hlen : (key_value_text ws0 key ws1 ws2 value ws3).length ≤ 254)
    (hlen' : (key_value_text ws0' key ws1' ws2' value ws3').length ≤ 254) :
    load_config maxDev (some (a ++ (key_value_text ws0 key ws1 ws2 value ws3 ++ '\n' :: b))) c0
      = load_config maxDev
          (some (a ++ (key_value_text ws0' key ws1' ws2' value ws3' ++ '\n' :: b))) c0 := by
  have hk1 : ∀ c ∈ key, c ≠ '=' ∧ c ≠ NUL := fun c hc => ⟨(hkey c hc).1, (hkey c hc).2.1⟩
  have hk2 : ∀ c ∈ key, c ≠ '\n' := fun c hc => (hkey c hc).2.2
  have hv1 : ∀ c ∈ value, c ≠ NUL := fun c hc => (hvalue c hc).1
  have hv2 : ∀ c ∈ value, c ≠ '\n' := fun c hc => (hvalue c hc).2
  have h1 := read_lines_line (key_value_text ws0 key ws1 ws2 value ws3) b
    (key_value_text_no_newline _ _ _ _ _ _ hws hk2 hv2) hlen
  have h2 := read_lines_line (key_value_text ws0' key ws1' ws2' value ws3') b
    (key_value_text_no_newline _ _ _ _ _ _ hws' hk2 hv2) hlen'
  simp only [load_config, read_lines_append a _ ha, h1, h2, load_loop, List.foldl_append,
    List.foldl_cons,
    process_line_key_value_text maxDev _ ws0 key ws1 ws2 value ws3 hws hk1 hv1 hhdr,
    process_line_key_value_text maxDev _ ws0' key ws1' ws2' value ws3' hws' hk1 hv1 hhdr]

/-- Witness for C14: the line `setleds = /x` of `setleds_source` written as
`<tab>setleds=/x  `. -/
theorem load_config_spacing_insignificant_witness :
    load_config MAX_CONFIG_DEVICES
        (some ("[general]\n".toList ++
          (key_value_text [] "setleds".toList " ".toList " ".toList "/x".toList [] ++
            '\n' :: []))) empty_config
      = load_config MAX_CONFIG_DEVICES
        (some ("[general]\n".toList ++
          (key_value_text "\t".toList "setleds".toList [] [] "/x".toList "  ".toList ++
            '\n' :: []))) empty_config :=
  load_config_spacing_insignificant MAX_CONFIG_DEVICES empty_config
    "[general]\n".toList [] "setleds".toList "/x".toList
    [] " ".toList " ".toList [] "\t".toList [] [] "  ".toList
    (Or.inr ⟨"[general]".toList, rfl⟩) (by decide) (by decide) (by decide) (by decide)
    (by decide) (by decide) (by decide)

/-- C14 (counterexample): with 300 spaces added between the key `setleds` and
the `=`, the line is read in two pieces and the path `/x` is not stored: the
two sources load into different configurations. -/
theorem added_spaces_change_configuration :
    load_config MAX_CONFIG_DEVICES (some setleds_source) empty_config
      ≠ load_config MAX_CONFIG_DEVICES (some setleds_spaced_source) empty_config ∧
    (load_config MAX_CONFIG_DEVICES (some setleds_source) empty_config).2.setleds_path
      = "/x".toList ∧
    (load_config MAX_CONFIG_DEVICES (some setleds_spaced_source) empty_config).2.setleds_path
      = "/usr/local/bin/setleds".toList := by
  decide

/-! ## The path of the LED executable -/

theorem fgets_all_length (cap : Nat) (s acc : List Char) (hacc : acc.length < cap) :
    ∀ b ∈ fgets_all cap s acc, b.length ≤ cap := by
  induction s generalizing acc with
  | nil =>
    intro b hb
    simp only [fgets_all] at hb
    split_ifs at hb
    · simp at hb
    · simp only [List.mem_singleton] at hb
      rw [hb, List.length_reverse]
      omega
  | cons c cs ih =>
    intro b hb
    simp only [fgets_all] at hb
    split_ifs at hb with h
    · rcases List.mem_cons.mp hb with h1 | h1
      · rw [h1, List.length_reverse, List.length_cons]
        omega
      · exact ih [] (by simp; omega) b h1
    · simp only [Bool.or_eq_true, decide_eq_true_eq, not_or] at h
      exact ih (c :: acc) (by simp only [List.length_cons]; omega) b hb

theorem read_lines_length (file : List Char) : ∀ b ∈ read_lines file, b.length ≤ 255 :=
  fgets_all_length 255 file [] (by simp)

theorem rstrip_length_le (s : List Char) : (rstrip s).length ≤ s.length := by
  unfold rstrip
  rw [List.length_reverse]
  have := (List.dropWhile_sublist (l := s.reverse) isspace).length_le
  simpa using this

theorem trim_length_le (s : List Char) : (trim s).length ≤ s.length := by
  rw [trim_eq]
  have h := (List.dropWhile_sublist (l := s) isspace).length_le
  cases hd : List.dropWhile isspace s with
  | nil => simp
  | cons c r =>
    rw [hd] at h
    have := rstrip_length_le r
    simp only [List.length_cons] at h ⊢
    omega

theorem cstr_length_le (s : List Char) : (cstr s).length ≤ s.length :=
  (List.takeWhile_sublist (l := s) _).length_le

theorem split_eq_length (t k v : List Char) (h : split_eq t = some (k, v)) :
    k.length + v.length + 1 = t.length := by
  induction t generalizing k v with
  | nil => simp [split_eq] at h
  | cons c cs ih =>
    simp only [split_eq] at h
    split_ifs at h with hc
    · simp only [Option.some.injEq, Prod.mk.injEq] at h
      rw [← h.1, ← h.2]
      simp
    · cases hs : split_eq cs with
      | none => simp [hs] at h
      | some kv =>
        obtain ⟨k', v'⟩ := kv
        simp only [hs, Option.some.injEq, Prod.mk.injEq] at h
        have := ih k' v' hs
        rw [← h.1, ← h.2]
        simp only [List.length_cons]
        omega

/-- What one buffer does to the flag of the general section and to the path. -/
theorem process_line_setleds (M : Nat) (st : load_state) (line : List Char)
    (hlen : line.length ≤ 255) :
    (process_line M st line).in_general_section
      = (if is_section_line line then is_general_header line else st.in_general_section) ∧
    (process_line M st line).config.setleds_path
      = (if is_section_line line then st.config.setleds_path
         else if st.in_general_section then
           (match setleds_value line with
            | some v => v
            | none => st.config.setleds_path)
         else st.config.setleds_path) := by
  have htl : (trim (cstr line)).length ≤ 255 :=
    le_trans (trim_length_le _) (le_trans (cstr_length_le _) hlen)
  unfold process_line is_section_line is_general_header setleds_value
  cases ht : trim (cstr line) with
  | nil => simp
  | cons c t =>
    rw [ht] at htl
    dsimp only
    by_cases hc : c = '#'
    · subst hc
      simp
    · have hc' : (c == '#') = false := by simpa using hc
      by_cases hb : c = '['
      · subst hb
        simp only [beq_self_eq_true, if_true, hc', Bool.false_eq_true, if_false]
        split_ifs with h1 h2
        · exact ⟨h1.symm, rfl⟩
        · have h1' : strcasecmp_eq ('[' :: t) "[general]".toList = false := by simpa using h1
          exact ⟨h1'.symm, rfl⟩
        · have h1' : strcasecmp_eq ('[' :: t) "[general]".toList = false := by simpa using h1
          cases sscanf_section ('[' :: t) <;> exact ⟨h1'.symm, rfl⟩
      · have hb' : (c == '[') = false := by simpa using hb
        simp only [hc', hb', Bool.false_eq_true, if_false, Bool.or_self]
        by_cases hg : st.in_general_section = true
        · simp only [hg, if_true, true_and]
          unfold general_line
          cases hs : split_eq (c :: t) with
          | none => rfl
          | some kv =>
            obtain ⟨k, v⟩ := kv
            have hl := split_eq_length _ k v hs
            have hv : (trim v).length ≤ MAX_PATH - 1 := by
              have := trim_length_le v
              simp only [MAX_PATH]
              omega
            dsimp only
            split_ifs with h1 h2
            · simp [List.take_of_length_le hv]
            · rfl
            · rfl
        · have hg' : st.in_general_section = false := by simpa using hg
          simp only [hg', Bool.false_eq_true, if_false]
          cases st.current <;> simp [hg']

theorem getLast?_cons_getD {α : Type} (a d : α) (l : List α) :
    ((a :: l).getLast?).getD d = (l.getLast?).getD a := by
  cases l with
  | nil => rfl
  | cons b l =>
    rw [List.getLast?_cons_cons]
    cases h : (b :: l).getLast? with
    | none => simp at h
    | some x => rfl

theorem general_setleds_values_cons (l : List Char) (ls : List (List Char)) (g : Bool) :
    general_setleds_values (l :: ls) g
      = if is_section_line l then general_setleds_values ls (is_general_header l)
        else if g then (setleds_value l).toList ++ general_setleds_values ls g
        else general_setleds_values ls g := by
  rw [general_setleds_values]

theorem load_loop_setleds (M : Nat) (lines : List (List Char)) (st : load_state)
    (hlen : ∀ l ∈ lines, l.length ≤ 255) :
    (load_loop M lines st).config.setleds_path
      = ((general_setleds_values lines st.in_general_section).getLast?).getD
          st.config.setleds_path := by
  induction lines generalizing st with
  | nil => rfl
  | cons l ls ih =>
    obtain ⟨hg, hp⟩ := process_line_setleds M st l (hlen l (List.mem_cons_self _ _))
    have := ih (process_line M st l) (fun x hx => hlen x (List.mem_cons_of_mem _ hx))
    simp only [load_loop, List.foldl] at this ⊢
    rw [this, hg, hp, general_setleds_values_cons]
    by_cases hs : is_section_line l = true
    · simp only [hs, if_true]
    · simp only [hs, Bool.false_eq_true, if_false]
      by_cases hgen : st.in_general_section = true
      · simp only [hgen, if_true]
        cases hv : setleds_value l with
        | none => simp
        | some v =>
          simp only [Option.toList_some, List.singleton_append]
          rw [getLast?_cons_getD]
      · simp only [hgen, Bool.false_eq_true, if_false]

theorem apply_default_path_setleds (c : config_t) :
    (apply_default_path c).setleds_path
      = if c.setleds_path.isEmpty then DEFAULT_SETLEDS_PATH.take (MAX_PATH - 1)
        else c.setleds_path := by
  unfold apply_default_path
  split_ifs <;> rfl

/-- C15 (as amended): every source that is opened loads successfully, and
`setleds_path` is the trimmed value of the last `setleds` line that stands in
a general section when there is such a line and that value is not empty;
it is the default path when there is no such line or when the last one has an
empty value (in particular when none has a non-empty value). -/
theorem load_config_setleds_path (maxDev : Nat) (c0 : config_t) (src : List Char) :
    (load_config maxDev (some src) c0).1 = true ∧
    (load_config maxDev (some src) c0).2.setleds_path
      = (match (general_setleds_values (read_lines src) false).getLast? with
         | none => DEFAULT_SETLEDS_PATH
         | some v => if v.isEmpty then DEFAULT_SETLEDS_PATH else v) ∧
    ((∀ v ∈ general_setleds_values (read_lines src) false, v = []) →
      (load_config maxDev (some src) c0).2.setleds_path = DEFAULT_SETLEDS_PATH) := by
  have hloop := load_loop_setleds maxDev (read_lines src) (initial_state c0)
    (read_lines_length src)
  have h0 : (initial_state c0).in_general_section = false := rfl
  have h1 : (initial_state c0).config.setleds_path = [] := rfl
  have hdef : DEFAULT_SETLEDS_PATH.take (MAX_PATH - 1) = DEFAULT_SETLEDS_PATH := by decide
  rw [h0, h1] at hloop
  have hmain : (load_config maxDev (some src) c0).2.setleds_path
      = (match (general_setleds_values (read_lines src) false).getLast? with
         | none => DEFAULT_SETLEDS_PATH
         | some v => if v.isEmpty then DEFAULT_SETLEDS_PATH else v) := by
    simp only [load_config, apply_default_path_setleds, hloop, hdef]
    cases (general_setleds_values (read_lines src) false).getLast? with
    | none => simp
    | some v => simp
  refine ⟨rfl, hmain, ?_⟩
  intro hall
  rw [hmain]
  cases hl : (general_setleds_values (read_lines src) false).getLast? with
  | none => rfl
  | some v =>
    have hv := hall v (List.mem_of_mem_getLast? hl)
    simp [hv]

/-- Witness for C15: the source of `test_load_config_sections` sets the path
`/custom/path/setleds`. -/
theorem load_config_setleds_path_witness :
    (load_config MAX_CONFIG_DEVICES (some sections_source) empty_config).2.setleds_path
      = "/custom/path/setleds".toList :=
  (load_config_setleds_path MAX_CONFIG_DEVICES empty_config sections_source).2.1.trans
    (by decide)

/-- C15 (counterexample): after `setleds = /a`, a `setleds` line with an empty
value resets the path, and the load ends with the default path, not with the
value `/a` of the last `setleds` line that has a non-empty value. -/
theorem empty_setleds_line_resets_path :
    general_setleds_values (read_lines emptied_setleds_source) false = ["/a".toList, []] ∧
    (load_config MAX_CONFIG_DEVICES (some emptied_setleds_source) empty_config).2.setleds_path
      = "/usr/local/bin/setleds".toList ∧
    (load_config MAX_CONFIG_DEVICES (some emptied_setleds_source) empty_config).2.setleds_path
      ≠ "/a".toList := by
  decide

/-! ## Section headers -/

theorem scan_digits_append (base : Nat) (D : List Char) (z : Char) (r : List Char) (acc : Nat)
    (hD : ∀ c ∈ D, (digit_value base c).isSome = true) (hz : digit_value base z = none) :
    scan_digits base (D ++ z :: r) acc
      = (D.foldl (fun a c => a * base + (digit_value base c).getD 0) acc, z :: r) := by
  induction D generalizing acc with
  | nil => simp [scan_digits, hz]
  | cons c cs ih =>
    obtain ⟨d, hd⟩ := Option.isSome_iff_exists.mp (hD c (List.mem_cons_self _ _))
    simp only [List.cons_append, scan_digits, hd, List.foldl_cons, Option.getD_some,
      List.append_eq]
    exact ih _ (fun x hx => hD x (List.mem_cons_of_mem _ hx))

/-- A section number is a non-empty string of hexadecimal digits, possibly
after `0x` or `0X`. -/
theorem section_number_digits (V : List Char) (hV : is_section_number V = true) :
    ∃ D, D ≠ [] ∧ (∀ c ∈ D, (digit_value 16 c).isSome = true) ∧
      section_number_value V = digits_value 16 D ∧
      (V = D ∨ ∃ x, (x = 'x' ∨ x = 'X') ∧ V = '0' :: x :: D) := by
  unfold is_section_number at hV
  rcases Bool.or_eq_true _ _ |>.mp hV with hh | hp
  · unfold is_hex_literal at hh
    simp only [Bool.and_eq_true, List.all_eq_true, Bool.not_eq_true', List.isEmpty_eq_false] at hh
    obtain ⟨⟨hm, hne⟩, hall⟩ := hh
    match V, hm, hne, hall with
    | a :: b :: D, hm, hne, hall =>
      simp only [has_hex_marker, Bool.and_eq_true, beq_iff_eq, Bool.or_eq_true] at hm
      simp only [List.drop_succ_cons, List.drop_zero] at hne hall
      refine ⟨D, ?_, hall, ?_, Or.inr ⟨b, hm.2, by rw [hm.1]⟩⟩
      · intro h0; rw [h0] at hne; simp at hne
      · unfold section_number_value
        simp [has_hex_marker, hm.1, hm.2]
  · simp only [Bool.and_eq_true, List.all_eq_true, Bool.not_eq_true', List.isEmpty_eq_false] at hp
    refine ⟨V, ?_, hp.2, ?_, Or.inl rfl⟩
    · intro h0
      have := hp.1
      rw [h0] at this
      simp at this
    · unfold section_number_value
      rw [has_hex_marker_digits 16 V hp.2]
      rfl

theorem hex_digit_props (c : Char) (h : (digit_value 16 c).isSome = true) :
    isspace c = false ∧ c ≠ NUL ∧ c ≠ '-' ∧ c ≠ '+' ∧ c ≠ 'x' ∧ c ≠ 'X' ∧ c ≠ '/' :=
  ⟨digit_not_space 16 c h, digit_ne 16 c NUL h (by decide), digit_ne 16 c '-' h (by decide),
    digit_ne 16 c '+' h (by decide), digit_ne 16 c 'x' h (by decide),
    digit_ne 16 c 'X' h (by decide), digit_ne 16 c '/' h (by decide)⟩

theorem section_number_chars (V : List Char) (hV : is_section_number V = true) :
    ∀ c ∈ V, isspace c = false ∧ c ≠ NUL := by
  obtain ⟨D, _, hD, _, hform⟩ := section_number_digits V hV
  intro c hc
  rcases hform with h | ⟨x, hx, h⟩
  · rw [h] at hc
    exact ⟨(hex_digit_props c (hD c hc)).1, (hex_digit_props c (hD c hc)).2.1⟩
  · rw [h] at hc
    simp only [List.mem_cons] at hc
    rcases hc with h1 | h1 | h1
    · rw [h1]; decide
    · rcases hx with h2 | h2 <;> (rw [h1, h2]; decide)
    · exact ⟨(hex_digit_props c (hD c h1)).1, (hex_digit_props c (hD c h1)).2.1⟩

/-- One `%x` conversion reads a section number of value at most 0xFFFF that is
followed by a byte other than a hexadecimal digit and `x`. -/
theorem scan_hex_section_number (V : List Char) (z : Char) (r : List Char)
    (hV : is_section_number V = true) (hval : section_number_value V ≤ 0xFFFF)
    (hz : digit_value 16 z = none) (hzx : z ≠ 'x' ∧ z ≠ 'X') :
    scan_hex (V ++ z :: r) = some (section_number_value V, z :: r) := by
  obtain ⟨D, hne, hD, hvalue, hform⟩ := section_number_digits V hV
  obtain ⟨d0, D', rfl⟩ := List.exists_cons_of_ne_nil hne
  have hd0 := hex_digit_props d0 (hD d0 (List.mem_cons_self _ _))
  have hscan := scan_digits_append 16 (d0 :: D') z r 0 hD hz
  have hfold : List.foldl (fun a c => a * 16 + (digit_value 16 c).getD 0) 0 (d0 :: D')
      = section_number_value V := by
    rw [hvalue]; rfl
  rw [hfold] at hscan
  have hsmall : ¬ (section_number_value V ≥ 2 ^ 64) := by omega
  have hmod : section_number_value V % 2 ^ 32 = section_number_value V := by
    apply Nat.mod_eq_of_lt; omega
  rcases hform with h | ⟨x, hx, h⟩
  · subst h
    have hmark : has_hex_marker (d0 :: D' ++ z :: r) = false := by
      cases D' with
      | nil => simp [has_hex_marker, hzx.1, hzx.2]
      | cons b D'' =>
        have hb := hex_digit_props b (hD b (by simp))
        simp [has_hex_marker, hb.2.2.2.2.1, hb.2.2.2.2.2.1]
    unfold scan_hex
    have hdrop : (d0 :: D' ++ z :: r).dropWhile isspace = d0 :: D' ++ z :: r := by
      simp [List.dropWhile, hd0.1]
    have hsign : scan_sign (d0 :: D' ++ z :: r) = (false, d0 :: D' ++ z :: r) := by
      simp [scan_sign, hd0.2.2.1, hd0.2.2.2.1]
    simp only [hdrop, hsign, hmark, Bool.false_eq_true, if_false]
    simp only [List.cons_append, hD d0 (List.mem_cons_self _ _), if_true]
    rw [← List.cons_append, hscan]
    simp only [ge_iff_le, Bool.false_eq_true, if_false, Option.some.injEq, Prod.mk.injEq,
      and_true]
    norm_num
    rw [if_neg (by omega)]
    omega
  · subst h
    have hx0 : isspace '0' = false ∧ '0' ≠ '-' ∧ '0' ≠ '+' := by decide
    have hmark : has_hex_marker ('0' :: x :: (d0 :: D') ++ z :: r) = true := by
      rcases hx with h2 | h2 <;> (subst h2; simp [has_hex_marker])
    unfold scan_hex
    have hdrop : ('0' :: x :: (d0 :: D') ++ z :: r).dropWhile isspace
        = '0' :: x :: (d0 :: D') ++ z :: r := by
      simp [List.dropWhile, hx0.1]
    have hsign : scan_sign ('0' :: x :: (d0 :: D') ++ z :: r)
        = (false, '0' :: x :: (d0 :: D') ++ z :: r) := by
      simp [scan_sign]
    simp only [hdrop, hsign, hmark, if_true]
    simp only [List.cons_append, List.drop_succ_cons, List.drop_zero,
      hD d0 (List.mem_cons_self _ _), if_true]
    rw [← List.cons_append, hscan]
    simp only [ge_iff_le, Bool.false_eq_true, if_false, Option.some.injEq, Prod.mk.injEq,
      and_true]
    norm_num
    rw [if_neg (by omega)]
    omega

/-- The call of `sscanf` on the text of a well-formed device header. -/
theorem sscanf_section_header_text (V P : List Char)
    (hV : is_section_number V = true) (hP : is_section_number P = true)
    (hv : section_number_value V ≤ 0xFFFF) (hp : section_number_value P ≤ 0xFFFF) :
    sscanf_section (device_header_text V P)
      = some (section_number_value V, section_number_value P) := by
  unfold sscanf_section device_header_text
  simp only [beq_self_eq_true, if_true]
  rw [scan_hex_section_number V '/' _ hV hv (by decide) (by decide)]
  simp only [beq_self_eq_true, if_true]
  rw [scan_hex_section_number P ']' [] hP hp (by decide) (by decide)]

theorem toLower_bracket (c : Char) (h : c.toLower = '[') : c = '[' := by
  by_cases hu : 65 ≤ c.toNat ∧ c.toNat ≤ 90
  · exfalso
    unfold Char.toLower at h
    simp only [ge_iff_le] at h
    rw [if_pos hu] at h
    obtain ⟨h1, h2⟩ := hu
    generalize c.toNat = n at h h1 h2
    interval_cases n <;> revert h <;> decide
  · rw [toLower_of_not_upper c hu] at h
    exact h

theorem general_header_chars (g : List Char) (hg : g.map Char.toLower = "[general]".toList) :
    ∀ c ∈ g, isspace c = false ∧ c ≠ NUL := by
  intro c hc
  have hmem : c.toLower ∈ "[general]".toList := by
    rw [← hg]
    exact List.mem_map_of_mem _ hc
  by_cases hu : 65 ≤ c.toNat ∧ c.toNat ≤ 90
  · constructor
    · unfold isspace
      simp only [Bool.or_eq_false_iff, beq_eq_false_iff_ne, ne_eq, Bool.and_eq_false_iff,
        decide_eq_false_iff_not]
      omega
    · intro h
      subst h
      revert hu
      decide
  · rw [toLower_of_not_upper c hu] at hmem
    have : ∀ x ∈ "[general]".toList, isspace x = false ∧ x ≠ NUL := by decide
    exact this c hmem

theorem strcasecmp_general_slash (s : List Char) (h : '/' ∈ s) :
    strcasecmp_eq s "[general]".toList = false := by
  by_contra hn
  have heq : strcasecmp_eq s "[general]".toList = true := by simpa using hn
  unfold strcasecmp_eq at heq
  have hmap : s.map Char.toLower = "[general]".toList.map Char.toLower := by simpa using heq
  have hmem : '/'.toLower ∈ s.map Char.toLower := List.mem_map_of_mem _ h
  rw [hmap] at hmem
  revert hmem
  decide

theorem header_text_trimmed (V P eol : List Char)
    (hV : is_section_number V = true) (hP : is_section_number P = true)
    (heol : ∀ c ∈ eol, isspace c = true) :
    trim (cstr (device_header_text V P ++ eol)) = device_header_text V P := by
  have hchars : ∀ c ∈ device_header_text V P, isspace c = false ∧ c ≠ NUL := by
    intro c hc
    simp only [device_header_text, List.mem_cons, List.mem_append, List.mem_singleton,
      List.not_mem_nil, or_false] at hc
    rcases hc with h | h | h | h | h
    · rw [h]; decide
    · exact section_number_chars V hV c h
    · rw [h]; decide
    · exact section_number_chars P hP c h
    · rw [h]; decide
  have hnul : NUL ∉ device_header_text V P ++ eol := by
    intro h
    rcases List.mem_append.mp h with h1 | h1
    · exact (hchars _ h1).2 rfl
    · exact isspace_ne_NUL _ (heol _ h1) rfl
  rw [cstr_eq_self _ hnul]
  have := trim_no_space [] (device_header_text V P) eol (by simp)
    (fun c hc => (hchars c hc).1) heol
  simpa using this

/-- A well-formed device header opens the section of its two numbers. -/
theorem device_header_of_text (V P eol : List Char)
    (hV : is_section_number V = true) (hP : is_section_number P = true)
    (hv : section_number_value V ≤ 0xFFFF) (hp : section_number_value P ≤ 0xFFFF)
    (heol : ∀ c ∈ eol, isspace c = true) :
    device_header (device_header_text V P ++ eol)
      = some (section_number_value V, section_number_value P) := by
  have ht := header_text_trimmed V P eol hV hP heol
  have hg : strcasecmp_eq (device_header_text V P) "[general]".toList = false :=
    strcasecmp_general_slash _ (by simp [device_header_text])
  have hs : is_section_line (device_header_text V P ++ eol) = true := by
    unfold is_section_line
    rw [ht]
    rfl
  unfold device_header
  rw [hs, ht, hg, sscanf_section_header_text V P hV hP hv hp]
  simp only [Bool.not_false, Bool.and_self, if_true]
  rw [Nat.mod_eq_of_lt (by omega), Nat.mod_eq_of_lt (by omega)]

/-- C16 (as amended): a line that reads `[general]` in any letter case opens
the general section. While the device ceiling is not reached, a line `[V/P]`
whose two numbers are hexadecimal in any letter case, with or without `0x`,
and at most 0xFFFF opens a new profile with vendor V, product P, an empty
target and no bindings; and a line that starts with `[`, is not `[general]`
and on which the scan of the two numbers fails opens no profile and makes
the loader ignore every following line that is not a section header. -/
theorem process_line_section_headers (M : Nat) (st : load_state) :
    (∀ g eol : List Char, g.map Char.toLower = "[general]".toList →
      (∀ c ∈ eol, isspace c = true) →
      process_line M st (g ++ eol) = { st with in_general_section := true, current := none }) ∧
    (∀ V P eol : List Char, is_section_number V = true → is_section_number P = true →
      section_number_value V ≤ 0xFFFF → section_number_value P ≤ 0xFFFF →
      (∀ c ∈ eol, isspace c = true) → st.config.devices.length < M →
      process_line M st (device_header_text V P ++ eol)
        = { config := { st.config with devices := st.config.devices ++
              [new_profile (section_number_value V) (section_number_value P)] },
            current := some st.config.devices.length,
            in_general_section := false }) ∧
    (∀ line : List Char, is_section_line line = true → is_general_header line = false →
      device_header line = none → st.config.devices.length < M →
      process_line M st line = { st with in_general_section := false, current := none } ∧
      ∀ l, is_section_line l = false →
        process_line M { st with in_general_section := false, current := none } l
          = { st with in_general_section := false, current := none }) := by
  refine ⟨?_, ?_, ?_⟩
  · intro g eol hg heol
    have hchars := general_header_chars g hg
    have hnul : NUL ∉ g ++ eol := by
      intro h
      rcases List.mem_append.mp h with h1 | h1
      · exact (hchars _ h1).2 rfl
      · exact isspace_ne_NUL _ (heol _ h1) rfl
    have ht : trim (cstr (g ++ eol)) = g := by
      rw [cstr_eq_self _ hnul]
      have := trim_no_space [] g eol (by simp) (fun c hc => (hchars c hc).1) heol
      simpa using this
    have hcmp : strcasecmp_eq g "[general]".toList = true := by
      unfold strcasecmp_eq
      rw [hg]
      decide
    match g, hg, ht, hcmp with
    | c :: t, hg, ht, hcmp =>
      have hc : c = '[' := by
        apply toLower_bracket
        have := congrArg List.head? hg
        simpa using this
      subst hc
      unfold process_line
      rw [ht]
      dsimp only
      rw [if_neg (by decide), if_pos (by decide), if_pos hcmp]
  · intro V P eol hV hP hv hp heol hroom
    exact process_line_open M st _ _ _ (device_header_of_text V P eol hV hP hv hp heol) hroom
  · intro line hs hg hd hroom
    have hfirst : process_line M st line
        = { st with in_general_section := false, current := none } := by
      unfold is_section_line at hs
      unfold is_general_header at hg
      unfold device_header is_section_line at hd
      unfold process_line
      cases ht : trim (cstr line) with
      | nil => rw [ht] at hs; simp at hs
      | cons c t =>
        rw [ht] at hs hg hd
        dsimp only at hs hd ⊢
        have hc : c = '[' := by simpa using hs
        subst hc
        have hfull : ¬ st.config.devices.length ≥ M := by omega
        rw [if_neg (by decide), if_pos (by decide), if_neg (by rw [hg]; decide), if_neg hfull]
        cases hsc : sscanf_section ('[' :: t) with
        | none => rfl
        | some ids =>
          rw [hsc, hg] at hd
          simp at hd
    refine ⟨hfirst, ?_⟩
    intro l hl
    unfold is_section_line at hl
    unfold process_line
    cases ht : trim (cstr l) with
    | nil => rfl
    | cons c t =>
      rw [ht] at hl
      dsimp only at hl ⊢
      rw [hl]
      split_ifs <;> first | rfl | contradiction

/-- Witness for C16: `[GeNeRaL]`, the headers `[5043/54A3]` and
`[0x5043/0x54a3]`, which open the same profile, and the header `[foo]`. -/
theorem process_line_section_headers_witness :
    process_line MAX_CONFIG_DEVICES (initial_state empty_config) ("[GeNeRaL]".toList ++ ['\n'])
      = { initial_state empty_config with in_general_section := true, current := none } ∧
    process_line MAX_CONFIG_DEVICES (initial_state empty_config)
        (device_header_text "5043".toList "54A3".toList ++ ['\n'])
      = process_line MAX_CONFIG_DEVICES (initial_state empty_config)
        (device_header_text "0x5043".toList "0x54a3".toList ++ ['\n']) ∧
    process_line MAX_CONFIG_DEVICES (initial_state empty_config) "[foo]\n".toList
      = { initial_state empty_config with in_general_section := false, current := none } :=
  ⟨(process_line_section_headers MAX_CONFIG_DEVICES (initial_state empty_config)).1
      "[GeNeRaL]".toList ['\n'] (by decide) (by decide),
   ((process_line_section_headers MAX_CONFIG_DEVICES (initial_state empty_config)).2.1
      "5043".toList "54A3".toList ['\n'] (by decide) (by decide) (by decide) (by decide)
      (by decide) (by decide)).trans
    ((process_line_section_headers MAX_CONFIG_DEVICES (initial_state empty_config)).2.1
      "0x5043".toList "0x54a3".toList ['\n'] (by decide) (by decide) (by decide) (by decide)
      (by decide) (by decide)).symm,
   ((process_line_section_headers MAX_CONFIG_DEVICES (initial_state empty_config)).2.2
      "[foo]\n".toList (by decide) (by decide) (by decide) (by decide)).1⟩

/-- C16 (counterexample): the line `[1/2`, which is not of the form `[V/P]`,
opens the profile 1/2 and the binding line after it is stored; and the
eleventh well-formed header of `eleven_sections_source` opens no profile. -/
theorem other_bracket_line_opens_profile :
    (load_config MAX_CONFIG_DEVICES (some open_bracket_source) empty_config).2.devices
      = [{ vendor := 1, product := 2, target := [],
           bindings := [{ keycode := 3, led := "caps".toList, mode := '+' }] }] ∧
    (load_config MAX_CONFIG_DEVICES (some eleven_sections_source)
      empty_config).2.device_count = 10 ∧
    (load_config MAX_CONFIG_DEVICES (some eleven_sections_source) empty_config).2.devices.all
      (fun d => d.ids != (11, 11)) = true := by
  decide

/-! ## Failure of `load_config` and the reload -/

theorem load_config_env_fst (maxDev : Nat) (env : environment) (filename : Option (List Char))
    (config : config_t) :
    (load_config_env maxDev env filename config).1 = (open_config env filename).isSome := by
  unfold load_config_env load_config
  cases open_config env filename <;> rfl

theorem load_config_env_unopened (maxDev : Nat) (env : environment)
    (filename : Option (List Char)) (config : config_t)
    (h : (load_config_env maxDev env filename config).1 = false) :
    (load_config_env maxDev env filename config).2 = config := by
  unfold load_config_env load_config at h ⊢
  cases ho : open_config env filename with
  | none => rfl
  | some bytes => rw [ho] at h; cases h

/-- C17: `load_config` returns false exactly when no path is found or the
file at the path cannot be opened; once the file is opened it returns true,
whatever the bytes of the file. -/
theorem load_config_fails_iff_unopened (maxDev : Nat) (env : environment)
    (filename : Option (List Char)) (config : config_t) :
    ((load_config_env maxDev env filename config).1 = false ↔
      (resolve_config_path env filename = none ∨
        ∃ p, resolve_config_path env filename = some p ∧ env.fopen p = none)) ∧
    (∀ p bytes, resolve_config_path env filename = some p → env.fopen p = some bytes →
      (load_config_env maxDev env filename config).1 = true) ∧
    (∀ bytes : List Char, (load_config maxDev (some bytes) config).1 = true) := by
  refine ⟨?_, ?_, fun _ => rfl⟩
  · rw [load_config_env_fst]
    unfold open_config
    cases hr : resolve_config_path env filename with
    | none => simp
    | some p =>
      cases hf : env.fopen p with
      | none => simp [hf]
      | some bytes => simp [hf]
  · intro p bytes hp hb
    rw [load_config_env_fst]
    unfold open_config
    simp only [hp, hb]
    rfl

/-- Witness for C17: in `home_env` the file found through `$HOME` loads, and
the file name `nonexistent.ini` of `test_load_config_basic` does not. -/
theorem load_config_fails_iff_unopened_witness :
    (load_config_env MAX_CONFIG_DEVICES home_env none empty_config).1 = true ∧
    (load_config_env MAX_CONFIG_DEVICES home_env (some "nonexistent.ini".toList)
      empty_config).1 = false :=
  ⟨(load_config_fails_iff_unopened MAX_CONFIG_DEVICES home_env none empty_config).2.1
      "/home/u/.config/belvedere/config".toList basic_source (by decide) (by decide),
   (load_config_fails_iff_unopened MAX_CONFIG_DEVICES home_env
      (some "nonexistent.ini".toList) empty_config).1.mpr
      (Or.inr ⟨"nonexistent.ini".toList, by decide, by decide⟩)⟩

/-- C18: when `load_config` returns false, `*config` is what it was before
the call. -/
theorem load_config_failure_keeps_config (maxDev : Nat) (env : environment)
    (filename : Option (List Char)) (config : config_t)
    (h : (load_config_env maxDev env filename config).1 = false) :
    (load_config_env maxDev env filename config).2 = config :=
  load_config_env_unopened maxDev env filename config h

/-- Witness for C18: the failing call of `test_load_config_basic`, on a
configuration that holds a profile. -/
theorem load_config_failure_keeps_config_witness :
    (load_config_env MAX_CONFIG_DEVICES home_env (some "nonexistent.ini".toList)
      test_config).2 = test_config :=
  load_config_failure_keeps_config MAX_CONFIG_DEVICES home_env
    (some "nonexistent.ini".toList) test_config (by decide)

/-- C19: a reload during which `load_config` fails returns false and leaves
the global configuration and the open handles as they were. -/
theorem reload_configuration_load_failure (maxDev : Nat) (env : environment)
    (config_path : List Char) (hid : hid_api) (s : daemon_state)
    (h : (load_config_env maxDev env (some config_path) s.config).1 = false) :
    reload_configuration maxDev env config_path hid s = (false, s) := by
  unfold reload_configuration
  simp only [h, Bool.not_false, if_true,
    load_config_env_unopened maxDev env (some config_path) s.config h]

/-- Witness for C19: a reload of `running_state` from a path that cannot be
opened. -/
theorem reload_configuration_load_failure_witness :
    reload_configuration MAX_CONFIG_DEVICES home_env "/nowhere/config".toList no_devices
      running_state = (false, running_state) :=
  reload_configuration_load_failure MAX_CONFIG_DEVICES home_env "/nowhere/config".toList
    no_devices running_state (by decide)

/-- C20 (as amended): a reload whose source is opened but loads into a
configuration with no monitored keycode or no device returns false and leaves
the open handles as they were, while the global configuration is the newly
loaded one. -/
theorem reload_configuration_sanity_failure (maxDev : Nat) (env : environment)
    (config_path bytes : List Char) (hid : hid_api) (s : daemon_state)
    (hopen : env.fopen config_path = some bytes)
    (hbad : (load_config maxDev (some bytes) s.config).2.monitored_keycodes_count < 1 ∨
      (load_config maxDev (some bytes) s.config).2.device_count < 1) :
    reload_configuration maxDev env config_path hid s
      = (false, { config := (load_config maxDev (some bytes) s.config).2,
                  devices := s.devices }) := by
  have hload : load_config_env maxDev env (some config_path) s.config
      = load_config maxDev (some bytes) s.config := by
    unfold load_config_env open_config resolve_config_path
    simp only [hopen]
  unfold reload_configuration
  rw [hload]
  have h1 : (load_config maxDev (some bytes) s.config).1 = true := rfl
  simp only [h1, Bool.not_true, Bool.false_eq_true, if_false]
  rcases hbad with hb | hb
  · simp only [hb, if_true]
  · split_ifs <;> rfl

/-- Witness for C20: a reload of `running_state` from a file that holds only
`[general]`. -/
theorem reload_configuration_sanity_failure_witness :
    reload_configuration MAX_CONFIG_DEVICES bare_env "/home/u/.config/belvedere/config".toList
        no_devices running_state
      = (false, { config := (load_config MAX_CONFIG_DEVICES (some "[general]\n".toList)
                    running_state.config).2,
                  devices := running_state.devices }) :=
  reload_configuration_sanity_failure MAX_CONFIG_DEVICES bare_env
    "/home/u/.config/belvedere/config".toList "[general]\n".toList no_devices running_state
    (by decide) (by decide)

/-- C20 (counterexample): after the reload of `running_state` from a file that
holds only `[general]` is rejected, the global configuration is no longer the
one held before: it has no device and no monitored keycode. -/
theorem rejected_reload_replaces_configuration :
    (reload_configuration MAX_CONFIG_DEVICES bare_env
      "/home/u/.config/belvedere/config".toList no_devices running_state).1 = false ∧
    (reload_configuration MAX_CONFIG_DEVICES bare_env
      "/home/u/.config/belvedere/config".toList no_devices running_state).2.config
      ≠ running_state.config ∧
    (reload_configuration MAX_CONFIG_DEVICES bare_env
      "/home/u/.config/belvedere/config".toList no_devices running_state).2.config
      = { setleds_path := DEFAULT_SETLEDS_PATH, devices := [], monitored_keycodes := [] } ∧
    (reload_configuration MAX_CONFIG_DEVICES bare_env
      "/home/u/.config/belvedere/config".toList no_devices running_state).2.devices
      = running_state.devices := by
  decide

/-! ## Startup, control channel and file watch -/

/-- The arguments loop of `main` returns 1 when it returns at all, if the
configuration file of the home directory cannot be opened. -/
theorem main_arguments_unopened (maxDev : Nat) (env : environment) (hid : hid_api)
    (h : ∀ home, env.home = some home → env.fopen (home_config_path home) = none)
    (args : List (List Char)) :
    main_arguments maxDev env hid args = none ∨ main_arguments maxDev env hid args = some 1 := by
  induction args with
  | nil => left; rfl
  | cons arg rest ih =>
    unfold main_arguments
    split_ifs with h1 h2
    · exact ih
    · cases hh : env.home with
      | none => right; rfl
      | some home =>
        right
        have hr : (reload_configuration maxDev env (home_config_path home) hid
            { config := empty_config, devices := [] }).1 = false := by
          simp [reload_configuration, load_config_env, open_config, resolve_config_path,
            h home hh, load_config]
        simp [hr]
    · exact ih

/-- When the configuration file of the home directory cannot be opened,
`main` returns 1. -/
theorem main_unopened (maxDev : Nat) (env : environment) (hid : hid_api) (hid_init : Bool)
    (argv : List (List Char))
    (h : ∀ home, env.home = some home → env.fopen (home_config_path home) = none) :
    main maxDev env hid hid_init argv = .returned 1 := by
  unfold main
  rcases main_arguments_unopened maxDev env hid h (argv.drop 1) with ha | ha
  · rw [ha]
    cases hh : env.home with
    | none => rfl
    | some home =>
      simp [load_config_env, open_config, resolve_config_path, h home hh, load_config]
  · rw [ha]

/-- C21 (defect): with a configuration file that loads but has no monitored
keycode and no device (`[general]` alone), and with one that has a monitored
keycode but no device, `main` started without arguments returns 0 through
`return false;`, although the claim asks for a non-zero status; the same first
file makes `main --reload` return 1. -/
theorem main_returns_zero_on_insufficient_config :
    main MAX_CONFIG_DEVICES bare_env no_devices true ["belvedere".toList] = .returned 0 ∧
    main MAX_CONFIG_DEVICES keycodes_only_env no_devices true ["belvedere".toList]
      = .returned 0 ∧
    main MAX_CONFIG_DEVICES bare_env no_devices true
      ["belvedere".toList, "--reload".toList] = .returned 1 := by
  decide

/-- For every command and every response buffer with room, `ipc_process_command`
returns 0 and leaves `OK` in the buffer. -/
theorem ipc_process_command_ok (command : List Char) (response_size : Nat)
    (h : 3 ≤ response_size) :
    ipc_process_command (some command) response_size = (0, some "OK".toList) := by
  unfold ipc_process_command
  have h0 : response_size ≠ 0 := by omega
  simp only [h0, if_false]
  have : "OK".toList.take (response_size - 1) = "OK".toList := by
    apply List.take_of_length_le
    simp
    omega
  rw [this]

/-- C23 (defect): the command `unknown_command` of the test
`test_ipc_process_command_unknown` makes `ipc_process_command` return 0 with
the response `OK`, and `on_read` answers the client with the two lines `OK`
and `OK`, although the claim asks for `ERROR` and a message about an unknown
command. -/
theorem ipc_unknown_command_is_answered_ok :
    ipc_process_command (some "unknown_command".toList) 512 = (0, some "OK".toList) ∧
    on_read 15 "unknown_command".toList = some "OK\nOK\n".toList := by
  decide

/-- C27: `on_config_change` calls `reload_configuration` exactly when the
status is not negative and the observed modification time is greater than the
recorded one; an observation whose time is equal or smaller leaves the whole
state as it was and calls nothing; and after an observation that triggers the
reload, the recorded time is the observed one and the rest of the state is
what `reload_configuration` left. -/
theorem on_config_change_gate (maxDev : Nat) (env : environment) (config_path : List Char)
    (hid : hid_api) (status curr_mtime : Int) (w : watch_state) :
    ((on_config_change maxDev env config_path hid status curr_mtime w).1 = true
      ↔ ¬ status < 0 ∧ w.last_config_mtime < curr_mtime) ∧
    (curr_mtime ≤ w.last_config_mtime →
      on_config_change maxDev env config_path hid status curr_mtime w = (false, w)) ∧
    ((on_config_change maxDev env config_path hid status curr_mtime w).1 = true →
      (on_config_change maxDev env config_path hid status curr_mtime w).2
        = { last_config_mtime := curr_mtime,
            daemon := (reload_configuration maxDev env config_path hid w.daemon).2 }) := by
  unfold on_config_change
  refine ⟨?_, ?_, ?_⟩
  · split_ifs with h1 h2
    · simp [h1]
    · simp only [true_iff]
      exact ⟨h1, h2⟩
    · simp only [Bool.false_eq_true, false_iff, not_and]
      intro _
      exact h2
  · intro hle
    have h2 : ¬ curr_mtime > w.last_config_mtime := by omega
    split_ifs
    · rfl
    · rfl
  · split_ifs with h1 h2
    · intro h; cases h
    · intro _; rfl
    · intro h; cases h

/-- C27 at work: with the recorded time 5, the observations 5 and 4 leave the
state untouched, and the observation 6 records 6 and reloads. -/
theorem on_config_change_gate_witness :
    on_config_change MAX_CONFIG_DEVICES home_env "/home/u/.config/belvedere/config".toList
      no_devices 0 5 { last_config_mtime := 5, daemon := running_state }
      = (false, { last_config_mtime := 5, daemon := running_state }) ∧
    on_config_change MAX_CONFIG_DEVICES home_env "/home/u/.config/belvedere/config".toList
      no_devices 0 4 { last_config_mtime := 5, daemon := running_state }
      = (false, { last_config_mtime := 5, daemon := running_state }) ∧
    (on_config_change MAX_CONFIG_DEVICES home_env "/home/u/.config/belvedere/config".toList
      no_devices 0 6 { last_config_mtime := 5, daemon := running_state }).1 = true ∧
    (on_config_change MAX_CONFIG_DEVICES home_env "/home/u/.config/belvedere/config".toList
      no_devices 0 6 { last_config_mtime := 5, daemon := running_state }).2.last_config_mtime
      = 6 :=
  ⟨(on_config_change_gate MAX_CONFIG_DEVICES home_env
      "/home/u/.config/belvedere/config".toList no_devices 0 5
      { last_config_mtime := 5, daemon := running_state }).2.1 (by decide),
   (on_config_change_gate MAX_CONFIG_DEVICES home_env
      "/home/u/.config/belvedere/config".toList no_devices 0 4
      { last_config_mtime := 5, daemon := running_state }).2.1 (by decide),
   ((on_config_change_gate MAX_CONFIG_DEVICES home_env
      "/home/u/.config/belvedere/config".toList no_devices 0 6
      { last_config_mtime := 5, daemon := running_state }).1).2 ⟨by decide, by decide⟩,
   by decide⟩

/-! ## Event dispatch -/

/-- The narrowing of line 50 of device_utils.c keeps the sum modulo 2^16. -/
theorem qmk_keycode_eq (u : Nat) : qmk_keycode u = (0x7700 + u) % 2 ^ 16 := by
  unfold qmk_keycode
  omega

/-- The test of line 53 of device_utils.c in terms of the usage. -/
theorem is_qmk_custom_keycode_iff (u : Nat) :
    is_qmk_custom_keycode u = true ↔ u % 2 ^ 16 < 0x100 := by
  unfold is_qmk_custom_keycode
  rw [qmk_keycode_eq]
  simp only [ge_iff_le, Bool.and_eq_true, decide_eq_true_eq]
  omega

/-- The loop over the monitored keycodes finds a usage exactly when the list
holds it. -/
theorem in_monitored_list_iff (usage : Nat) (ks : List Nat) :
    in_monitored_list usage ks = true ↔ usage ∈ ks := by
  induction ks with
  | nil => simp [in_monitored_list]
  | cons k rest ih =>
    unfold in_monitored_list
    by_cases h : usage = k
    · simp [h]
    · simp [h, ih]

/-- The keycode that `poll_devices` hands to the callback is a byte, and
every byte is remapped into the band 0x7700 to 0x77FF. -/
theorem read_keycode_in_band (r : hid_read) :
    r.keycode < 256 ∧ is_qmk_custom_keycode r.keycode = true := by
  have h : r.keycode < 256 := by
    unfold hid_read.keycode
    omega
  refine ⟨h, ?_⟩
  rw [is_qmk_custom_keycode_iff]
  omega

/-- C28: a usage is auto-monitored exactly when `(0x7700 + u) mod 2^16` lies
in the band from 0x7700 up to 0x7800, which is exactly when `u mod 2^16` is
below 0x100; so every keycode from 0 to 255 is monitored whatever the
configuration holds, every usage with `u mod 2^16 < 0x100` is monitored
without a look at the list, and only for the usages with
`u mod 2^16 >= 0x100` the answer is that of the loop over the monitored
keycodes, which is membership in the list. -/
theorem auto_monitored_rule (config : config_t) (u : Nat) :
    (is_qmk_custom_keycode u = true
      ↔ 0x7700 ≤ (0x7700 + u) % 2 ^ 16 ∧ (0x7700 + u) % 2 ^ 16 < 0x7800) ∧
    (is_qmk_custom_keycode u = true ↔ u % 2 ^ 16 < 0x100) ∧
    (u ≤ 255 → keycode_monitored config u = true) ∧
    (u % 2 ^ 16 < 0x100 → keycode_monitored config u = true) ∧
    (0x100 ≤ u % 2 ^ 16 →
      keycode_monitored config u = in_monitored_list u config.monitored_keycodes ∧
      (keycode_monitored config u = true ↔ u ∈ config.monitored_keycodes)) := by
  have hiff := is_qmk_custom_keycode_iff u
  refine ⟨?_, hiff, ?_, ?_, ?_⟩
  · rw [hiff]
    omega
  · intro h
    have : is_qmk_custom_keycode u = true := hiff.2 (by omega)
    simp [keycode_monitored, this]
  · intro h
    have : is_qmk_custom_keycode u = true := hiff.2 h
    simp [keycode_monitored, this]
  · intro h
    have hn : is_qmk_custom_keycode u = false := by
      cases hq : is_qmk_custom_keycode u with
      | false => rfl
      | true =>
        have := hiff.1 hq
        omega
    have he : keycode_monitored config u = in_monitored_list u config.monitored_keycodes := by
      simp [keycode_monitored, hn]
    exact ⟨he, by rw [he]; exact in_monitored_list_iff u _⟩

/-- C28 at work: the usage 0x10005 is auto-monitored with an empty list of
monitored keycodes, the keycode 255 is monitored, and the usage 0x1234 is
monitored exactly through the list. -/
theorem auto_monitored_rule_witness :
    is_qmk_custom_keycode 0x10005 = true ∧
    keycode_monitored remapped_config 255 = true ∧
    keycode_monitored remapped_config 0x10005 = true ∧
    keycode_monitored wide_binding_config 0x1234 = true ∧
    keycode_monitored remapped_config 0x1234 = false :=
  ⟨(auto_monitored_rule remapped_config 0x10005).2.1.2 (by decide),
   (auto_monitored_rule remapped_config 255).2.2.1 (by decide),
   (auto_monitored_rule remapped_config 0x10005).2.2.2.1 (by decide),
   ((auto_monitored_rule wide_binding_config 0x1234).2.2.2.2 (by decide)).2.2 (by decide),
   by decide⟩

/-- No read of `poll_devices` has a keycode that is not a byte. -/
theorem poll_devices_filter (usage : Nat) (h : 256 ≤ usage) (reads : List hid_read) :
    reads.filter (fun r => r.keycode != usage) = reads := by
  rw [List.filter_eq_self]
  intro r _
  have := (read_keycode_in_band r).1
  simp only [bne_iff_ne, ne_eq]
  omega

/-- C22: for every configuration and every usage that is neither in the
monitored keycodes nor remapped into the band from 0x7700 up to 0x7800,
`HIDInputCallback` passes no command to `system`, whatever the bindings of
the profile are; and the commands that `poll_devices` runs through
`handle_key_event` are those it runs when every read with that keycode is
dropped, since the keycode it reads is a byte and every byte is remapped into
the band. -/
theorem dispatch_skips_uninteresting (config : config_t) (usagePage usage : Nat)
    (vendor product : Option Nat) (reads : List hid_read)
    (hlist : usage ∉ config.monitored_keycodes)
    (hband : ¬ (0x7700 ≤ qmk_keycode usage ∧ qmk_keycode usage < 0x7800)) :
    HIDInputCallback config usagePage usage vendor product = [] ∧
    poll_devices (some (handle_key_event config)) reads
      = poll_devices (some (handle_key_event config))
          (reads.filter (fun r => r.keycode != usage)) ∧
    (∀ r ∈ reads, 0x7700 ≤ qmk_keycode r.keycode ∧ qmk_keycode r.keycode < 0x7800) := by
  have hq : is_qmk_custom_keycode usage = false := by
    cases hq : is_qmk_custom_keycode usage with
    | false => rfl
    | true =>
      exfalso
      apply hband
      unfold is_qmk_custom_keycode at hq
      simpa using hq
  have hm : keycode_monitored config usage = false := by
    unfold keycode_monitored
    rw [hq]
    simp only [Bool.false_eq_true, if_false]
    cases hl : in_monitored_list usage config.monitored_keycodes with
    | false => rfl
    | true => exact absurd ((in_monitored_list_iff usage _).1 hl) hlist
  constructor
  · unfold HIDInputCallback
    cases vendor with
    | none => simp
    | some v =>
      cases product with
      | none => simp
      | some p => simp [hm]
  · have h256 : 256 ≤ usage := by
      by_contra hlt
      have : is_qmk_custom_keycode usage = true := by
        rw [is_qmk_custom_keycode_iff]
        omega
      rw [hq] at this
      cases this
    refine ⟨by rw [poll_devices_filter usage h256 reads], ?_⟩
    intro r _
    have hr := (read_keycode_in_band r).2
    unfold is_qmk_custom_keycode at hr
    simpa using hr

/-- C22 at work: the profile 1/2 of `remapped_config` binds the keycode
0x7705, which is neither monitored nor remapped into the band; the callback
runs nothing for it. -/
theorem dispatch_skips_uninteresting_witness :
    get_command_for_key remapped_config 1 2 0x7705 = some "/s -num".toList ∧
    HIDInputCallback remapped_config 7 0x7705 (some 1) (some 2) = [] :=
  ⟨by decide,
   (dispatch_skips_uninteresting remapped_config 7 0x7705 (some 1) (some 2) []
      (by decide) (by decide)).1⟩

/-- C25: for a keyboard event of a device with the identifiers `v` and `p`:
when the usage is auto-monitored, `HIDInputCallback` runs the command of
`get_command_for_key` for the remapped keycode if there is one, and otherwise
that for the usage cut to 8 bits; when the usage is monitored only through
the list, it runs the command for the usage cut to 8 bits and makes no other
lookup; it runs at most one command, and none when the lookups find nothing.
For a usage below 0x100 the remapped keycode is `0x7700 + usage`. -/
theorem HIDInputCallback_resolution (config : config_t) (usage v p : Nat)
    (hv : v < 65536) (hp : p < 65536) :
    (is_qmk_custom_keycode usage = true →
      HIDInputCallback config kHIDPage_KeyboardOrKeypad usage (some v) (some p)
        = match get_command_for_key config v p (qmk_keycode usage) with
          | some command => [command]
          | none => (get_command_for_key config v p (usage % 256)).toList) ∧
    (is_qmk_custom_keycode usage = false → usage ∈ config.monitored_keycodes →
      HIDInputCallback config kHIDPage_KeyboardOrKeypad usage (some v) (some p)
        = (get_command_for_key config v p (usage % 256)).toList) ∧
    (HIDInputCallback config kHIDPage_KeyboardOrKeypad usage (some v) (some p)).length ≤ 1 ∧
    (usage < 0x100 → qmk_keycode usage = 0x7700 + usage) := by
  have hv2 : v % 65536 = v := Nat.mod_eq_of_lt hv
  have hp2 : p % 65536 = p := Nat.mod_eq_of_lt hp
  refine ⟨?_, ?_, ?_, ?_⟩
  · intro hq
    simp only [HIDInputCallback, keycode_monitored, hq, hv2, hp2, if_true, Bool.not_true,
      Bool.false_eq_true, if_false]
    cases get_command_for_key config v p (qmk_keycode usage) with
    | some c => rfl
    | none =>
      cases get_command_for_key config v p (usage % 256) <;> rfl
  · intro hq hmem
    have hl := (in_monitored_list_iff usage config.monitored_keycodes).2 hmem
    simp only [HIDInputCallback, keycode_monitored, hq, hl, hv2, hp2, if_true, Bool.not_true,
      Bool.false_eq_true, if_false]
    cases get_command_for_key config v p (usage % 256) <;> rfl
  · simp only [HIDInputCallback, if_true]
    split_ifs
    · simp
    · cases get_command_for_key config (v % 65536) (p % 65536) (qmk_keycode usage) with
      | some c => simp
      | none =>
        cases get_command_for_key config (v % 65536) (p % 65536) (usage % 256) <;> simp
    · cases get_command_for_key config (v % 65536) (p % 65536) (usage % 256) <;> simp
  · intro h
    rw [qmk_keycode_eq]
    omega

/-- C25 at work: the monitored keycode 0x1234 runs the binding of 0x34 and not
that of 0x1234, and the usage 5 runs the binding of the remapped keycode
0x7705 before that of 5. -/
theorem HIDInputCallback_resolution_witness :
    HIDInputCallback wide_binding_config kHIDPage_KeyboardOrKeypad 0x1234 (some 1) (some 2)
      = ["/s +caps".toList] ∧
    get_command_for_key wide_binding_config 1 2 0x1234 = some "/s -num".toList ∧
    HIDInputCallback remapped_config kHIDPage_KeyboardOrKeypad 5 (some 1) (some 2)
      = ["/s -num".toList] :=
  ⟨((HIDInputCallback_resolution wide_binding_config 0x1234 1 2 (by decide) (by decide)).2.1
      (by decide) (by decide)).trans (by decide),
   by decide,
   ((HIDInputCallback_resolution remapped_config 5 1 2 (by decide) (by decide)).1
      (by decide)).trans (by decide)⟩

/-! ## The ceilings of a loaded configuration -/

/-- The loop over the entries of a `monitored_keycodes` value keeps the list
within its ceiling and its entries within 16 bits. -/
theorem monitored_loop_ceiling (tokens : List (List Char)) (ks : List Nat)
    (hlen : ks.length ≤ MAX_MONITORED_KEYCODES) (hk : ∀ k ∈ ks, k ≤ 0xFFFF) :
    (monitored_loop tokens ks).length ≤ MAX_MONITORED_KEYCODES ∧
    ∀ k ∈ monitored_loop tokens ks, k ≤ 0xFFFF := by
  induction tokens generalizing ks with
  | nil => exact ⟨hlen, hk⟩
  | cons token rest ih =>
    unfold monitored_loop
    by_cases h1 : ks.length < MAX_MONITORED_KEYCODES
    · simp only [h1, if_true]
      by_cases h2 : (decide (0 ≤ parse_keycode token) && decide (parse_keycode token ≤ 65535))
          = true
      · simp only [h2, if_true]
        apply ih
        · simp only [List.length_append, List.length_singleton]
          omega
        · intro k hmem
          rw [List.mem_append, List.mem_singleton] at hmem
          rcases hmem with hmem | hmem
          · exact hk k hmem
          · subst hmem
            simp only [Bool.and_eq_true, decide_eq_true_eq] at h2
            omega
      · simp only [h2]
        exact ih ks hlen hk
    · simp only [h1, if_false]
      exact ⟨hlen, hk⟩

/-- A line of the general section keeps the monitored keycodes within their
ceiling and within 16 bits. -/
theorem general_line_ceiling (c : config_t) (t : List Char)
    (hlen : c.monitored_keycodes.length ≤ MAX_MONITORED_KEYCODES)
    (hk : ∀ k ∈ c.monitored_keycodes, k ≤ 0xFFFF) :
    (general_line c t).monitored_keycodes.length ≤ MAX_MONITORED_KEYCODES ∧
    ∀ k ∈ (general_line c t).monitored_keycodes, k ≤ 0xFFFF := by
  unfold general_line
  cases split_eq t with
  | none => exact ⟨hlen, hk⟩
  | some kv =>
    obtain ⟨k, v⟩ := kv
    dsimp only
    split_ifs
    · exact ⟨hlen, hk⟩
    · exact monitored_loop_ceiling _ _ hlen hk
    · exact ⟨hlen, hk⟩

/-- A line of a device section keeps the bindings of the profile within their
ceiling. -/
theorem device_line_ceiling (d : device_config_t) (t : List Char)
    (h : d.bindings.length ≤ MAX_BINDINGS) :
    (device_line d t).bindings.length ≤ MAX_BINDINGS := by
  rw [device_line_bindings]
  split_ifs with hlt
  · simp only [List.length_append]
    have : ((device_line (new_profile 0 0) t).bindings.head?).toList.length ≤ 1 := by
      cases (device_line (new_profile 0 0) t).bindings.head? <;> simp
    omega
  · exact h

/-- The function `update_at` keeps the length of the list. -/
theorem update_at_length {α : Type} (f : α → α) (l : List α) (i : Nat) :
    (update_at f l i).length = l.length := by
  induction l generalizing i with
  | nil => rfl
  | cons a l ih =>
    cases i with
    | zero => simp [update_at]
    | succ i => simp [update_at, ih]

/-- A property that `f` keeps and that holds of every entry of a list holds of
every entry after `update_at`. -/
theorem update_at_forall {α : Type} (f : α → α) (P : α → Prop) (hf : ∀ a, P a → P (f a))
    (l : List α) (i : Nat) (h : ∀ a ∈ l, P a) : ∀ a ∈ update_at f l i, P a := by
  induction l generalizing i with
  | nil => intro a ha; cases ha
  | cons b l ih =>
    cases i with
    | zero =>
      intro a ha
      simp only [update_at, List.mem_cons] at ha
      rcases ha with ha | ha
      · subst ha
        exact hf b (h b (List.mem_cons_self _ _))
      · exact h a (List.mem_cons_of_mem _ ha)
    | succ i =>
      intro a ha
      simp only [update_at, List.mem_cons] at ha
      rcases ha with ha | ha
      · subst ha
        exact h a (List.mem_cons_self _ _)
      · exact ih i (fun x hx => h x (List.mem_cons_of_mem _ hx)) a ha

/-- One buffer keeps the configuration being filled within the four
ceilings. -/
theorem process_line_ceilings (M : Nat) (st : load_state) (line : List Char)
    (h : st.config.devices.length ≤ M ∧
      (∀ d ∈ st.config.devices, d.bindings.length ≤ MAX_BINDINGS) ∧
      st.config.monitored_keycodes.length ≤ MAX_MONITORED_KEYCODES ∧
      (∀ k ∈ st.config.monitored_keycodes, k ≤ 0xFFFF)) :
    (process_line M st line).config.devices.length ≤ M ∧
    (∀ d ∈ (process_line M st line).config.devices, d.bindings.length ≤ MAX_BINDINGS) ∧
    (process_line M st line).config.monitored_keycodes.length ≤ MAX_MONITORED_KEYCODES ∧
    (∀ k ∈ (process_line M st line).config.monitored_keycodes, k ≤ 0xFFFF) := by
  obtain ⟨h1, h2, h3, h4⟩ := h
  unfold process_line
  cases ht : trim (cstr line) with
  | nil => exact ⟨h1, h2, h3, h4⟩
  | cons c t =>
    dsimp only
    split_ifs with ha hb hc hd he
    · exact ⟨h1, h2, h3, h4⟩
    · exact ⟨h1, h2, h3, h4⟩
    · exact ⟨h1, h2, h3, h4⟩
    · cases sscanf_section (c :: t) with
      | none => exact ⟨h1, h2, h3, h4⟩
      | some ids =>
        obtain ⟨vid, pid⟩ := ids
        dsimp only
        refine ⟨?_, ?_, h3, h4⟩
        · simp only [List.length_append, List.length_singleton]
          omega
        · intro d hmem
          rw [List.mem_append, List.mem_singleton] at hmem
          rcases hmem with hmem | hmem
          · exact h2 d hmem
          · subst hmem
            simp
    · dsimp only
      rw [general_line_devices]
      have hg := general_line_ceiling st.config (c :: t) h3 h4
      exact ⟨h1, h2, hg.1, hg.2⟩
    · cases st.current with
      | none => exact ⟨h1, h2, h3, h4⟩
      | some i =>
        dsimp only
        refine ⟨?_, ?_, h3, h4⟩
        · rw [update_at_length]
          exact h1
        · exact update_at_forall _ (fun d => d.bindings.length ≤ MAX_BINDINGS)
            (fun d hd => device_line_ceiling d (c :: t) hd) _ i h2

/-- The reading loop keeps the configuration being filled within the four
ceilings. -/
theorem load_loop_ceilings (M : Nat) (lines : List (List Char)) (st : load_state)
    (h : st.config.devices.length ≤ M ∧
      (∀ d ∈ st.config.devices, d.bindings.length ≤ MAX_BINDINGS) ∧
      st.config.monitored_keycodes.length ≤ MAX_MONITORED_KEYCODES ∧
      (∀ k ∈ st.config.monitored_keycodes, k ≤ 0xFFFF)) :
    (load_loop M lines st).config.devices.length ≤ M ∧
    (∀ d ∈ (load_loop M lines st).config.devices, d.bindings.length ≤ MAX_BINDINGS) ∧
    (load_loop M lines st).config.monitored_keycodes.length ≤ MAX_MONITORED_KEYCODES ∧
    (∀ k ∈ (load_loop M lines st).config.monitored_keycodes, k ≤ 0xFFFF) := by
  induction lines generalizing st with
  | nil => exact h
  | cons l rest ih =>
    simp only [load_loop, List.foldl_cons]
    exact ih (process_line M st l) (process_line_ceilings M st l h)

/-- For every device ceiling, a loaded configuration is within the ceilings
and has a path that is not empty. -/
theorem load_config_within (M : Nat) (src : List Char) (c0 : config_t) :
    (load_config M (some src) c0).1 = true ∧
    (load_config M (some src) c0).2.devices.length ≤ M ∧
    (∀ d ∈ (load_config M (some src) c0).2.devices, d.bindings.length ≤ MAX_BINDINGS) ∧
    (load_config M (some src) c0).2.monitored_keycodes.length ≤ MAX_MONITORED_KEYCODES ∧
    (∀ k ∈ (load_config M (some src) c0).2.monitored_keycodes, k ≤ 0xFFFF) ∧
    (load_config M (some src) c0).2.setleds_path ≠ [] := by
  have h := load_loop_ceilings M (read_lines src) (initial_state c0)
    (by simp [initial_state])
  simp only [load_config, apply_default_path_devices, apply_default_path_monitored,
    apply_default_path_setleds]
  refine ⟨trivial, h.1, h.2.1, h.2.2.1, h.2.2.2, ?_⟩
  split_ifs with he
  · decide
  · intro hnil
    rw [hnil] at he
    exact he rfl

/-- C24: for every source and every content of `*config` before the call,
`load_config` on the opened source succeeds and leaves a configuration with at
most 10 profiles, at most 5 bindings in every profile, at most 5 monitored
keycodes, each of them at most 0xFFFF, and a `setleds_path` that is not
empty. -/
theorem load_config_ceiling_invariant (src : List Char) (c0 : config_t) :
    (load_config MAX_CONFIG_DEVICES (some src) c0).1 = true ∧
    (load_config MAX_CONFIG_DEVICES (some src) c0).2.device_count ≤ 10 ∧
    (∀ d ∈ (load_config MAX_CONFIG_DEVICES (some src) c0).2.devices, d.binding_count ≤ 5) ∧
    (load_config MAX_CONFIG_DEVICES (some src) c0).2.monitored_keycodes_count ≤ 5 ∧
    (∀ k ∈ (load_config MAX_CONFIG_DEVICES (some src) c0).2.monitored_keycodes,
      0 ≤ k ∧ k ≤ 0xFFFF) ∧
    (load_config MAX_CONFIG_DEVICES (some src) c0).2.setleds_path ≠ [] := by
  have h := load_config_within MAX_CONFIG_DEVICES src c0
  exact ⟨h.1, h.2.1, h.2.2.1, h.2.2.2.1, fun k hk => ⟨Nat.zero_le k, h.2.2.2.2.1 k hk⟩,
    h.2.2.2.2.2⟩

/-! ## The reconciliation of the open devices -/

/-- The first loop of `hid_manager_reload` closes every handle held. -/
theorem closed_handles_eq (devices : List Nat) : closed_handles devices = devices := by
  induction devices with
  | nil => rfl
  | cons h rest ih => simp [closed_handles, ih]

/-- The second loop of `hid_manager_reload` appends, profile by profile, the
handle of the first matching device when its opening succeeds. -/
theorem reload_loop_eq (hid : hid_api) (profiles : List device_config_t) (acc : List Nat) :
    profiles.foldl (fun acc profile => open_configured hid profile acc) acc
      = acc ++ profiles.filterMap (fun profile =>
          (hid.enumerate.find? (fun info =>
            decide (info.vendor_id = profile.vendor ∧ info.product_id = profile.product))).bind
            (fun info => hid.open_path info.path)) := by
  induction profiles generalizing acc with
  | nil => simp
  | cons profile rest ih =>
    rw [List.foldl_cons, ih]
    have hm : (fun info => match_device info profile)
        = fun info : hid_device_info =>
            decide (info.vendor_id = profile.vendor ∧ info.product_id = profile.product) := by
      funext info
      simp only [match_device, beq_iff_eq, Bool.decide_and]
      cases h1 : decide (info.vendor_id = profile.vendor) <;>
        cases h2 : decide (info.product_id = profile.product) <;>
        simp_all
    unfold open_configured
    rw [hm, List.filterMap_cons]
    cases hf : hid.enumerate.find? (fun info =>
        decide (info.vendor_id = profile.vendor ∧ info.product_id = profile.product)) with
    | none => simp
    | some info =>
      cases ho : hid.open_path info.path with
      | none => simp [ho]
      | some handle => simp [ho]

/-- C26: `hid_manager_reload` closes every handle held before and starts from
an empty set; it returns true, and the handles it holds afterwards are, for
the first `min(device_count, 16)` profiles in the order of the configuration,
the results of opening the first enumerated device with the vendor and product
of the profile, those profiles left out that have no such device or whose
first such device fails to open; their number is at most
`min(device_count, 16)`. -/
theorem hid_manager_reload_result (hid : hid_api) (config : config_t) (devices : List Nat) :
    closed_handles devices = devices ∧
    hid_manager_reload hid config devices
      = (true, (config.devices.take (min config.device_count 16)).filterMap (fun profile =>
          (hid.enumerate.find? (fun info =>
            decide (info.vendor_id = profile.vendor ∧ info.product_id = profile.product))).bind
            (fun info => hid.open_path info.path))) ∧
    (hid_manager_reload hid config devices).2.length ≤ min config.device_count 16 := by
  have htake : config.devices.take (min config.device_count 16)
      = config.devices.take MAX_ACTIVE_DEVICES := by
    unfold config_t.device_count MAX_ACTIVE_DEVICES
    rw [List.take_eq_take]
    omega
  have heq : hid_manager_reload hid config devices
      = (true, (config.devices.take (min config.device_count 16)).filterMap (fun profile =>
          (hid.enumerate.find? (fun info =>
            decide (info.vendor_id = profile.vendor ∧ info.product_id = profile.product))).bind
            (fun info => hid.open_path info.path))) := by
    unfold hid_manager_reload
    rw [reload_loop_eq, htake]
    simp
  refine ⟨closed_handles_eq devices, heq, ?_⟩
  rw [heq]
  refine le_trans (List.length_filterMap_le _ _) ?_
  simp [config_t.device_count]

/-- An instance of the reconciliation: the first device that matches the
profile 1/2 fails to open and the second one is not tried, no device matches
5/6, and the device of 3/4 is opened; the handle 7 held before is gone. -/
theorem hid_manager_reload_three_profiles :
    hid_manager_reload three_attached three_profiles [7] = (true, [12]) := by
  decide

/-! ## The entries of `monitored_keycodes` -/

/-- The test of lines 146 and 197 of config.c holds exactly of the strings
whose first two bytes are `0x` or `0X`. -/
theorem has_hex_marker_iff (e : List Char) :
    has_hex_marker e = true ↔ ∃ x r, e = '0' :: x :: r ∧ (x = 'x' ∨ x = 'X') := by
  cases e with
  | nil => simp [has_hex_marker]
  | cons a t =>
    cases t with
    | nil => simp [has_hex_marker]
    | cons b r =>
      simp only [has_hex_marker, Bool.and_eq_true, beq_iff_eq, Bool.or_eq_true, List.cons.injEq]
      constructor
      · rintro ⟨ha, hb⟩
        exact ⟨b, r, ⟨ha, rfl, rfl⟩, hb⟩
      · rintro ⟨x, r2, ⟨ha, hb, _⟩, hx⟩
        exact ⟨ha, hb ▸ hx⟩

/-- The function `atoi` gives 0 when it finds no decimal digit after the
leading white space and the optional sign. -/
theorem atoi_no_digit (e : List Char)
    (h : ∀ c t, (scan_sign (e.dropWhile isspace)).2 = c :: t → digit_value 10 c = none) :
    atoi e = 0 := by
  unfold atoi strtol
  have hscan : (scan_digits 10 (scan_sign (e.dropWhile isspace)).2 0).1 = 0 := by
    cases hs : (scan_sign (e.dropWhile isspace)).2 with
    | nil => rfl
    | cons c t => simp [scan_digits, h c t hs]
  simp only [show ((10 : Nat) == 16) = false by decide, Bool.false_and, Bool.false_eq_true,
    if_false, hscan]
  split_ifs <;> simp_all [long_to_int]

/-- A string in which `atoi` finds no decimal digit does not start with `0x`. -/
theorem no_digit_no_marker (e : List Char)
    (h : ∀ c t, (scan_sign (e.dropWhile isspace)).2 = c :: t → digit_value 10 c = none) :
    has_hex_marker e = false := by
  cases hm : has_hex_marker e with
  | false => rfl
  | true =>
    exfalso
    obtain ⟨x, r, he, _⟩ := (has_hex_marker_iff e).1 hm
    subst he
    have := h '0' (x :: r) (by simp [List.dropWhile, scan_sign, isspace])
    revert this
    decide

/-- The function `atoi` gives 0 on white space followed by `0x` or `0X`. -/
theorem atoi_spaced_hex (ws : List Char) (x : Char) (r : List Char)
    (hws : ∀ c ∈ ws, isspace c = true) (hx : x = 'x' ∨ x = 'X') :
    atoi (ws ++ '0' :: x :: r) = 0 := by
  have hdrop : (ws ++ '0' :: x :: r).dropWhile isspace = '0' :: x :: r := by
    induction ws with
    | nil => simp [List.dropWhile, isspace]
    | cons a m ih =>
      simp only [List.cons_append, List.dropWhile, hws a (List.mem_cons_self _ _)]
      exact ih (fun c hc => hws c (List.mem_cons_of_mem _ hc))
  have hxd : digit_value 10 x = none := by
    rcases hx with hx | hx <;> subst hx <;> decide
  unfold atoi strtol
  rw [hdrop]
  have hsign : scan_sign ('0' :: x :: r) = (false, '0' :: x :: r) := by
    simp [scan_sign]
  have hscan : scan_digits 10 ('0' :: x :: r) 0 = (0, x :: r) := by
    have h0 : digit_value 10 '0' = some 0 := by decide
    simp [scan_digits, h0, hxd]
  simp only [hsign, show ((10 : Nat) == 16) = false by decide, Bool.false_and,
    Bool.false_eq_true, if_false, hscan]
  simp [long_to_int]

/-- White space followed by `0x` does not start with `0x`. -/
theorem spaced_hex_no_marker (ws : List Char) (x : Char) (r : List Char)
    (hne : ws ≠ []) (hws : ∀ c ∈ ws, isspace c = true) :
    has_hex_marker (ws ++ '0' :: x :: r) = false := by
  obtain ⟨a, m, rfl⟩ := List.exists_cons_of_ne_nil hne
  have ha : a ≠ '0' := by
    intro h
    have := hws a (List.mem_cons_self _ _)
    rw [h] at this
    revert this
    decide
  cases m with
  | nil => simp [has_hex_marker, ha]
  | cons b m2 => simp [has_hex_marker, ha]

/-- An entry whose keycode is 0 is stored as 0 when the list has room. -/
theorem monitored_loop_zero (e : List Char) (rest : List (List Char)) (ks : List Nat)
    (hroom : ks.length < MAX_MONITORED_KEYCODES) (h : parse_keycode e = 0) :
    monitored_loop (e :: rest) ks = monitored_loop rest (ks ++ [0]) := by
  rw [monitored_loop]
  simp [hroom, h]

/-- C29: an entry of `monitored_keycodes` is read as hexadecimal, by `strtol`
on what follows its first two bytes, exactly when those two bytes are `0x` or
`0X`, and every other entry is read by `atoi`. So an entry that is white
space followed by `0x` or `0X` and anything (such as ` 0xABCD`), and an entry
in which `atoi` finds no decimal digit after the leading white space and the
optional sign (such as `abc`), has the keycode 0 and, when the list has room,
is stored as the keycode 0. -/
theorem monitored_entry_rule (e : List Char) (rest : List (List Char)) (ks : List Nat)
    (hroom : ks.length < MAX_MONITORED_KEYCODES) :
    (has_hex_marker e = true ↔ ∃ x r, e = '0' :: x :: r ∧ (x = 'x' ∨ x = 'X')) ∧
    (has_hex_marker e = true → parse_keycode e = long_to_int (strtol 16 (e.drop 2))) ∧
    (has_hex_marker e = false → parse_keycode e = atoi e) ∧
    ((∃ ws x r, e = ws ++ '0' :: x :: r ∧ ws ≠ [] ∧ (∀ c ∈ ws, isspace c = true) ∧
        (x = 'x' ∨ x = 'X')) →
      has_hex_marker e = false ∧ parse_keycode e = 0 ∧
      monitored_loop (e :: rest) ks = monitored_loop rest (ks ++ [0])) ∧
    ((∀ c t, (scan_sign (e.dropWhile isspace)).2 = c :: t → digit_value 10 c = none) →
      has_hex_marker e = false ∧ parse_keycode e = 0 ∧
      monitored_loop (e :: rest) ks = monitored_loop rest (ks ++ [0])) := by
  refine ⟨has_hex_marker_iff e, ?_, ?_, ?_, ?_⟩
  · intro h
    simp [parse_keycode, h]
  · intro h
    simp [parse_keycode, h]
  · rintro ⟨ws, x, r, rfl, hne, hws, hx⟩
    have hm := spaced_hex_no_marker ws x r hne hws
    have hp : parse_keycode (ws ++ '0' :: x :: r) = 0 := by
      simp only [parse_keycode, hm, Bool.false_eq_true, if_false]
      exact atoi_spaced_hex ws x r hws hx
    exact ⟨hm, hp, monitored_loop_zero _ rest ks hroom hp⟩
  · intro h
    have hm := no_digit_no_marker e h
    have hp : parse_keycode e = 0 := by
      simp only [parse_keycode, hm, Bool.false_eq_true, if_false]
      exact atoi_no_digit e h
    exact ⟨hm, hp, monitored_loop_zero _ rest ks hroom hp⟩

/-- C29 at work: the entry ` 0xABCD` and the entry `abc` are stored as 0 by
the loop, the line `monitored_keycodes = 0x1234, 0xABCD` loads as the keycodes
0x1234 and 0, and the line `monitored_keycodes = abc` loads as the keycode 0. -/
theorem monitored_entry_rule_witness :
    monitored_loop [" 0xABCD".toList] [0x1234] = [0x1234, 0] ∧
    monitored_loop ["abc".toList] [] = [0] ∧
    (load_config MAX_CONFIG_DEVICES (some spaced_keycodes_source) empty_config).2.monitored_keycodes
      = [0x1234, 0] ∧
    (load_config MAX_CONFIG_DEVICES (some word_keycode_source) empty_config).2.monitored_keycodes
      = [0] :=
  ⟨((monitored_entry_rule " 0xABCD".toList [] [0x1234] (by decide)).2.2.2.1
      ⟨[' '], 'x', "ABCD".toList, by decide, by decide, by decide, Or.inl rfl⟩).2.2,
   ((monitored_entry_rule "abc".toList [] [] (by decide)).2.2.2.2
      (by
        intro c t h
        have hc : c = 'a' := by
          have h2 : (scan_sign ("abc".toList.dropWhile isspace)).2 = "abc".toList := by decide
          rw [h2] at h
          exact (List.cons.inj h).1.symm
        subst hc
        decide)).2.2,
   by decide,
   by decide⟩

/-! ## The device ceiling at the inputs where the code departs from it -/

/-- C8 (defect): the source of eleven sections, whose first ten are header-only
and whose eleventh sets a target and a binding, loads successfully into ten
profiles with the identifiers of the first ten declared sections, and the
first nine are the profiles of the first nine sections; but the tenth profile
is not the tenth declared section: it carries the target `x` and the binding
`1 = +caps` of the eleventh section, so the ten profiles differ from those
loaded from the first ten sections alone. -/
theorem tenth_profile_is_not_tenth_section :
    (load_config MAX_CONFIG_DEVICES (some eleven_sections_source) empty_config).1 = true ∧
    (load_config MAX_CONFIG_DEVICES (some eleven_sections_source) empty_config).2.device_count
      = 10 ∧
    (load_config MAX_CONFIG_DEVICES (some eleven_sections_source) empty_config).2.devices.map
        device_config_t.ids
      = (declared_sections eleven_sections_source).take 10 ∧
    (load_config MAX_CONFIG_DEVICES (some eleven_sections_source) empty_config).2.devices.take 9
      = (load_config MAX_CONFIG_DEVICES (some ten_sections_source) empty_config).2.devices.take 9 ∧
    (load_config MAX_CONFIG_DEVICES (some eleven_sections_source) empty_config).2.devices.drop 9
      = [{ vendor := 10, product := 10, target := "x".toList,
           bindings := [{ keycode := 1, led := "caps".toList, mode := '+' }] }] ∧
    (load_config MAX_CONFIG_DEVICES (some ten_sections_source) empty_config).2.devices.drop 9
      = [{ vendor := 10, product := 10, target := [], bindings := [] }] ∧
    (load_config MAX_CONFIG_DEVICES (some eleven_sections_source) empty_config).2.devices
      ≠ (load_config MAX_CONFIG_DEVICES (some ten_sections_source) empty_config).2.devices := by
  decide

/-- C9 (defect): the source that `test_load_config_limits` writes, seven
sections of seven bindings each, loads successfully, and with the device
ceiling of the data model that `load_config` compares `device_count` with it
gives seven profiles of five bindings each, where the test asserts
`device_count == MAX_DEVICES`; only a ceiling equal to `MAX_DEVICES` gives the
five profiles of the assertion. -/
theorem limits_source_loads_seven_profiles :
    (load_config MAX_CONFIG_DEVICES (some limits_source) empty_config).1 = true ∧
    (load_config MAX_CONFIG_DEVICES (some limits_source) empty_config).2.device_count = 7 ∧
    (load_config MAX_CONFIG_DEVICES (some limits_source) empty_config).2.devices.map
        device_config_t.binding_count
      = [5, 5, 5, 5, 5, 5, 5] ∧
    MAX_DEVICES = 5 ∧
    (load_config MAX_DEVICES (some limits_source) empty_config).2.device_count = MAX_DEVICES := by
  decide

end Belvedere
